import Mathlib

/-!
# Expense reports: lifecycle and currency-normalised totals

A shallow embedding of the report lifecycle of `internal/services` over a relational
store, followed by the properties of the specification that concern it.

Modelling conventions.

* `float64` amounts are rationals (`ℚ`): sums and products are exact, so rounding and the
  order of summation are outside the model.
* `uint` ids are natural numbers.
* The database is three tables held as lists of rows: `expenses`, `expense_reports` and the
  many-to-many join table `report_expenses`.  Soft deletion (`gorm.DeletedAt`) is the flag
  `Deleted`; every gorm query on a model with that column sees live rows only.  Time stamps
  (`CreatedAt`, `UpdatedAt`) and the preloaded `User` are left out.
* Every repository call of a service can fail for reasons outside the data (connection,
  constraint): `Faults` says, per call site, whether it does.  A failed call changes nothing.
* Redis is a list of key/value pairs, and expiry is Redis's own: an expired entry is an
  absent key.  Where a property speaks of the commands sent or of a time-to-live, the
  operation is given with the log of its commands (`ExternalCall`), which records the
  seconds of every write.  The services ignore the result of `DEL` and `SET`; both are taken
  as executed.
* `int` is the 64-bit integer of Go: results of its arithmetic wrap around (`wrapInt`).
* The report service reaches currency conversion through the interface `CurrencyService`;
  a value of that type is a rate source whose answers do not change between calls.  The
  service shares the Redis client of the report service: `Cache` is what a conversion does
  to the key space (the rate it may store).
* `strings.ToUpper` is Unicode-aware; the currency service takes it as a library function
  (`RateBackend.ToUpper`), and every property of the service is stated for whatever
  function that is.
-/

namespace FlyPro

/-! ## internal/utils/errors.go -/

/-- ErrorType of `utils/errors.go`: the five kinds an `AppError` can carry. -/
inductive ErrorType where
  | Validation
  | NotFound
  | Conflict
  | Internal
  | BadRequest
  deriving DecidableEq, Repr

/-- The error a repository call returns: gorm's `ErrRecordNotFound`, or any other failure. -/
inductive DBError where
  | RecordNotFound
  | Failure
  deriving DecidableEq, Repr

/-- AppError of `utils/errors.go`; `Type_` is its field `Type`, `Internal` the wrapped cause. -/
structure AppError where
  Type_ : ErrorType
  Message : String
  Field : String
  Code : Nat
  Internal : Option DBError
  deriving DecidableEq, Repr

/-- NewNotFoundError: kind `NOT_FOUND`, status 404, message `<resource> not found`. -/
def NewNotFoundError (resource : String) : AppError :=
  { Type_ := ErrorType.NotFound, Message := resource ++ " not found", Field := "",
    Code := 404, Internal := none }

/-- NewInternalError: kind `INTERNAL_ERROR`, status 500, wraps the cause. -/
def NewInternalError (message : String) (err : DBError) : AppError :=
  { Type_ := ErrorType.Internal, Message := message, Field := "", Code := 500,
    Internal := some err }

/-- NewBadRequestError: kind `BAD_REQUEST`, status 400. -/
def NewBadRequestError (message : String) : AppError :=
  { Type_ := ErrorType.BadRequest, Message := message, Field := "", Code := 400,
    Internal := none }

/-! ## internal/models -/

/-- Expense of `models/expense.go` (a row of table `expenses`). -/
structure Expense where
  ID : Nat
  UserID : Nat
  Amount : ℚ
  Currency : String
  Category : String
  Description : String
  Receipt : String
  Status : String
  Deleted : Bool
  deriving DecidableEq, Repr

/-- ExpenseReport of `models/expense_report.go`.  A stored row keeps `Expenses` empty: the
association lives in the join table and is filled in by `Preload("Expenses")`. -/
structure ExpenseReport where
  ID : Nat
  UserID : Nat
  Title : String
  Status : String
  Total : ℚ
  Deleted : Bool
  Expenses : List Expense
  deriving DecidableEq, Repr

def ExpenseStatusPending : String := "pending"

def ReportStatusDraft : String := "draft"

def ReportStatusSubmitted : String := "submitted"

def ReportStatusApproved : String := "approved"

/-! ## internal/dto -/

structure CreateExpenseReportRequest where
  Title : String
  deriving DecidableEq, Repr

structure AddExpensesToReportRequest where
  ExpenseIDs : List Nat
  deriving DecidableEq, Repr

structure CreateExpenseRequest where
  Amount : ℚ
  Currency : String
  Category : String
  Description : String
  Receipt : String
  deriving DecidableEq, Repr

/-- UpdateExpenseRequest: `Amount` is a pointer (absent = `none`), the other fields are
strings whose zero value `""` means "leave as is". -/
structure UpdateExpenseRequest where
  Amount : Option ℚ
  Currency : String
  Category : String
  Description : String
  Receipt : String
  Status : String
  deriving DecidableEq, Repr

structure ExpenseResponse where
  ID : Nat
  UserID : Nat
  Amount : ℚ
  Currency : String
  Category : String
  Description : String
  Receipt : String
  Status : String
  deriving DecidableEq, Repr

structure ExpenseReportResponse where
  ID : Nat
  UserID : Nat
  Title : String
  Status : String
  Total : ℚ
  Expenses : List ExpenseResponse
  deriving DecidableEq, Repr

/-! ## The store -/

/-- The relational store: the two entity tables and the join table
`report_expenses (expense_report_id, expense_id)`. -/
structure DB where
  expenses : List Expense
  expense_reports : List ExpenseReport
  report_expenses : List (Nat × Nat)
  deriving DecidableEq, Repr

/-- State the services act on: the database and the Redis key space. -/
structure World where
  db : DB
  redis : List (String × String)
  deriving DecidableEq, Repr

def DB.empty : DB :=
  { expenses := [], expense_reports := [], report_expenses := [] }

def World.empty : World :=
  { db := DB.empty, redis := [] }

/-- Value an auto-increment primary key gets on insert: one more than the largest in use. -/
def nextID (ids : List Nat) : Nat :=
  ids.foldl max 0 + 1

/-- Repository call sites of the services, for fault injection. -/
inductive RepoCall where
  | reportCreate
  | reportGetByID
  | expenseGetByUserIDAndIDs
  | reportAddExpenses
  | calculateTotalGetByID
  | reportUpdateTotal
  | reportUpdate
  | expenseCreate
  | expenseGetByID
  | expenseUpdate
  | expenseDelete
  deriving DecidableEq, Repr

/-- Which repository calls of one service operation fail for reasons outside the data. -/
abbrev Faults := RepoCall → Bool

/-- No repository call fails. -/
def noFaults : Faults := fun _ => false

/-- Outcome of a repository call at a call site: a failure when the site is faulted,
otherwise what the query yields on the data. -/
def attempt {α : Type} (fails : Bool) (r : Except DBError α) : Except DBError α :=
  if fails then Except.error DBError.Failure else r

/-- Redis `DEL key`. -/
def Del (redis : List (String × String)) (key : String) : List (String × String) :=
  redis.filter (fun kv => decide (kv.1 ≠ key))

/-! ## internal/repository/expense_repository.go -/

namespace expenseRepository

/-- Create: `db.Create(expense)`; the row gets the next primary key. -/
def Create (db : DB) (expense : Expense) : Except DBError (DB × Expense) :=
  let row := { expense with ID := nextID (db.expenses.map (fun e => e.ID)) }
  Except.ok ({ db with expenses := db.expenses ++ [row] }, row)

/-- GetByID: `db.First(&expense, id)`, the live row with that primary key. -/
def GetByID (db : DB) (id : Nat) : Except DBError Expense :=
  match db.expenses.find? (fun e => decide (e.ID = id) && !e.Deleted) with
  | none => Except.error DBError.RecordNotFound
  | some e => Except.ok e

/-- Update: `db.Save(expense)` writes every column of the row with the struct's primary key
(and inserts the row when the key is not in the table). -/
def Update (db : DB) (expense : Expense) : Except DBError DB :=
  if db.expenses.any (fun e => decide (e.ID = expense.ID)) then
    Except.ok { db with
      expenses := db.expenses.map (fun e => if e.ID = expense.ID then expense else e) }
  else
    Except.ok { db with expenses := db.expenses ++ [expense] }

/-- Delete: `db.Delete(&Expense{}, id)` is a soft delete, it marks the live row. -/
def Delete (db : DB) (id : Nat) : Except DBError DB :=
  Except.ok { db with
    expenses := db.expenses.map
      (fun e => if e.ID = id ∧ e.Deleted = false then { e with Deleted := true } else e) }

/-- GetByUserIDAndIDs: `WHERE user_id = ? AND id IN ?` over live rows. -/
def GetByUserIDAndIDs (db : DB) (userID : Nat) (ids : List Nat) : Except DBError (List Expense) :=
  Except.ok (db.expenses.filter
    (fun e => decide (e.UserID = userID) && decide (e.ID ∈ ids) && !e.Deleted))

end expenseRepository

/-! ## internal/repository/expense_report_repository.go -/

namespace expenseReportRepository

/-- The rows `Preload("Expenses")` loads for a report: the live expenses the join table
links to it, each once. -/
def preloadExpenses (db : DB) (reportID : Nat) : List Expense :=
  db.expenses.filter (fun e => !e.Deleted && decide ((reportID, e.ID) ∈ db.report_expenses))

/-- Create: `db.Create(report)`; the row gets the next primary key. -/
def Create (db : DB) (report : ExpenseReport) : Except DBError (DB × ExpenseReport) :=
  let row := { report with ID := nextID (db.expense_reports.map (fun r => r.ID)) }
  Except.ok ({ db with expense_reports := db.expense_reports ++ [{ row with Expenses := [] }] },
    row)

/-- GetByID: `Preload("User").Preload("Expenses").First(&report, id)`. -/
def GetByID (db : DB) (id : Nat) : Except DBError ExpenseReport :=
  match db.expense_reports.find? (fun r => decide (r.ID = id) && !r.Deleted) with
  | none => Except.error DBError.RecordNotFound
  | some r => Except.ok { r with Expenses := preloadExpenses db r.ID }

/-- Update: `db.Save(report)` writes every column of the row with the struct's primary key
(and inserts the row when the key is not in the table).  The expenses in the struct were
loaded from the join table, so saving them again adds nothing. -/
def Update (db : DB) (report : ExpenseReport) : Except DBError DB :=
  let row := { report with Expenses := [] }
  if db.expense_reports.any (fun r => decide (r.ID = report.ID)) then
    Except.ok { db with
      expense_reports := db.expense_reports.map (fun r => if r.ID = report.ID then row else r) }
  else
    Except.ok { db with expense_reports := db.expense_reports ++ [row] }

/-- AddExpenses: `Model(&ExpenseReport{ID: reportID}).Association("Expenses").Append(
&models.Expense{}, "id IN ?", expenseIDs)`.  `Append` takes the values to append, not a
query: the three arguments are a blank expense, a string and the slice of ids.  Every id of
the slice is refused ("unsupported data type: *uint for relation Expenses"), so the call
fails and writes nothing whenever an id is requested.  For an empty slice only the blank
expense is left: it is inserted under the next primary key (user 0, amount 0, empty
currency and category, status from the column default) and linked to the report.  The
requested expenses are never linked. -/
def AddExpenses (db : DB) (reportID : Nat) (expenseIDs : List Nat) : Except DBError DB :=
  match expenseIDs with
  | _ :: _ => Except.error DBError.Failure
  | [] =>
    let blank : Expense :=
      { ID := nextID (db.expenses.map (fun e => e.ID)), UserID := 0, Amount := 0,
        Currency := "", Category := "", Description := "", Receipt := "",
        Status := ExpenseStatusPending, Deleted := false }
    Except.ok { db with
      expenses := db.expenses ++ [blank],
      report_expenses := db.report_expenses ++ [(reportID, blank.ID)] }

/-- UpdateTotal: `UPDATE expense_reports SET total = ? WHERE id = ?` over live rows. -/
def UpdateTotal (db : DB) (reportID : Nat) (total : ℚ) : Except DBError DB :=
  Except.ok { db with
    expense_reports := db.expense_reports.map
      (fun r => if r.ID = reportID ∧ r.Deleted = false then { r with Total := total } else r) }

end expenseReportRepository

/-! ## internal/services/currency_service.go -/

/-- CurrencyService, the interface the report service converts through, for a rate source
whose answers do not change between calls: a conversion or a rate lookup either yields a
number or fails with a message.  The implementation shares the Redis client of the report
service; `Cache redis src dst` is the key space a conversion from `src` to `dst` leaves
behind when it starts from `redis`. -/
structure CurrencyService where
  ConvertCurrency : ℚ → String → String → Except String ℚ
  GetExchangeRate : String → String → Except String ℚ
  Cache : List (String × String) → String → String → List (String × String)

/-- ConvertCurrency of `currencyService`, over the upper-casing `upper` of the codes and the
rate lookup `getExchangeRate` it calls: same currency after upper-casing gives the amount
back, otherwise the amount times the rate, or the lookup's error. -/
def ConvertCurrency (upper : String → String)
    (getExchangeRate : String → String → Except String ℚ)
    (amount : ℚ) (src dst : String) : Except String ℚ :=
  if upper src = upper dst then
    Except.ok amount
  else
    match getExchangeRate src dst with
    | Except.error err => Except.error err
    | Except.ok rate => Except.ok (amount * rate)

/-! ## internal/services/expense_report_service.go -/

def mapToExpenseResponse (expense : Expense) : ExpenseResponse :=
  { ID := expense.ID, UserID := expense.UserID, Amount := expense.Amount,
    Currency := expense.Currency, Category := expense.Category,
    Description := expense.Description, Receipt := expense.Receipt, Status := expense.Status }

def mapToReportResponse (report : ExpenseReport) : ExpenseReportResponse :=
  { ID := report.ID, UserID := report.UserID, Title := report.Title, Status := report.Status,
    Total := report.Total, Expenses := report.Expenses.map mapToExpenseResponse }

/-- CreateReport: a draft with total 0; drops the owner's report-list cache key. -/
def CreateReport (f : Faults) (w : World) (userID : Nat) (req : CreateExpenseReportRequest) :
    Except AppError ExpenseReportResponse × World :=
  let report : ExpenseReport :=
    { ID := 0, UserID := userID, Title := req.Title, Status := ReportStatusDraft, Total := 0,
      Deleted := false, Expenses := [] }
  match attempt (f RepoCall.reportCreate) (expenseReportRepository.Create w.db report) with
  | Except.error err =>
    (Except.error (NewInternalError "failed to create expense report" err), w)
  | Except.ok (db1, report1) =>
    (Except.ok (mapToReportResponse report1),
      { db := db1, redis := Del w.redis ("reports:user:" ++ toString userID) })

/-- What one expense adds to the total in the loop of `calculateTotal`: its amount
converted to USD, or the amount itself when the conversion fails. -/
def amountUSD (cs : CurrencyService) (expense : Expense) : ℚ :=
  match cs.ConvertCurrency expense.Amount expense.Currency "USD" with
  | Except.error _ => expense.Amount
  | Except.ok converted => converted

/-- calculateTotal: reloads the report and adds up its expenses, starting from 0. -/
def calculateTotal (cs : CurrencyService) (f : Faults) (db : DB) (reportID : Nat) :
    Except DBError ℚ :=
  match attempt (f RepoCall.calculateTotalGetByID)
      (expenseReportRepository.GetByID db reportID) with
  | Except.error err => Except.error err
  | Except.ok report =>
    Except.ok (report.Expenses.foldl (fun total expense => total + amountUSD cs expense) 0)

/-- The key space the conversions of `calculateTotal` leave behind: one conversion to USD
for each expense of the reloaded report, in order; none when the reload fails. -/
def calculateTotalCache (cs : CurrencyService) (f : Faults) (db : DB) (reportID : Nat)
    (redis : List (String × String)) : List (String × String) :=
  match attempt (f RepoCall.calculateTotalGetByID)
      (expenseReportRepository.GetByID db reportID) with
  | Except.error _ => redis
  | Except.ok report =>
    report.Expenses.foldl (fun keys expense => cs.Cache keys expense.Currency "USD") redis

/-- AddExpensesToReport: existence, ownership, draft state, resolution of the ids, then
association, recomputation of the total, and cache invalidation. -/
def AddExpensesToReport (cs : CurrencyService) (f : Faults) (w : World)
    (reportID userID : Nat) (req : AddExpensesToReportRequest) : Option AppError × World :=
  match attempt (f RepoCall.reportGetByID) (expenseReportRepository.GetByID w.db reportID) with
  | Except.error _ => (some (NewNotFoundError "expense report"), w)
  | Except.ok report =>
    if report.UserID ≠ userID then
      (some (NewBadRequestError "you can only modify your own reports"), w)
    else if report.Status ≠ ReportStatusDraft then
      (some (NewBadRequestError "can only add expenses to draft reports"), w)
    else
      match attempt (f RepoCall.expenseGetByUserIDAndIDs)
          (expenseRepository.GetByUserIDAndIDs w.db userID req.ExpenseIDs) with
      | Except.error err => (some (NewInternalError "failed to fetch expenses" err), w)
      | Except.ok expenses =>
        if expenses.length ≠ req.ExpenseIDs.length then
          (some (NewBadRequestError "some expenses not found or do not belong to you"), w)
        else
          match attempt (f RepoCall.reportAddExpenses)
              (expenseReportRepository.AddExpenses w.db reportID req.ExpenseIDs) with
          | Except.error err =>
            (some (NewInternalError "failed to add expenses to report" err), w)
          | Except.ok db1 =>
            match calculateTotal cs f db1 reportID with
            | Except.error err =>
              (some (NewInternalError "failed to calculate total" err), { w with db := db1 })
            | Except.ok total =>
              let redis1 := calculateTotalCache cs f db1 reportID w.redis
              match attempt (f RepoCall.reportUpdateTotal)
                  (expenseReportRepository.UpdateTotal db1 reportID total) with
              | Except.error err =>
                (some (NewInternalError "failed to update total" err),
                  { db := db1, redis := redis1 })
              | Except.ok db2 =>
                (none,
                  { db := db2,
                    redis := Del (Del redis1 ("report:" ++ toString reportID))
                      ("reports:user:" ++ toString userID) })

/-- SubmitReport: existence, ownership, draft state, at least one expense, then the status
is saved as submitted and the caches are invalidated. -/
def SubmitReport (f : Faults) (w : World) (reportID userID : Nat) : Option AppError × World :=
  match attempt (f RepoCall.reportGetByID) (expenseReportRepository.GetByID w.db reportID) with
  | Except.error _ => (some (NewNotFoundError "expense report"), w)
  | Except.ok report =>
    if report.UserID ≠ userID then
      (some (NewBadRequestError "you can only submit your own reports"), w)
    else if report.Status ≠ ReportStatusDraft then
      (some (NewBadRequestError "can only submit draft reports"), w)
    else if report.Expenses.length = 0 then
      (some (NewBadRequestError "cannot submit report without expenses"), w)
    else
      match attempt (f RepoCall.reportUpdate)
          (expenseReportRepository.Update w.db { report with Status := ReportStatusSubmitted }) with
      | Except.error err => (some (NewInternalError "failed to submit report" err), w)
      | Except.ok db1 =>
        (none,
          { db := db1,
            redis := Del (Del w.redis ("report:" ++ toString reportID))
              ("reports:user:" ++ toString userID) })

/-! ## internal/services/expense_service.go -/

/-- CreateExpense: a pending expense of the acting user; drops the user's list cache key. -/
def CreateExpense (f : Faults) (w : World) (userID : Nat) (req : CreateExpenseRequest) :
    Except AppError ExpenseResponse × World :=
  let expense : Expense :=
    { ID := 0, UserID := userID, Amount := req.Amount, Currency := req.Currency,
      Category := req.Category, Description := req.Description, Receipt := req.Receipt,
      Status := ExpenseStatusPending, Deleted := false }
  match attempt (f RepoCall.expenseCreate) (expenseRepository.Create w.db expense) with
  | Except.error err => (Except.error (NewInternalError "failed to create expense" err), w)
  | Except.ok (db1, expense1) =>
    (Except.ok (mapToExpenseResponse expense1),
      { db := db1, redis := Del w.redis ("expenses:user:" ++ toString userID) })

/-- The field updates of `UpdateExpense`: a field of the request that is present (non-nil
amount, non-empty string) replaces the stored one. -/
def applyUpdate (expense : Expense) (req : UpdateExpenseRequest) : Expense :=
  let e1 := match req.Amount with
    | some a => { expense with Amount := a }
    | none => expense
  let e2 := if req.Currency ≠ "" then { e1 with Currency := req.Currency } else e1
  let e3 := if req.Category ≠ "" then { e2 with Category := req.Category } else e2
  let e4 := if req.Description ≠ "" then { e3 with Description := req.Description } else e3
  let e5 := if req.Receipt ≠ "" then { e4 with Receipt := req.Receipt } else e4
  if req.Status ≠ "" then { e5 with Status := req.Status } else e5

/-- UpdateExpense: existence, ownership, field updates, save, cache invalidation. -/
def UpdateExpense (f : Faults) (w : World) (id userID : Nat) (req : UpdateExpenseRequest) :
    Except AppError ExpenseResponse × World :=
  match attempt (f RepoCall.expenseGetByID) (expenseRepository.GetByID w.db id) with
  | Except.error _ => (Except.error (NewNotFoundError "expense"), w)
  | Except.ok expense =>
    if expense.UserID ≠ userID then
      (Except.error (NewBadRequestError "you can only update your own expenses"), w)
    else
      let expense1 := applyUpdate expense req
      match attempt (f RepoCall.expenseUpdate) (expenseRepository.Update w.db expense1) with
      | Except.error err => (Except.error (NewInternalError "failed to update expense" err), w)
      | Except.ok db1 =>
        (Except.ok (mapToExpenseResponse expense1),
          { db := db1, redis := Del w.redis ("expenses:user:" ++ toString userID) })

/-- DeleteExpense: existence, ownership, soft delete, cache invalidation. -/
def DeleteExpense (f : Faults) (w : World) (id userID : Nat) : Option AppError × World :=
  match attempt (f RepoCall.expenseGetByID) (expenseRepository.GetByID w.db id) with
  | Except.error _ => (some (NewNotFoundError "expense"), w)
  | Except.ok expense =>
    if expense.UserID ≠ userID then
      (some (NewBadRequestError "you can only delete your own expenses"), w)
    else
      match attempt (f RepoCall.expenseDelete) (expenseRepository.Delete w.db id) with
      | Except.error err => (some (NewInternalError "failed to delete expense" err), w)
      | Except.ok db1 =>
        (none, { db := db1, redis := Del w.redis ("expenses:user:" ++ toString userID) })

/-! ## Redis reads and writes

The store keeps no clock: an entry written with a time-to-live is there until it is deleted
or overwritten, and its expiry is an event outside the services.  A key that has expired is
a key that is absent. -/

namespace redisClient

/-- Redis `GET key`: the value under the key, if any. -/
def Get (redis : List (String × String)) (key : String) : Option String :=
  (redis.find? (fun kv => decide (kv.1 = key))).map (fun kv => kv.2)

/-- Redis `SET key value EX seconds`: the key then holds the value, other keys are as they
were. -/
def Set (redis : List (String × String)) (key value : String) (_seconds : Nat) :
    List (String × String) :=
  Del redis key ++ [(key, value)]

end redisClient

/-! ## internal/services/currency_service.go: the rate cache

The currency service talks to Redis and to the rate provider.  Its state is the Redis key
space together with the list of the commands and requests it has sent, in order. -/

/-- A command sent to Redis or a request sent to the rate provider. -/
inductive ExternalCall where
  | redisGet (key : String)
  | redisSet (key value : String) (seconds : Nat)
  | httpGet (url : String)
  deriving DecidableEq, Repr

/-- The Redis key space and the calls sent so far. -/
structure RateState where
  redis : List (String × String)
  calls : List ExternalCall
  deriving DecidableEq, Repr

/-- What `httpClient.Do` hands back when it returns a response: the status code and what
`io.ReadAll` gets from the body. -/
structure HTTPResponse where
  StatusCode : Nat
  Body : Except String String

/-- ExchangeRateResponse, the decoded payload of the provider. -/
structure ExchangeRateResponse where
  Rates : List (String × ℚ)
  Base : String
  Date : String
  deriving DecidableEq, Repr

/-- What the currency service is built on: the configured `Currency.APIURL`, the answer of
the provider to a GET of a URL (an error when no response arrives), and the library calls
`strings.ToUpper`, `json.Unmarshal` into `ExchangeRateResponse`,
`fmt.Sscanf(text, "%f", &rate)` and `fmt.Sprintf("%f", rate)`. -/
structure RateBackend where
  APIURL : String
  ToUpper : String → String
  Do : String → Except String HTTPResponse
  Unmarshal : String → Except String ExchangeRateResponse
  Sscanf : String → Except String ℚ
  Sprintf : ℚ → String

/-- Seconds in `6*time.Hour`, the freshness window of a cached rate. -/
def rateTTL : Nat := 6 * 60 * 60

namespace currencyService

/-- The cache key of an ordered pair of upper-cased codes. -/
def cacheKey (src dst : String) : String :=
  "exchange_rate:" ++ src ++ ":" ++ dst

/-- fetchExchangeRate: one GET of `<APIURL>/<from>`; fails when no response arrives, when
the status is not 200, when the body cannot be read or decoded, and when the decoded rates
hold no entry for `to`. -/
def fetchExchangeRate (b : RateBackend) (s : RateState) (src dst : String) :
    Except String ℚ × RateState :=
  let url := b.APIURL ++ "/" ++ src
  let s1 : RateState := { s with calls := s.calls ++ [ExternalCall.httpGet url] }
  match b.Do url with
  | Except.error err => (Except.error err, s1)
  | Except.ok resp =>
    if resp.StatusCode ≠ 200 then
      let body := match resp.Body with
        | Except.ok text => text
        | Except.error _ => ""
      (Except.error ("API returned status " ++ toString resp.StatusCode ++ ": " ++ body), s1)
    else
      match resp.Body with
      | Except.error err => (Except.error err, s1)
      | Except.ok body =>
        match b.Unmarshal body with
        | Except.error err => (Except.error err, s1)
        | Except.ok data =>
          match data.Rates.lookup dst with
          | none => (Except.error ("currency code " ++ dst ++ " not found in response"), s1)
          | some rate => (Except.ok rate, s1)

/-- GetExchangeRate: 1 for a pair equal after upper-casing; otherwise the cached rate when
the key holds text that parses, otherwise the rate fetched from the provider, which is then
cached for six hours. -/
def GetExchangeRate (b : RateBackend) (s : RateState) (src dst : String) :
    Except String ℚ × RateState :=
  let src := b.ToUpper src
  let dst := b.ToUpper dst
  if src = dst then
    (Except.ok 1, s)
  else
    let key := cacheKey src dst
    let s1 : RateState := { s with calls := s.calls ++ [ExternalCall.redisGet key] }
    let cached : Option ℚ :=
      match redisClient.Get s.redis key with
      | none => none
      | some cachedRate =>
        match b.Sscanf cachedRate with
        | Except.error _ => none
        | Except.ok rate => some rate
    match cached with
    | some rate => (Except.ok rate, s1)
    | none =>
      match fetchExchangeRate b s1 src dst with
      | (Except.error err, s2) =>
        (Except.error ("failed to fetch exchange rate: " ++ err), s2)
      | (Except.ok rate, s2) =>
        (Except.ok rate,
          { redis := redisClient.Set s2.redis key (b.Sprintf rate) rateTTL,
            calls := s2.calls ++ [ExternalCall.redisSet key (b.Sprintf rate) rateTTL] })

/-- ConvertCurrency: the amount itself for a pair equal after upper-casing; otherwise the
amount times the rate `GetExchangeRate` returns, or its error. -/
def ConvertCurrency (b : RateBackend) (s : RateState) (amount : ℚ) (src dst : String) :
    Except String ℚ × RateState :=
  if b.ToUpper src = b.ToUpper dst then
    (Except.ok amount, s)
  else
    match GetExchangeRate b s src dst with
    | (Except.error err, s1) => (Except.error err, s1)
    | (Except.ok rate, s1) => (Except.ok (amount * rate), s1)

end currencyService

/-! ## internal/services/expense_report_service.go: GetReportByID -/

/-- The library calls `json.Marshal` and `json.Unmarshal` on `models.ExpenseReport`. -/
structure ReportCodec where
  Marshal : ExpenseReport → String
  Unmarshal : String → Except String ExpenseReport

/-- Seconds in `30*time.Minute`, the time-to-live of a cached report. -/
def reportTTL : Nat := 30 * 60

/-- GetReportByID: the cached snapshot when the key `report:<id>` holds text that decodes;
otherwise the report read from the repository, which is then cached for 30 minutes. -/
def GetReportByID (codec : ReportCodec) (f : Faults) (w : World) (id : Nat) :
    Except AppError ExpenseReportResponse × World :=
  let cacheKey := "report:" ++ toString id
  let cached : Option ExpenseReport :=
    match redisClient.Get w.redis cacheKey with
    | none => none
    | some cachedReport =>
      match codec.Unmarshal cachedReport with
      | Except.error _ => none
      | Except.ok report => some report
  match cached with
  | some report => (Except.ok (mapToReportResponse report), w)
  | none =>
    match attempt (f RepoCall.reportGetByID) (expenseReportRepository.GetByID w.db id) with
    | Except.error _ => (Except.error (NewNotFoundError "expense report"), w)
    | Except.ok report =>
      (Except.ok (mapToReportResponse report),
        { w with redis := redisClient.Set w.redis cacheKey (codec.Marshal report) reportTTL })

/-! ## The verb `%f` of package fmt, on decimal text -/

/-- The number a run of decimal digits stands for. -/
def digitsValue (digits : List Char) : Nat :=
  digits.foldl (fun n c => 10 * n + (c.toNat - 48)) 0

/-- Sprintf("%f", x): sign, integer part, a point and six decimals, the value rounded to the
nearest millionth (a tie goes to the even neighbour). -/
def sprintfF (x : ℚ) : String :=
  let scaled := x.num.natAbs * 1000000
  let q := scaled / x.den
  let r := scaled % x.den
  let rounded := if x.den < 2 * r ∨ (2 * r = x.den ∧ q % 2 = 1) then q + 1 else q
  let frac := toString (rounded % 1000000)
  (if x < 0 then "-" else "") ++ toString (rounded / 1000000) ++ "." ++
    String.mk (List.replicate (6 - frac.length) '0') ++ frac

/-- Sscanf(text, "%f", &x) on text that starts, after blanks, with an optional sign and a
decimal numeral: the number read; an error when no digit is found.  Exponents, hexadecimal
numerals, "inf" and "nan" are not read. -/
def sscanfF (text : String) : Except String ℚ :=
  let cs := text.data.dropWhile (fun c => c == ' ')
  let signed : Bool × List Char :=
    match cs with
    | '-' :: rest => (true, rest)
    | '+' :: rest => (false, rest)
    | _ => (false, cs)
  let whole := signed.2.takeWhile Char.isDigit
  let decimals :=
    match signed.2.dropWhile Char.isDigit with
    | '.' :: rest => rest.takeWhile Char.isDigit
    | _ => []
  if whole = [] ∧ decimals = [] then
    Except.error "expected number"
  else
    let v : ℚ := (digitsValue whole : ℚ) + (digitsValue decimals : ℚ) / (10 : ℚ) ^ decimals.length
    Except.ok (if signed.1 then -v else v)

/-! ## The currency service as the report service holds it -/

/-- The currency service of a rate source that answers the same way on every call, with
what it does to the shared key space: a conversion between codes that differ after
upper-casing, whose key holds no rate that parses and whose lookup succeeds, stores the rate
under the key of the pair for six hours; no other conversion writes. -/
def currencyService (upper : String → String)
    (getExchangeRate : String → String → Except String ℚ) : CurrencyService :=
  { ConvertCurrency := ConvertCurrency upper getExchangeRate,
    GetExchangeRate := getExchangeRate,
    Cache := fun redis src dst =>
      if upper src = upper dst then
        redis
      else
        let key := currencyService.cacheKey (upper src) (upper dst)
        let cached : Bool :=
          match redisClient.Get redis key with
          | none => false
          | some text =>
            match sscanfF text with
            | Except.error _ => false
            | Except.ok _ => true
        if cached then
          redis
        else
          match getExchangeRate src dst with
          | Except.error _ => redis
          | Except.ok rate => redisClient.Set redis key (sprintfF rate) rateTTL }

/-! ## internal/services/expense_report_service.go: what GetReportByID sends to Redis -/

/-- GetReportByID together with the Redis commands it sends, in order: the read of the key
`report:<id>` and, after a repository read that finds the report, the write of the snapshot
with a time-to-live of `30*time.Minute`. -/
def GetReportByIDTraced (codec : ReportCodec) (f : Faults) (w : World) (id : Nat) :
    (Except AppError ExpenseReportResponse × World) × List ExternalCall :=
  let cacheKey := "report:" ++ toString id
  let cached : Option ExpenseReport :=
    match redisClient.Get w.redis cacheKey with
    | none => none
    | some cachedReport =>
      match codec.Unmarshal cachedReport with
      | Except.error _ => none
      | Except.ok report => some report
  match cached with
  | some report =>
    ((Except.ok (mapToReportResponse report), w), [ExternalCall.redisGet cacheKey])
  | none =>
    match attempt (f RepoCall.reportGetByID) (expenseReportRepository.GetByID w.db id) with
    | Except.error _ =>
      ((Except.error (NewNotFoundError "expense report"), w), [ExternalCall.redisGet cacheKey])
    | Except.ok report =>
      ((Except.ok (mapToReportResponse report),
          { w with
            redis := redisClient.Set w.redis cacheKey (codec.Marshal report) reportTTL }),
        [ExternalCall.redisGet cacheKey,
         ExternalCall.redisSet cacheKey (codec.Marshal report) reportTTL])

/-! ## internal/models/user.go, internal/dto/user.go, internal/services/user_service.go -/

/-- User of `models/user.go`; the time stamps are left out. -/
structure User where
  ID : Nat
  Email : String
  Name : String
  deriving DecidableEq, Repr

structure UserResponse where
  ID : Nat
  Email : String
  Name : String
  deriving DecidableEq, Repr

def mapToUserResponse (user : User) : UserResponse :=
  { ID := user.ID, Email := user.Email, Name := user.Name }

/-- UserRepository, the interface the user service reads through; `GetByID` is the one
method `GetUserByID` calls. -/
structure UserRepository where
  GetByID : Nat → Except DBError User

/-- The library calls `json.Marshal` and `json.Unmarshal` on `models.User`. -/
structure UserCodec where
  Marshal : User → String
  Unmarshal : String → Except String User

/-- Seconds in `time.Hour`, the time-to-live of a cached user. -/
def userTTL : Nat := 60 * 60

/-- GetUserByID, over the Redis key space and the log of the commands sent: the cached
snapshot when the key `user:<id>` holds text that decodes; otherwise the user read from the
repository, which is then cached for one hour. -/
def GetUserByID (codec : UserCodec) (userRepo : UserRepository) (s : RateState) (id : Nat) :
    Except AppError UserResponse × RateState :=
  let cacheKey := "user:" ++ toString id
  let s1 : RateState := { s with calls := s.calls ++ [ExternalCall.redisGet cacheKey] }
  let cached : Option User :=
    match redisClient.Get s.redis cacheKey with
    | none => none
    | some cachedUser =>
      match codec.Unmarshal cachedUser with
      | Except.error _ => none
      | Except.ok user => some user
  match cached with
  | some user => (Except.ok (mapToUserResponse user), s1)
  | none =>
    match userRepo.GetByID id with
    | Except.error _ => (Except.error (NewNotFoundError "user"), s1)
    | Except.ok user =>
      (Except.ok (mapToUserResponse user),
        { redis := redisClient.Set s1.redis cacheKey (codec.Marshal user) userTTL,
          calls := s1.calls ++ [ExternalCall.redisSet cacheKey (codec.Marshal user) userTTL] })

/-! ## Lists: internal/dto (filters), ListExpenses, ListReports, and the handler's page count -/

/-- The value a result of `int` arithmetic has on a 64-bit platform: it wraps around into
the range from -2^63 to 2^63 - 1. -/
def wrapInt (x : Int) : Int :=
  (x + 2 ^ 63) % 2 ^ 64 - 2 ^ 63

/-- ExpenseFilter of `dto/expense.go`; `Page` and `PerPage` are of type `int`. -/
structure ExpenseFilter where
  Category : String
  Status : String
  Page : Int
  PerPage : Int
  deriving DecidableEq, Repr

/-- ReportFilter of `dto/expense_report.go`. -/
structure ReportFilter where
  Status : String
  Page : Int
  PerPage : Int
  deriving DecidableEq, Repr

structure ExpenseListResponse where
  Expenses : List ExpenseResponse
  Page : Int
  PerPage : Int
  Total : Int
  deriving DecidableEq, Repr

structure ExpenseReportListResponse where
  Reports : List ExpenseReportResponse
  Page : Int
  PerPage : Int
  Total : Int
  deriving DecidableEq, Repr

/-- ListExpenses, over the method `GetByUserID(userID, offset, limit, category, status)` of
the repository interface: page below 1 becomes 1, page size below 1 becomes 10 and above
100 becomes 100; the offset is computed in `int`. -/
def ListExpenses
    (GetByUserID : Nat → Int → Int → String → String → Except DBError (List Expense × Int))
    (userID : Nat) (filter : ExpenseFilter) : Except AppError ExpenseListResponse :=
  let page := if filter.Page < 1 then 1 else filter.Page
  let perPage0 := if filter.PerPage < 1 then 10 else filter.PerPage
  let perPage := if perPage0 > 100 then 100 else perPage0
  let offset := wrapInt (wrapInt (page - 1) * perPage)
  match GetByUserID userID offset perPage filter.Category filter.Status with
  | Except.error err => Except.error (NewInternalError "failed to list expenses" err)
  | Except.ok (expenses, total) =>
    Except.ok { Expenses := expenses.map mapToExpenseResponse, Page := page,
                PerPage := perPage, Total := total }

/-- ListReports, over the method `GetByUserID(userID, offset, limit, status)` of the
repository interface, with the same normalisation as `ListExpenses`. -/
def ListReports
    (GetByUserID : Nat → Int → Int → String → Except DBError (List ExpenseReport × Int))
    (userID : Nat) (filter : ReportFilter) : Except AppError ExpenseReportListResponse :=
  let page := if filter.Page < 1 then 1 else filter.Page
  let perPage0 := if filter.PerPage < 1 then 10 else filter.PerPage
  let perPage := if perPage0 > 100 then 100 else perPage0
  let offset := wrapInt (wrapInt (page - 1) * perPage)
  match GetByUserID userID offset perPage filter.Status with
  | Except.error err => Except.error (NewInternalError "failed to list reports" err)
  | Except.ok (reports, total) =>
    Except.ok { Reports := reports.map mapToReportResponse, Page := page,
                PerPage := perPage, Total := total }

/-- PaginationMeta of `utils/response.go`. -/
structure PaginationMeta where
  Page : Int
  PerPage : Int
  Total : Int
  TotalPages : Int
  deriving DecidableEq, Repr

/-- Integer division of Go: no result (a run-time panic) for divisor 0, otherwise the
quotient truncated toward zero. -/
def goDiv (a b : Int) : Option Int :=
  if b = 0 then none else some (Int.tdiv a b)

namespace ExpenseHandler

/-- The pagination block the handler `ListExpenses` builds from the result of the service:
`TotalPages = (Total + PerPage - 1) / PerPage` in `int64`. -/
def paginationMeta (result : ExpenseListResponse) : Option PaginationMeta :=
  (goDiv (wrapInt (wrapInt (result.Total + result.PerPage) - 1)) result.PerPage).map
    (fun pages =>
      { Page := result.Page, PerPage := result.PerPage, Total := result.Total,
        TotalPages := pages })

end ExpenseHandler

/-! ## Notions the properties are stated with -/

/-- An expense id resolves for a user when a live expense of that user carries it. -/
def resolves (db : DB) (userID id : Nat) : Prop :=
  ∃ e ∈ db.expenses, e.ID = id ∧ e.UserID = userID ∧ e.Deleted = false

instance (db : DB) (userID id : Nat) : Decidable (resolves db userID id) :=
  inferInstanceAs
    (Decidable (∃ e ∈ db.expenses, e.ID = id ∧ e.UserID = userID ∧ e.Deleted = false))

/-- The primary key of table `expenses`: no two rows share an id. -/
def expensesKeyed (db : DB) : Prop :=
  (db.expenses.map (fun e => e.ID)).Nodup

instance (db : DB) : Decidable (expensesKeyed db) :=
  inferInstanceAs (Decidable ((db.expenses.map (fun e : Expense => e.ID)).Nodup))

/-- The blank expense the association step inserts: next primary key, user 0, amount 0,
empty currency and category, status pending. -/
def blankExpense (db : DB) : Expense :=
  { ID := nextID (db.expenses.map (fun e => e.ID)), UserID := 0, Amount := 0,
    Currency := "", Category := "", Description := "", Receipt := "",
    Status := ExpenseStatusPending, Deleted := false }

/-- The store after the blank expense was inserted and linked to a report. -/
def withBlankExpense (db : DB) (reportID : Nat) : DB :=
  { db with
    expenses := db.expenses ++ [blankExpense db],
    report_expenses := db.report_expenses ++ [(reportID, (blankExpense db).ID)] }

/-- A call of one of the six mutating service operations, with its arguments. -/
inductive Op where
  | createReport (userID : Nat) (req : CreateExpenseReportRequest)
  | addExpensesToReport (reportID userID : Nat) (req : AddExpensesToReportRequest)
  | submitReport (reportID userID : Nat)
  | createExpense (userID : Nat) (req : CreateExpenseRequest)
  | updateExpense (id userID : Nat) (req : UpdateExpenseRequest)
  | deleteExpense (id userID : Nat)

/-- The state a call leaves behind. -/
def Op.run (cs : CurrencyService) (f : Faults) (w : World) : Op → World
  | Op.createReport userID req => (CreateReport f w userID req).2
  | Op.addExpensesToReport reportID userID req =>
    (AddExpensesToReport cs f w reportID userID req).2
  | Op.submitReport reportID userID => (SubmitReport f w reportID userID).2
  | Op.createExpense userID req => (CreateExpense f w userID req).2
  | Op.updateExpense id userID req => (UpdateExpense f w id userID req).2
  | Op.deleteExpense id userID => (DeleteExpense f w id userID).2

/-- States reachable from the empty store by calls that `allowed` admits. -/
inductive Reachable (cs : CurrencyService) (allowed : Faults → World → Op → Prop) :
    World → Prop where
  | init : Reachable cs allowed World.empty
  | step (f : Faults) (w : World) (op : Op) :
    Reachable cs allowed w → allowed f w op → Reachable cs allowed (op.run cs f w)

/-- Every call, with any arguments and any repository failures. -/
def anyCall : Faults → World → Op → Prop :=
  fun _ _ _ => True

/-- Referential integrity of the store: `expenses` has a primary key, and each row of the
join table names a stored report and a stored expense. -/
structure RefIntegrity (w : World) : Prop where
  keyed : expensesKeyed w.db
  reportRows : ∀ p ∈ w.db.report_expenses, p.1 ∈ w.db.expense_reports.map (fun r => r.ID)
  expenseRows : ∀ p ∈ w.db.report_expenses, p.2 ∈ w.db.expenses.map (fun e => e.ID)

/-- The status a lookup of a report shows, if the report can be loaded. -/
def statusOf (db : DB) (reportID : Nat) : Option String :=
  (expenseReportRepository.GetByID db reportID).toOption.map (fun r => r.Status)

/-- The ways the call to the provider fails: no response arrives (transport error); the
status is not 200; the body cannot be read; the body does not decode; the decoded rates
hold no entry for the target currency. -/
def providerFails (b : RateBackend) (src dst : String) : Prop :=
  (∃ err, b.Do (b.APIURL ++ "/" ++ src) = Except.error err) ∨
  ∃ resp, b.Do (b.APIURL ++ "/" ++ src) = Except.ok resp ∧
    (resp.StatusCode ≠ 200 ∨
      (resp.StatusCode = 200 ∧ ∃ err, resp.Body = Except.error err) ∨
      (resp.StatusCode = 200 ∧ ∃ body, resp.Body = Except.ok body ∧
        ((∃ err, b.Unmarshal body = Except.error err) ∨
          ∃ data, b.Unmarshal body = Except.ok data ∧ data.Rates.lookup dst = none)))


/-- Neither the key of the report nor the list key of the user holds an entry. -/
def invalidated (w : World) (reportID userID : Nat) : Prop :=
  redisClient.Get w.redis ("report:" ++ toString reportID) = none ∧
  redisClient.Get w.redis ("reports:user:" ++ toString userID) = none

/-- `GetReportByID` goes to the repository: whatever the repository answers decides the
result, NotFound when the lookup fails and otherwise the stored report, which is then
cached under the key of the report. -/
def readsRepository (codec : ReportCodec) (w : World) (id : Nat) : Prop :=
  ∀ f : Faults,
    GetReportByID codec f w id
      = match attempt (f RepoCall.reportGetByID)
          (expenseReportRepository.GetByID w.db id) with
        | Except.error _ => (Except.error (NewNotFoundError "expense report"), w)
        | Except.ok report =>
          (Except.ok (mapToReportResponse report),
            { w with
              redis := redisClient.Set w.redis ("report:" ++ toString id)
                (codec.Marshal report) reportTTL })

/-- The snapshot of an expense as the specification has it, field by field: key, owner,
amount, currency, category, description, receipt and status of the expense.  Written from
the specification, to be compared with what `mapToExpenseResponse` returns. -/
def snapshotOfExpense (expense : Expense) : ExpenseResponse :=
  { ID := expense.ID, UserID := expense.UserID, Amount := expense.Amount,
    Currency := expense.Currency, Category := expense.Category,
    Description := expense.Description, Receipt := expense.Receipt, Status := expense.Status }

/-- The snapshot of a report as the specification has it, field by field: key, owner,
title, status and total of the report and the snapshots of its expenses, in order.
Written from the specification, to be compared with what `mapToReportResponse` returns. -/
def snapshotOfReport (report : ExpenseReport) : ExpenseReportResponse :=
  { ID := report.ID, UserID := report.UserID, Title := report.Title, Status := report.Status,
    Total := report.Total, Expenses := report.Expenses.map snapshotOfExpense }

/-- The snapshot of a user as the specification has it: key, email and name.  Written from
the specification, to be compared with what `mapToUserResponse` returns. -/
def snapshotOfUser (user : User) : UserResponse :=
  { ID := user.ID, Email := user.Email, Name := user.Name }

/-- No expense is linked to two reports: the rows of the join table that name one expense
name one report. -/
def heldByOneReport (db : DB) : Prop :=
  ∀ id r1 r2, (r1, id) ∈ db.report_expenses → (r2, id) ∈ db.report_expenses → r1 = r2

/-- The page a list request is answered for: the requested page, or 1 when that is below
1. -/
def normalPage (page : Int) : Int :=
  if page ≥ 1 then page else 1

/-- The page size a list request is answered with: 10 when the requested size is below 1,
100 when it is above 100, otherwise the requested size. -/
def normalPerPage (perPage : Int) : Int :=
  if perPage < 1 then 10 else if perPage > 100 then 100 else perPage

/-! ## A worked scenario

User 7 owns report 1 "Q1 Travel" and two expenses, 100 USD and 50 EUR; one EUR is 1.1 USD. -/

/-- The upper-casing used in the scenarios, whose codes are ASCII: the letters a to z are
mapped to A to Z and every other character is kept, as `strings.ToUpper` does on such
text. -/
def asciiUpper (s : String) : String :=
  ⟨s.data.map Char.toUpper⟩

/-- The rate lookup of the scenario: EUR to USD is 1.1, no other pair is served. -/
def scenarioRates : String → String → Except String ℚ :=
  fun src dst =>
    if asciiUpper src = "EUR" ∧ asciiUpper dst = "USD" then Except.ok (11 / 10)
    else Except.error "failed to fetch exchange rate"

/-- The two expenses of user 7. -/
def scenarioExpenses : List Expense :=
  [ { ID := 1, UserID := 7, Amount := 100, Currency := "USD", Category := "travel",
      Description := "flight", Receipt := "", Status := "pending", Deleted := false },
    { ID := 2, UserID := 7, Amount := 50, Currency := "EUR", Category := "meals",
      Description := "dinner", Receipt := "", Status := "pending", Deleted := false } ]

/-- The stored row of report 1. -/
def scenarioReport (status : String) (total : ℚ) : ExpenseReport :=
  { ID := 1, UserID := 7, Title := "Q1 Travel", Status := status, Total := total,
    Deleted := false, Expenses := [] }

/-- Report and expenses created, nothing associated yet; both cache keys of the report are
filled. -/
def scenarioDraft : World :=
  { db := { expenses := scenarioExpenses, expense_reports := [scenarioReport "draft" 0],
            report_expenses := [] },
    redis := [("report:1", "cached"), ("reports:user:7", "cached")] }

/-- A store in which both expenses are associated with the report and the total is 155, as
the scenario of the specification has it; the cache is empty.  No call of the service
leaves this store; it stands for one filled by other means, as `scripts/seed.go` fills the
join table with `Append(&expenses[0], ...)`. -/
def scenarioAdded : World :=
  { db := { expenses := scenarioExpenses, expense_reports := [scenarioReport "draft" 155],
            report_expenses := [(1, 1), (1, 2)] },
    redis := [] }

/-- That store with the report submitted. -/
def scenarioSubmitted : World :=
  { db := { expenses := scenarioExpenses, expense_reports := [scenarioReport "submitted" 155],
            report_expenses := [(1, 1), (1, 2)] },
    redis := [] }

/-- The currency service of the scenario. -/
def scenarioService : CurrencyService :=
  currencyService asciiUpper scenarioRates

/-- The scenario replayed through the service operations, from the empty store. -/
def runCreated : World :=
  Op.run scenarioService noFaults World.empty (Op.createReport 7 { Title := "Q1 Travel" })

/-- The first expense created. -/
def runExpense1 : World :=
  Op.run scenarioService noFaults runCreated
    (Op.createExpense 7 { Amount := 100, Currency := "USD", Category := "travel",
                          Description := "flight", Receipt := "" })

/-- The second expense created. -/
def runExpense2 : World :=
  Op.run scenarioService noFaults runExpense1
    (Op.createExpense 7 { Amount := 50, Currency := "EUR", Category := "meals",
                          Description := "dinner", Receipt := "" })

/-- The blank expense as the association step stores it in the scenario: key 1, owner of
record user 0, amount 0, no currency. -/
def scenarioBlank : Expense :=
  { ID := 1, UserID := 0, Amount := 0, Currency := "", Category := "", Description := "",
    Receipt := "", Status := "pending", Deleted := false }

/-- The report of the scenario as a lookup returns it. -/
def scenarioLoaded (status : String) (total : ℚ) (expenses : List Expense) : ExpenseReport :=
  { scenarioReport status total with Expenses := expenses }

/-- The rate provider of the scenario: it serves the rates of EUR; for GBP it answers 503,
for JPY with rates that lack USD, for CHF with a body that is not JSON; no other request
gets a response. -/
def scenarioBackend : RateBackend :=
  { APIURL := "https://api.exchangerate-api.com/v4/latest",
    ToUpper := asciiUpper,
    Do := fun url =>
      if url = "https://api.exchangerate-api.com/v4/latest/EUR" then
        Except.ok { StatusCode := 200, Body := Except.ok "rates of EUR" }
      else if url = "https://api.exchangerate-api.com/v4/latest/GBP" then
        Except.ok { StatusCode := 503, Body := Except.ok "unavailable" }
      else if url = "https://api.exchangerate-api.com/v4/latest/JPY" then
        Except.ok { StatusCode := 200, Body := Except.ok "rates of JPY" }
      else if url = "https://api.exchangerate-api.com/v4/latest/CHF" then
        Except.ok { StatusCode := 200, Body := Except.ok "<html>" }
      else
        Except.error "connection refused",
    Unmarshal := fun body =>
      if body = "rates of EUR" then
        Except.ok { Rates := [("GBP", 43 / 50), ("USD", 11 / 10)], Base := "EUR",
                    Date := "2024-01-01" }
      else if body = "rates of JPY" then
        Except.ok { Rates := [("EUR", 3 / 500)], Base := "JPY", Date := "2024-01-01" }
      else
        Except.error "invalid character",
    Sscanf := sscanfF,
    Sprintf := sprintfF }

/-- The provider of the scenario behind an upper-casing that also knows the long s, which
`strings.ToUpper` maps to S: uſd becomes USD. -/
def longSBackend : RateBackend :=
  { scenarioBackend with
    ToUpper := fun s => ⟨s.data.map (fun c => if c = 'ſ' then 'S' else Char.toUpper c)⟩ }

/-- An empty rate cache and no call sent yet. -/
def rateStateEmpty : RateState :=
  { redis := [], calls := [] }

/-- The rate cache holding 1.1 for the pair EUR, USD. -/
def rateStateCached : RateState :=
  { redis := [("exchange_rate:EUR:USD", "1.100000")], calls := [] }

/-- A stand-in for encoding/json on a fixed list of reports: a report is written as its
position in the list, and text that names no position does not decode. -/
def tableCodec (known : List ExpenseReport) : ReportCodec :=
  { Marshal := fun r => "snapshot#" ++ toString (known.indexOf r),
    Unmarshal := fun text =>
      match known.find? (fun r => "snapshot#" ++ toString (known.indexOf r) == text) with
      | some r => Except.ok r
      | none => Except.error "unexpected end of JSON input" }

/-- The codec of the scenario, on the report as loaded in its three stages and as loaded
with the blank expense, before and after submission. -/
def scenarioCodec : ReportCodec :=
  tableCodec [scenarioLoaded "draft" 0 [], scenarioLoaded "draft" 155 scenarioExpenses,
    scenarioLoaded "submitted" 155 scenarioExpenses, scenarioLoaded "draft" 0 [scenarioBlank],
    scenarioLoaded "submitted" 0 [scenarioBlank]]

/-- The draft of the scenario with a snapshot of the empty report cached under its key. -/
def scenarioDraftCached : World :=
  { scenarioDraft with
    redis := [("report:1", "snapshot#0"), ("reports:user:7", "cached")] }

/-- The scenario after the association, with the snapshot of the empty report still cached. -/
def scenarioAddedCached : World :=
  { scenarioAdded with
    redis := [("report:1", "snapshot#0"), ("reports:user:7", "cached")] }

/-- The user of the scenario. -/
def scenarioUser : User :=
  { ID := 7, Email := "ada@example.com", Name := "Ada" }

/-- A user repository that holds user 7 only. -/
def scenarioUserRepository : UserRepository :=
  { GetByID := fun id =>
      if id = 7 then Except.ok scenarioUser else Except.error DBError.RecordNotFound }

/-- A stand-in for encoding/json on users: the text of user 7 decodes, no other text does. -/
def scenarioUserCodec : UserCodec :=
  { Marshal := fun u => "user#" ++ toString u.ID ++ ":" ++ u.Email ++ ":" ++ u.Name,
    Unmarshal := fun text =>
      if text = "user#7:ada@example.com:Ada" then Except.ok scenarioUser
      else Except.error "unexpected end of JSON input" }

/-- The key space holding the snapshot of user 7. -/
def userStateCached : RateState :=
  { redis := [("user:7", "user#7:ada@example.com:Ada")], calls := [] }

/-- The provider of the scenario with rates for EUR that have more than six decimals:
1.23456789 for USD and 0.0000004 for BTC. -/
def preciseBackend : RateBackend :=
  { scenarioBackend with
    Unmarshal := fun body =>
      if body = "rates of EUR" then
        Except.ok { Rates := [("USD", 123456789 / 100000000), ("BTC", 1 / 2500000)],
                    Base := "EUR", Date := "2024-01-01" }
      else
        Except.error "invalid character" }

/-- A second draft report of user 7 next to the first. -/
def runSecondReport : World :=
  Op.run scenarioService noFaults runCreated (Op.createReport 7 { Title := "Q2 Travel" })

/-- An empty request on the first report: it now holds blank expense 1. -/
def runFirstBlank : World :=
  Op.run scenarioService noFaults runSecondReport
    (Op.addExpensesToReport 1 7 { ExpenseIDs := [] })

/-- An empty request on the second report: it now holds blank expense 2. -/
def runBothBlank : World :=
  Op.run scenarioService noFaults runFirstBlank
    (Op.addExpensesToReport 2 7 { ExpenseIDs := [] })

/-- A list request for the last page an `int` can name, 100 rows a page. -/
def lastPageFilter : ExpenseFilter :=
  { Category := "", Status := "", Page := 9223372036854775807, PerPage := 100 }

/-- The request of the service test "invalid amount (zero)". -/
def zeroAmountRequest : CreateExpenseRequest :=
  { Amount := 0, Currency := "USD", Category := "travel", Description := "", Receipt := "" }

/-- The request of the service test "valid expense creation". -/
def validExpenseRequest : CreateExpenseRequest :=
  { Amount := 201 / 2, Currency := "USD", Category := "travel", Description := "Flight ticket",
    Receipt := "" }

theorem attempt_false {α : Type} (r : Except DBError α) : attempt false r = r := rfl

theorem attempt_true {α : Type} (r : Except DBError α) :
    attempt true r = Except.error DBError.Failure := rfl

theorem attempt_error {α : Type} (b : Bool) (e : DBError) :
    ∃ e1, attempt b (Except.error e : Except DBError α) = Except.error e1 := by
  cases b
  · exact ⟨e, rfl⟩
  · exact ⟨DBError.Failure, rfl⟩

theorem attempt_ok {α : Type} {b : Bool} {r : Except DBError α} {x : α}
    (h : attempt b r = Except.ok x) : b = false ∧ r = Except.ok x := by
  cases b
  · exact ⟨rfl, h⟩
  · exact absurd h (by simp [attempt])

/-- What a successful report lookup returns: the first live row with that key, with its
expenses preloaded. -/
theorem reportGetByID_ok {db : DB} {id : Nat} {report : ExpenseReport}
    (h : expenseReportRepository.GetByID db id = Except.ok report) :
    report.ID = id ∧ report.Deleted = false ∧
      report.Expenses = expenseReportRepository.preloadExpenses db id ∧
      ∃ row ∈ db.expense_reports, row.ID = id ∧ row.Deleted = false ∧
        report = { row with Expenses := expenseReportRepository.preloadExpenses db id } := by
  unfold expenseReportRepository.GetByID at h
  split at h
  · exact absurd h (by simp)
  · next r hr =>
    have hp := List.find?_some hr
    have hm := List.mem_of_find?_eq_some hr
    simp only [Bool.and_eq_true, decide_eq_true_eq, Bool.not_eq_true'] at hp
    injection h with h
    subst h
    obtain ⟨h1, h2⟩ := hp
    subst h1
    exact ⟨rfl, h2, rfl, r, hm, rfl, h2, rfl⟩

/-- The lookup of a report, with the preload written for the key asked for. -/
theorem reportGetByID_eq (db : DB) (id : Nat) :
    expenseReportRepository.GetByID db id
      = match db.expense_reports.find? (fun r => decide (r.ID = id) && !r.Deleted) with
        | none => Except.error DBError.RecordNotFound
        | some r => Except.ok
            { r with Expenses := expenseReportRepository.preloadExpenses db id } := by
  unfold expenseReportRepository.GetByID
  cases hfind : db.expense_reports.find? (fun r => decide (r.ID = id) && !r.Deleted) with
  | none => rfl
  | some r =>
    have hp := List.find?_some hfind
    simp only [Bool.and_eq_true, decide_eq_true_eq, Bool.not_eq_true'] at hp
    simp only [hp.1]

/-- Saving a report that was just loaded, with some columns changed but not its key or its
deleted flag: the next lookup returns the saved columns and the same expenses. -/
theorem reportGetByID_after_Update {db : DB} {id : Nat} {report : ExpenseReport}
    (saved : ExpenseReport)
    (h : expenseReportRepository.GetByID db id = Except.ok report)
    (hid : saved.ID = report.ID) (hdel : saved.Deleted = report.Deleted) :
    ∃ db1, expenseReportRepository.Update db saved = Except.ok db1 ∧
      db1.expenses = db.expenses ∧ db1.report_expenses = db.report_expenses ∧
      expenseReportRepository.GetByID db1 id
        = Except.ok { saved with Expenses := report.Expenses } ∧
      db1.expense_reports.map (fun r => r.ID) = db.expense_reports.map (fun r => r.ID) ∧
      (∀ id1, id1 ≠ id →
        expenseReportRepository.GetByID db1 id1 = expenseReportRepository.GetByID db id1) := by
  obtain ⟨h1, h2, h3, row, hrow, hrid, _, _⟩ := reportGetByID_ok h
  have hany : db.expense_reports.any (fun r => decide (r.ID = saved.ID)) = true := by
    rw [List.any_eq_true]
    exact ⟨row, hrow, by simp [hrid, hid, h1]⟩
  have hup : expenseReportRepository.Update db saved = Except.ok
      { db with
        expense_reports := db.expense_reports.map
          (fun r => if r.ID = saved.ID then { saved with Expenses := [] } else r) } := by
    unfold expenseReportRepository.Update
    rw [if_pos hany]
  have hsid : saved.ID = id := by rw [hid, h1]
  have hsdel : saved.Deleted = false := by rw [hdel, h2]
  refine ⟨_, hup, rfl, rfl, ?_, ?_, ?_⟩
  · unfold expenseReportRepository.GetByID
    simp only [List.find?_map]
    have hfun : ((fun r : ExpenseReport => decide (r.ID = id) && !r.Deleted) ∘
        fun r => if r.ID = saved.ID then
          ({ saved with Expenses := [] } : ExpenseReport) else r)
        = fun r => decide (r.ID = id) := by
      funext r
      by_cases hr : r.ID = id
      · simp [hr, hsid, hsdel]
      · simp [hr, hsid]
    rw [hfun]
    cases hfind : db.expense_reports.find? (fun r => decide (r.ID = id)) with
    | none =>
      rw [List.find?_eq_none] at hfind
      exact absurd (by simpa using hrid) (hfind row hrow)
    | some r0 =>
      have hr0 := List.find?_some hfind
      simp only [decide_eq_true_eq] at hr0
      simp only [Option.map_some', hr0, hsid, if_true]
      rw [h3]
      rfl
  · simp only [List.map_map]
    apply List.map_congr_left
    intro r _
    by_cases hr : r.ID = saved.ID
    · simp [hr]
    · simp [hr]
  · intro id1 hne
    rw [reportGetByID_eq, reportGetByID_eq]
    simp only [List.find?_map]
    have hfun : ((fun r : ExpenseReport => decide (r.ID = id1) && !r.Deleted) ∘
        fun r => if r.ID = saved.ID then
          ({ saved with Expenses := [] } : ExpenseReport) else r)
        = fun r => decide (r.ID = id1) && !r.Deleted := by
      funext r
      by_cases hr : r.ID = saved.ID
      · have h4 : ¬ (id = id1) := fun h => hne h.symm
        have h5 : ¬ (r.ID = id1) := by rw [hr, hsid]; exact h4
        simp [hr, hsid, h4, h5]
      · simp [hr]
    rw [hfun]
    cases hfind : db.expense_reports.find? (fun r => decide (r.ID = id1) && !r.Deleted) with
    | none => rfl
    | some r =>
      have hp := List.find?_some hfind
      simp only [Bool.and_eq_true, decide_eq_true_eq, Bool.not_eq_true'] at hp
      have hr : ¬ (r.ID = saved.ID) := by
        rw [hp.1, hsid]
        exact hne
      simp only [Option.map_some', if_neg hr]
      rfl

/-! ## SubmitReport -/

/-- The outcome of `SubmitReport` on a report that cannot be looked up. -/
theorem SubmitReport_absent (f : Faults) (w : World) (reportID userID : Nat) (e : DBError)
    (he : expenseReportRepository.GetByID w.db reportID = Except.error e) :
    SubmitReport f w reportID userID = (some (NewNotFoundError "expense report"), w) := by
  obtain ⟨e1, h1⟩ := attempt_error (α := ExpenseReport) (f RepoCall.reportGetByID) e
  unfold SubmitReport
  rw [he, h1]

theorem SubmitReport_not_owner (f : Faults) (w : World) (reportID userID : Nat)
    (report : ExpenseReport)
    (hr : expenseReportRepository.GetByID w.db reportID = Except.ok report)
    (hf : f RepoCall.reportGetByID = false) (hne : report.UserID ≠ userID) :
    SubmitReport f w reportID userID
      = (some (NewBadRequestError "you can only submit your own reports"), w) := by
  unfold SubmitReport
  rw [hr, hf, attempt_false]
  simp [hne]

theorem SubmitReport_not_draft (f : Faults) (w : World) (reportID userID : Nat)
    (report : ExpenseReport)
    (hr : expenseReportRepository.GetByID w.db reportID = Except.ok report)
    (hf : f RepoCall.reportGetByID = false) (hown : report.UserID = userID)
    (hst : report.Status ≠ ReportStatusDraft) :
    SubmitReport f w reportID userID
      = (some (NewBadRequestError "can only submit draft reports"), w) := by
  unfold SubmitReport
  rw [hr, hf, attempt_false]
  simp [hown, hst]

theorem SubmitReport_empty (f : Faults) (w : World) (reportID userID : Nat)
    (report : ExpenseReport)
    (hr : expenseReportRepository.GetByID w.db reportID = Except.ok report)
    (hf : f RepoCall.reportGetByID = false) (hown : report.UserID = userID)
    (hst : report.Status = ReportStatusDraft) (hemp : report.Expenses = []) :
    SubmitReport f w reportID userID
      = (some (NewBadRequestError "cannot submit report without expenses"), w) := by
  unfold SubmitReport
  rw [hr, hf, attempt_false]
  simp [hown, hst, hemp]

/-- A submit on a non-empty draft of the acting user, with no repository failure: no error,
and the report is then stored as submitted with everything else as it was. -/
theorem SubmitReport_ok (f : Faults) (w : World) (reportID userID : Nat)
    (report : ExpenseReport)
    (hr : expenseReportRepository.GetByID w.db reportID = Except.ok report)
    (hf : f RepoCall.reportGetByID = false) (hu : f RepoCall.reportUpdate = false)
    (hown : report.UserID = userID) (hst : report.Status = ReportStatusDraft)
    (hne : report.Expenses ≠ []) :
    (SubmitReport f w reportID userID).1 = none ∧
      expenseReportRepository.GetByID (SubmitReport f w reportID userID).2.db reportID
        = Except.ok { report with Status := ReportStatusSubmitted } ∧
      (SubmitReport f w reportID userID).2.db.expenses = w.db.expenses ∧
      (SubmitReport f w reportID userID).2.db.report_expenses = w.db.report_expenses := by
  obtain ⟨db1, hup, he, hj, hget, _, _⟩ :=
    reportGetByID_after_Update { report with Status := ReportStatusSubmitted } hr rfl rfl
  have hlen : report.Expenses.length ≠ 0 := by
    simpa using hne
  subst hown
  unfold SubmitReport
  rw [hr, hf, attempt_false]
  simp only [hst, hlen, hu, attempt_false, hup, ne_eq, not_true_eq_false, if_false]
  exact ⟨trivial, hget, he, hj⟩

/-- A submit that returns no error went through every check and the save. -/
theorem SubmitReport_success_inv {f : Faults} {w : World} {reportID userID : Nat}
    (h : (SubmitReport f w reportID userID).1 = none) :
    ∃ report, expenseReportRepository.GetByID w.db reportID = Except.ok report ∧
      f RepoCall.reportGetByID = false ∧ f RepoCall.reportUpdate = false ∧
      report.UserID = userID ∧ report.Status = ReportStatusDraft ∧ report.Expenses ≠ [] := by
  unfold SubmitReport at h
  split at h
  · simp at h
  · next report hlook =>
    obtain ⟨hf, hr⟩ := attempt_ok hlook
    split at h
    · simp at h
    · next hown =>
      split at h
      · simp at h
      · next hst =>
        split at h
        · simp at h
        · next hlen =>
          split at h
          · simp at h
          · next db1 hup =>
            obtain ⟨hu, _⟩ := attempt_ok hup
            refine ⟨report, hr, hf, hu, not_not.mp hown, not_not.mp hst, ?_⟩
            intro hnil
            exact hlen (by simp [hnil])

/-! ## Resolution of expense ids -/

/-- The ids of the rows `GetByUserIDAndIDs` returns are requested ids that resolve. -/
theorem mem_resolved_ids {db : DB} {userID : Nat} {ids : List Nat} {x : Nat}
    (hx : x ∈ (db.expenses.filter (fun e =>
      decide (e.UserID = userID) && decide (e.ID ∈ ids) && !e.Deleted)).map (fun e => e.ID)) :
    x ∈ ids ∧ resolves db userID x := by
  rw [List.mem_map] at hx
  obtain ⟨e, he, rfl⟩ := hx
  rw [List.mem_filter] at he
  obtain ⟨hmem, hp⟩ := he
  simp only [Bool.and_eq_true, decide_eq_true_eq, Bool.not_eq_true'] at hp
  exact ⟨hp.1.2, e, hmem, rfl, hp.1.1, hp.2⟩

/-- With a primary key on `expenses`, the rows returned carry pairwise different ids. -/
theorem resolved_ids_nodup {db : DB} (hkey : expensesKeyed db) (p : Expense → Bool) :
    ((db.expenses.filter p).map (fun e => e.ID)).Nodup :=
  List.Nodup.sublist (List.Sublist.map _ (List.filter_sublist db.expenses)) hkey

/-- When some requested id does not resolve, fewer rows come back than ids were asked for. -/
theorem resolved_length_lt {db : DB} {userID : Nat} {ids : List Nat}
    (hkey : expensesKeyed db) (hbad : ∃ id ∈ ids, ¬ resolves db userID id) :
    (db.expenses.filter (fun e =>
      decide (e.UserID = userID) && decide (e.ID ∈ ids) && !e.Deleted)).length < ids.length := by
  obtain ⟨bad, hmem, hnot⟩ := hbad
  have hsub : (db.expenses.filter (fun e =>
      decide (e.UserID = userID) && decide (e.ID ∈ ids) && !e.Deleted)).map (fun e => e.ID)
      ⊆ ids.erase bad := by
    intro x hx
    obtain ⟨h1, h2⟩ := mem_resolved_ids hx
    have hne : x ≠ bad := by
      intro hxb
      exact hnot (hxb ▸ h2)
    exact (List.mem_erase_of_ne hne).mpr h1
  have hle := (List.Nodup.subperm (resolved_ids_nodup hkey _) hsub).length_le
  rw [List.length_map, List.length_erase_of_mem hmem] at hle
  have hpos : 0 < ids.length := List.length_pos_of_mem hmem
  omega

/-- When as many rows come back as ids were asked for, every requested id resolves and no
id was asked for twice. -/
theorem resolved_all_of_length_eq {db : DB} {userID : Nat} {ids : List Nat}
    (hkey : expensesKeyed db)
    (hlen : (db.expenses.filter (fun e =>
      decide (e.UserID = userID) && decide (e.ID ∈ ids) && !e.Deleted)).length = ids.length) :
    (∀ id ∈ ids, resolves db userID id) ∧ ids.Nodup := by
  have hsub : (db.expenses.filter (fun e =>
      decide (e.UserID = userID) && decide (e.ID ∈ ids) && !e.Deleted)).map (fun e => e.ID)
      ⊆ ids := fun x hx => (mem_resolved_ids hx).1
  have hnd := resolved_ids_nodup hkey (fun e =>
      decide (e.UserID = userID) && decide (e.ID ∈ ids) && !e.Deleted)
  have hperm := (List.Nodup.subperm hnd hsub).perm_of_length_le
    (by rw [List.length_map, hlen])
  refine ⟨fun id hid => (mem_resolved_ids (hperm.mem_iff.mpr hid)).2, ?_⟩
  exact hperm.nodup_iff.mp hnd

/-- When the requested ids are pairwise different and all resolve, as many rows come back
as ids were asked for. -/
theorem resolved_length_eq {db : DB} {userID : Nat} {ids : List Nat}
    (hkey : expensesKeyed db) (hnd : ids.Nodup) (hres : ∀ id ∈ ids, resolves db userID id) :
    (db.expenses.filter (fun e =>
      decide (e.UserID = userID) && decide (e.ID ∈ ids) && !e.Deleted)).length = ids.length := by
  have hsub : (db.expenses.filter (fun e =>
      decide (e.UserID = userID) && decide (e.ID ∈ ids) && !e.Deleted)).map (fun e => e.ID)
      ⊆ ids := fun x hx => (mem_resolved_ids hx).1
  have hsup : ids ⊆ (db.expenses.filter (fun e =>
      decide (e.UserID = userID) && decide (e.ID ∈ ids) && !e.Deleted)).map (fun e => e.ID) := by
    intro x hx
    obtain ⟨e, he, h1, h2, h3⟩ := hres x hx
    rw [List.mem_map]
    refine ⟨e, ?_, h1⟩
    rw [List.mem_filter]
    refine ⟨he, ?_⟩
    simp [h1, h2, h3, hx]
  have h1 := (List.Nodup.subperm (resolved_ids_nodup hkey _) hsub).length_le
  have h2 := (List.Nodup.subperm hnd hsup).length_le
  rw [List.length_map] at h1 h2
  omega

/-! ## AddExpensesToReport: the rejections -/

theorem AddExpensesToReport_absent (cs : CurrencyService) (f : Faults) (w : World)
    (reportID userID : Nat) (req : AddExpensesToReportRequest) (e : DBError)
    (he : expenseReportRepository.GetByID w.db reportID = Except.error e) :
    AddExpensesToReport cs f w reportID userID req
      = (some (NewNotFoundError "expense report"), w) := by
  obtain ⟨e1, h1⟩ := attempt_error (α := ExpenseReport) (f RepoCall.reportGetByID) e
  unfold AddExpensesToReport
  rw [he, h1]

theorem AddExpensesToReport_not_owner (cs : CurrencyService) (f : Faults) (w : World)
    (reportID userID : Nat) (req : AddExpensesToReportRequest) (report : ExpenseReport)
    (hr : expenseReportRepository.GetByID w.db reportID = Except.ok report)
    (hf : f RepoCall.reportGetByID = false) (hne : report.UserID ≠ userID) :
    AddExpensesToReport cs f w reportID userID req
      = (some (NewBadRequestError "you can only modify your own reports"), w) := by
  unfold AddExpensesToReport
  rw [hr, hf, attempt_false]
  simp [hne]

theorem AddExpensesToReport_not_draft (cs : CurrencyService) (f : Faults) (w : World)
    (reportID userID : Nat) (req : AddExpensesToReportRequest) (report : ExpenseReport)
    (hr : expenseReportRepository.GetByID w.db reportID = Except.ok report)
    (hf : f RepoCall.reportGetByID = false) (hown : report.UserID = userID)
    (hst : report.Status ≠ ReportStatusDraft) :
    AddExpensesToReport cs f w reportID userID req
      = (some (NewBadRequestError "can only add expenses to draft reports"), w) := by
  unfold AddExpensesToReport
  rw [hr, hf, attempt_false]
  simp [hown, hst]

/-- The call neither errs before the id check nor passes it when the number of rows found
differs from the number of ids: whatever happens, the state is left as it was. -/
theorem AddExpensesToReport_unresolved (cs : CurrencyService) (f : Faults) (w : World)
    (reportID userID : Nat) (req : AddExpensesToReportRequest)
    (hlen : (w.db.expenses.filter (fun e => decide (e.UserID = userID) &&
      decide (e.ID ∈ req.ExpenseIDs) && !e.Deleted)).length ≠ req.ExpenseIDs.length) :
    (∃ err, AddExpensesToReport cs f w reportID userID req = (some err, w)) ∧
    (∀ report, expenseReportRepository.GetByID w.db reportID = Except.ok report →
      f RepoCall.reportGetByID = false → f RepoCall.expenseGetByUserIDAndIDs = false →
      report.UserID = userID → report.Status = ReportStatusDraft →
      AddExpensesToReport cs f w reportID userID req
        = (some (NewBadRequestError "some expenses not found or do not belong to you"), w)) := by
  constructor
  · unfold AddExpensesToReport
    split
    · exact ⟨_, rfl⟩
    · split
      · exact ⟨_, rfl⟩
      · split
        · exact ⟨_, rfl⟩
        · split
          · exact ⟨_, rfl⟩
          · next expenses hexp =>
            obtain ⟨_, hq⟩ := attempt_ok hexp
            unfold expenseRepository.GetByUserIDAndIDs at hq
            injection hq with hq
            subst hq
            rw [if_pos hlen]
            exact ⟨_, rfl⟩
  · intro report hr hf hg hown hst
    unfold AddExpensesToReport
    rw [hr, hf, hg, attempt_false, attempt_false]
    unfold expenseRepository.GetByUserIDAndIDs
    simp only [hown, hst, ne_eq, not_true_eq_false, if_false]
    rw [if_pos hlen]

/-! ## Lookups after a write -/

theorem le_foldl_max (l : List Nat) (acc : Nat) :
    acc ≤ l.foldl max acc ∧ ∀ x ∈ l, x ≤ l.foldl max acc := by
  induction l generalizing acc with
  | nil => simp
  | cons y rest ih =>
    rw [List.foldl_cons]
    obtain ⟨h1, h2⟩ := ih (max acc y)
    refine ⟨le_trans (le_max_left acc y) h1, ?_⟩
    intro x hx
    rcases List.mem_cons.mp hx with h | h
    · rw [h]
      exact le_trans (le_max_right acc y) h1
    · exact h2 x h

/-- The key an insert assigns is not in use. -/
theorem nextID_fresh (ids : List Nat) : nextID ids ∉ ids := by
  intro h
  have := (le_foldl_max ids 0).2 _ h
  unfold nextID at this
  omega

/-- A request that names an id: the association fails. -/
theorem AddExpenses_requested (db : DB) (reportID : Nat) (ids : List Nat) (h : ids ≠ []) :
    expenseReportRepository.AddExpenses db reportID ids = Except.error DBError.Failure := by
  cases ids with
  | nil => exact absurd rfl h
  | cons id rest => rfl

/-- The empty request: the blank expense is inserted and linked. -/
theorem AddExpenses_empty (db : DB) (reportID : Nat) :
    expenseReportRepository.AddExpenses db reportID [] = Except.ok (withBlankExpense db reportID) :=
  rfl

/-- The association succeeds for the empty request only. -/
theorem AddExpenses_ok_inv {db db1 : DB} {reportID : Nat} {ids : List Nat}
    (h : expenseReportRepository.AddExpenses db reportID ids = Except.ok db1) :
    ids = [] ∧ db1 = withBlankExpense db reportID := by
  cases ids with
  | nil =>
    rw [AddExpenses_empty] at h
    injection h with h
    exact ⟨rfl, h.symm⟩
  | cons id rest =>
    rw [AddExpenses_requested db reportID (id :: rest) (by simp)] at h
    exact absurd h (by simp)

/-- The key of the blank expense is new. -/
theorem blankExpense_fresh (db : DB) : ∀ e ∈ db.expenses, e.ID ≠ (blankExpense db).ID := by
  intro e he heq
  have hmem : e.ID ∈ db.expenses.map (fun e => e.ID) := List.mem_map_of_mem _ he
  rw [heq] at hmem
  exact nextID_fresh _ hmem

/-- The expenses loaded with a report after the blank expense was linked to it: those
loaded before, and the blank one. -/
theorem preloadExpenses_withBlank_same (db : DB) (reportID : Nat) :
    expenseReportRepository.preloadExpenses (withBlankExpense db reportID) reportID
      = expenseReportRepository.preloadExpenses db reportID ++ [blankExpense db] := by
  unfold expenseReportRepository.preloadExpenses withBlankExpense
  simp only [List.filter_append]
  congr 1
  · apply List.filter_congr
    intro e he
    have hne := blankExpense_fresh db e he
    have hiff : (reportID, e.ID) ∈ db.report_expenses ++ [(reportID, (blankExpense db).ID)]
        ↔ (reportID, e.ID) ∈ db.report_expenses := by
      simp [hne]
    simp only [hiff]
  · simp [blankExpense]

/-- The report the blank expense was linked to, looked up afterwards. -/
theorem reportGetByID_withBlank_same {db : DB} {reportID : Nat} {report : ExpenseReport}
    (h : expenseReportRepository.GetByID db reportID = Except.ok report) :
    expenseReportRepository.GetByID (withBlankExpense db reportID) reportID
      = Except.ok { report with Expenses := report.Expenses ++ [blankExpense db] } := by
  have hexp := (reportGetByID_ok h).2.2.1
  rw [reportGetByID_eq] at h ⊢
  rw [preloadExpenses_withBlank_same]
  have hrows : (withBlankExpense db reportID).expense_reports = db.expense_reports := rfl
  rw [hrows]
  cases hfind : db.expense_reports.find?
      (fun r => decide (r.ID = reportID) && !r.Deleted) with
  | none =>
    rw [hfind] at h
    exact absurd h (by simp)
  | some r =>
    rw [hfind] at h
    injection h with h
    rw [← h]

/-- Preloading filters the same rows when the expenses agree and the join tables hold the
same rows for that report. -/
theorem preloadExpenses_eq_of_rows {db1 db2 : DB} (reportID : Nat)
    (he : db1.expenses = db2.expenses)
    (hj : ∀ id, (reportID, id) ∈ db1.report_expenses ↔ (reportID, id) ∈ db2.report_expenses) :
    expenseReportRepository.preloadExpenses db1 reportID
      = expenseReportRepository.preloadExpenses db2 reportID := by
  unfold expenseReportRepository.preloadExpenses
  rw [he]
  apply List.filter_congr
  intro e _
  simp only [hj e.ID]

/-- The database `UpdateTotal` leaves, seen through lookups: the report it names carries the
new total, every other report is as before. -/
theorem UpdateTotal_ok (db : DB) (reportID : Nat) (total : ℚ) :
    ∃ db2, expenseReportRepository.UpdateTotal db reportID total = Except.ok db2 ∧
      db2.expenses = db.expenses ∧ db2.report_expenses = db.report_expenses ∧
      db2.expense_reports.map (fun r => r.ID) = db.expense_reports.map (fun r => r.ID) ∧
      (∀ report, expenseReportRepository.GetByID db reportID = Except.ok report →
        expenseReportRepository.GetByID db2 reportID
          = Except.ok { report with Total := total }) ∧
      (∀ id, id ≠ reportID →
        expenseReportRepository.GetByID db2 id = expenseReportRepository.GetByID db id) := by
  refine ⟨_, rfl, rfl, rfl, ?_, ?_, ?_⟩
  · simp only [List.map_map]
    apply List.map_congr_left
    intro r _
    simp only [Function.comp]
    split <;> rfl
  · intro report hrep
    rw [reportGetByID_eq] at hrep ⊢
    simp only [List.find?_map]
    have hfun : ((fun r : ExpenseReport => decide (r.ID = reportID) && !r.Deleted) ∘
        fun r => if r.ID = reportID ∧ r.Deleted = false then { r with Total := total } else r)
        = fun r => decide (r.ID = reportID) && !r.Deleted := by
      funext r
      by_cases h : r.ID = reportID ∧ r.Deleted = false
      · simp [h]
      · simp only [Function.comp, if_neg h]
    rw [hfun]
    cases hfind : db.expense_reports.find?
        (fun r => decide (r.ID = reportID) && !r.Deleted) with
    | none => rw [hfind] at hrep; exact absurd hrep (by simp)
    | some r =>
      rw [hfind] at hrep
      have hp := List.find?_some hfind
      simp only [Bool.and_eq_true, decide_eq_true_eq, Bool.not_eq_true'] at hp
      simp only [Option.map_some', if_pos hp]
      injection hrep with hrep
      rw [← hrep]
      rfl
  · intro id hid
    rw [reportGetByID_eq, reportGetByID_eq]
    simp only [List.find?_map]
    have hfun : ((fun r : ExpenseReport => decide (r.ID = id) && !r.Deleted) ∘
        fun r => if r.ID = reportID ∧ r.Deleted = false then { r with Total := total } else r)
        = fun r => decide (r.ID = id) && !r.Deleted := by
      funext r
      by_cases h : r.ID = reportID ∧ r.Deleted = false
      · simp [h]
      · simp only [Function.comp, if_neg h]
    rw [hfun]
    cases hfind : db.expense_reports.find? (fun r => decide (r.ID = id) && !r.Deleted) with
    | none => rfl
    | some r =>
      have hp := List.find?_some hfind
      simp only [Bool.and_eq_true, decide_eq_true_eq, Bool.not_eq_true'] at hp
      have hne : ¬ (r.ID = reportID ∧ r.Deleted = false) := by
        intro h
        exact hid (hp.1 ▸ h.1)
      simp only [Option.map_some', if_neg hne]
      rfl

/-- The loop of `calculateTotal` adds up the contributions of the expenses. -/
theorem foldl_amountUSD (cs : CurrencyService) (l : List Expense) (acc : ℚ) :
    l.foldl (fun total expense => total + amountUSD cs expense) acc
      = acc + (l.map (amountUSD cs)).sum := by
  induction l generalizing acc with
  | nil => simp
  | cons e rest ih =>
    rw [List.foldl_cons, ih, List.map_cons, List.sum_cons, add_assoc]

/-- With its reload not failing, `calculateTotal` returns the sum over the expenses the
lookup preloads. -/
theorem calculateTotal_ok (cs : CurrencyService) (f : Faults) (db : DB) (reportID : Nat)
    (report : ExpenseReport) (hf : f RepoCall.calculateTotalGetByID = false)
    (hr : expenseReportRepository.GetByID db reportID = Except.ok report) :
    calculateTotal cs f db reportID = Except.ok ((report.Expenses.map (amountUSD cs)).sum) := by
  unfold calculateTotal
  rw [hf, attempt_false, hr]
  simp only [foldl_amountUSD, zero_add]

/-! ## AddExpensesToReport: what a call does -/

/-- A request that names an id, on a draft report of the acting user with lookups that do
not fail: the association step fails whatever the ids are, and nothing changes. -/
theorem AddExpensesToReport_requested (cs : CurrencyService) (f : Faults) (w : World)
    (reportID userID : Nat) (req : AddExpensesToReportRequest) (report : ExpenseReport)
    (hne : req.ExpenseIDs ≠ [])
    (hr : expenseReportRepository.GetByID w.db reportID = Except.ok report)
    (hf : f RepoCall.reportGetByID = false) (hown : report.UserID = userID)
    (hst : report.Status = ReportStatusDraft)
    (hg : f RepoCall.expenseGetByUserIDAndIDs = false)
    (hlen : (w.db.expenses.filter (fun e => decide (e.UserID = userID) &&
      decide (e.ID ∈ req.ExpenseIDs) && !e.Deleted)).length = req.ExpenseIDs.length) :
    AddExpensesToReport cs f w reportID userID req
      = (some (NewInternalError "failed to add expenses to report" DBError.Failure), w) := by
  subst hown
  unfold AddExpensesToReport
  rw [hr, hf, attempt_false, hg, attempt_false]
  unfold expenseRepository.GetByUserIDAndIDs
  simp only [hst, ne_eq, not_true_eq_false, if_false, hlen]
  rw [AddExpenses_requested w.db reportID req.ExpenseIDs hne]
  cases f RepoCall.reportAddExpenses <;> rfl

/-- The empty request on a draft report of the acting user, with lookups and association
that do not fail: the blank expense is inserted and linked, then the total is recomputed
and written, each step ending the call when it fails. -/
theorem AddExpensesToReport_empty (cs : CurrencyService) (f : Faults) (w : World)
    (reportID userID : Nat) (report : ExpenseReport)
    (hr : expenseReportRepository.GetByID w.db reportID = Except.ok report)
    (hf : f RepoCall.reportGetByID = false) (hown : report.UserID = userID)
    (hst : report.Status = ReportStatusDraft)
    (hg : f RepoCall.expenseGetByUserIDAndIDs = false)
    (ha : f RepoCall.reportAddExpenses = false) :
    AddExpensesToReport cs f w reportID userID { ExpenseIDs := [] }
      = match calculateTotal cs f (withBlankExpense w.db reportID) reportID with
        | Except.error err =>
          (some (NewInternalError "failed to calculate total" err),
            { w with db := withBlankExpense w.db reportID })
        | Except.ok total =>
          match attempt (f RepoCall.reportUpdateTotal)
              (expenseReportRepository.UpdateTotal (withBlankExpense w.db reportID)
                reportID total) with
          | Except.error err =>
            (some (NewInternalError "failed to update total" err),
              { db := withBlankExpense w.db reportID,
                redis := calculateTotalCache cs f (withBlankExpense w.db reportID) reportID
                  w.redis })
          | Except.ok db2 =>
            (none,
              { db := db2,
                redis := Del (Del (calculateTotalCache cs f (withBlankExpense w.db reportID)
                    reportID w.redis) ("report:" ++ toString reportID))
                  ("reports:user:" ++ toString userID) }) := by
  subst hown
  unfold AddExpensesToReport
  rw [hr, hf, attempt_false, hg, attempt_false]
  unfold expenseRepository.GetByUserIDAndIDs
  simp only [hst, ne_eq, not_true_eq_false, if_false, List.not_mem_nil, decide_False,
    Bool.and_false, Bool.false_and, List.filter_false, List.length_nil, ha, attempt_false,
    AddExpenses_empty]
  try rfl

/-- A call either returns an error and leaves the state as it was, or it is the empty
request on a draft report of the acting user whose lookups and association did not fail. -/
theorem AddExpensesToReport_unchanged_or_empty (cs : CurrencyService) (f : Faults)
    (w : World) (reportID userID : Nat) (req : AddExpensesToReportRequest) :
    (∃ err, AddExpensesToReport cs f w reportID userID req = (some err, w)) ∨
    (req.ExpenseIDs = [] ∧
      ∃ report, expenseReportRepository.GetByID w.db reportID = Except.ok report ∧
        f RepoCall.reportGetByID = false ∧ report.UserID = userID ∧
        report.Status = ReportStatusDraft ∧ f RepoCall.expenseGetByUserIDAndIDs = false ∧
        f RepoCall.reportAddExpenses = false) := by
  cases hlook : attempt (f RepoCall.reportGetByID)
      (expenseReportRepository.GetByID w.db reportID) with
  | error e =>
    left
    unfold AddExpensesToReport
    rw [hlook]
    exact ⟨_, rfl⟩
  | ok report =>
    obtain ⟨hf, hr⟩ := attempt_ok hlook
    by_cases hown : report.UserID = userID
    · by_cases hst : report.Status = ReportStatusDraft
      · cases hg : f RepoCall.expenseGetByUserIDAndIDs with
        | true =>
          left
          unfold AddExpensesToReport
          rw [hlook, hg]
          simp only [hown, hst, ne_eq, not_true_eq_false, if_false, attempt_true]
          exact ⟨_, rfl⟩
        | false =>
          by_cases hlen : (w.db.expenses.filter (fun e => decide (e.UserID = userID) &&
              decide (e.ID ∈ req.ExpenseIDs) && !e.Deleted)).length = req.ExpenseIDs.length
          · by_cases hne : req.ExpenseIDs = []
            · cases ha : f RepoCall.reportAddExpenses with
              | true =>
                left
                unfold AddExpensesToReport
                rw [hlook, hg, ha]
                unfold expenseRepository.GetByUserIDAndIDs
                simp only [hown, hst, ne_eq, not_true_eq_false, if_false, attempt_false, hlen,
                  attempt_true]
                exact ⟨_, rfl⟩
              | false => exact Or.inr ⟨hne, report, hr, hf, hown, hst, rfl, rfl⟩
            · left
              exact ⟨_, AddExpensesToReport_requested cs f w reportID userID req report hne hr
                hf hown hst hg hlen⟩
          · left
            exact (AddExpensesToReport_unresolved cs f w reportID userID req hlen).1
      · left
        exact ⟨_, AddExpensesToReport_not_draft cs f w reportID userID req report hr hf hown
          hst⟩
    · left
      exact ⟨_, AddExpensesToReport_not_owner cs f w reportID userID req report hr hf hown⟩

/-- Whatever a call does to the store: nothing; or the blank expense inserted and linked;
or that and the total of the report written. -/
theorem AddExpensesToReport_db (cs : CurrencyService) (f : Faults) (w : World)
    (reportID userID : Nat) (req : AddExpensesToReportRequest) :
    (AddExpensesToReport cs f w reportID userID req).2 = w ∨
    ∃ report, expenseReportRepository.GetByID w.db reportID = Except.ok report ∧
      report.UserID = userID ∧ report.Status = ReportStatusDraft ∧ req.ExpenseIDs = [] ∧
      ((AddExpensesToReport cs f w reportID userID req).2.db = withBlankExpense w.db reportID ∨
        ∃ total, expenseReportRepository.UpdateTotal (withBlankExpense w.db reportID) reportID
            total = Except.ok (AddExpensesToReport cs f w reportID userID req).2.db) := by
  rcases AddExpensesToReport_unchanged_or_empty cs f w reportID userID req with
    ⟨err, h⟩ | ⟨hnil, report, hr, hf, hown, hst, hg, ha⟩
  · left
    rw [h]
  · right
    have hreq : req = { ExpenseIDs := [] } := by
      cases req
      simp only [AddExpensesToReportRequest.mk.injEq]
      exact hnil
    refine ⟨report, hr, hown, hst, hnil, ?_⟩
    rw [hreq, AddExpensesToReport_empty cs f w reportID userID report hr hf hown hst hg ha]
    cases calculateTotal cs f (withBlankExpense w.db reportID) reportID with
    | error err => exact Or.inl rfl
    | ok total =>
      simp only []
      cases hupd : attempt (f RepoCall.reportUpdateTotal)
          (expenseReportRepository.UpdateTotal (withBlankExpense w.db reportID) reportID
            total) with
      | error err => exact Or.inl rfl
      | ok db2 => exact Or.inr ⟨total, (attempt_ok hupd).2⟩

/-- The empty request with no repository failure in its way: no error; the report carries
the blank expense and, as total, the sum over all the expenses now loaded with it. -/
theorem AddExpensesToReport_empty_ok (cs : CurrencyService) (f : Faults) (w : World)
    (reportID userID : Nat) (report : ExpenseReport)
    (hr : expenseReportRepository.GetByID w.db reportID = Except.ok report)
    (hf : f RepoCall.reportGetByID = false) (hown : report.UserID = userID)
    (hst : report.Status = ReportStatusDraft)
    (hg : f RepoCall.expenseGetByUserIDAndIDs = false)
    (ha : f RepoCall.reportAddExpenses = false)
    (hc : f RepoCall.calculateTotalGetByID = false)
    (ht : f RepoCall.reportUpdateTotal = false) :
    ∃ db2, expenseReportRepository.UpdateTotal (withBlankExpense w.db reportID) reportID
        (((report.Expenses ++ [blankExpense w.db]).map (amountUSD cs)).sum) = Except.ok db2 ∧
      AddExpensesToReport cs f w reportID userID { ExpenseIDs := [] }
        = (none,
            { db := db2,
              redis := Del (Del (calculateTotalCache cs f (withBlankExpense w.db reportID)
                  reportID w.redis) ("report:" ++ toString reportID))
                ("reports:user:" ++ toString userID) }) ∧
      expenseReportRepository.GetByID db2 reportID = Except.ok
        { report with
          Total := ((report.Expenses ++ [blankExpense w.db]).map (amountUSD cs)).sum
          Expenses := report.Expenses ++ [blankExpense w.db] } ∧
      db2.expenses = w.db.expenses ++ [blankExpense w.db] ∧
      db2.report_expenses = w.db.report_expenses ++ [(reportID, (blankExpense w.db).ID)] ∧
      db2.expense_reports.map (fun r => r.ID) = w.db.expense_reports.map (fun r => r.ID) ∧
      ∀ id, id ≠ reportID →
        expenseReportRepository.GetByID db2 id
          = expenseReportRepository.GetByID (withBlankExpense w.db reportID) id := by
  have hget1 := reportGetByID_withBlank_same hr
  have hcalc := calculateTotal_ok cs f (withBlankExpense w.db reportID) reportID _ hc hget1
  obtain ⟨db2, hupd, he2, hj2, hr2, hsame, hother⟩ :=
    UpdateTotal_ok (withBlankExpense w.db reportID) reportID
      (((report.Expenses ++ [blankExpense w.db]).map (amountUSD cs)).sum)
  refine ⟨db2, hupd, ?_, hsame _ hget1, he2, hj2, hr2, hother⟩
  rw [AddExpensesToReport_empty cs f w reportID userID report hr hf hown hst hg ha, hcalc]
  simp only [ht, attempt_false, hupd]

/-! ## Referential integrity of reachable states -/

theorem RefIntegrity_empty : RefIntegrity World.empty :=
  ⟨List.nodup_nil, fun p hp => absurd hp (List.not_mem_nil p),
    fun p hp => absurd hp (List.not_mem_nil p)⟩

/-- Integrity carries over to a state whose expenses still have a primary key, whose
tables hold at least the keys they held, and whose new join rows name stored rows. -/
theorem RefIntegrity_of_tables {w w1 : World} (ri : RefIntegrity w)
    (hk : expensesKeyed w1.db)
    (hr : ∀ x ∈ w.db.expense_reports.map (fun r => r.ID),
      x ∈ w1.db.expense_reports.map (fun r => r.ID))
    (he : ∀ x ∈ w.db.expenses.map (fun e => e.ID), x ∈ w1.db.expenses.map (fun e => e.ID))
    (hj : ∀ p ∈ w1.db.report_expenses, p ∈ w.db.report_expenses ∨
      (p.1 ∈ w1.db.expense_reports.map (fun r => r.ID) ∧
        p.2 ∈ w1.db.expenses.map (fun e => e.ID))) :
    RefIntegrity w1 := by
  refine ⟨hk, ?_, ?_⟩
  · intro p hp
    rcases hj p hp with h | h
    · exact hr _ (ri.reportRows p h)
    · exact h.1
  · intro p hp
    rcases hj p hp with h | h
    · exact he _ (ri.expenseRows p h)
    · exact h.2

/-- The state `CreateReport` leaves: as before, or one more report row, a draft with total 0
under a fresh key. -/
theorem CreateReport_db (f : Faults) (w : World) (userID : Nat)
    (req : CreateExpenseReportRequest) :
    (CreateReport f w userID req).2 = w ∨
    (CreateReport f w userID req).2.db =
      { w.db with
        expense_reports := w.db.expense_reports ++
          [{ ID := nextID (w.db.expense_reports.map (fun r => r.ID)), UserID := userID,
             Title := req.Title, Status := ReportStatusDraft, Total := 0, Deleted := false,
             Expenses := [] }] } := by
  unfold CreateReport
  cases f RepoCall.reportCreate with
  | true => exact Or.inl rfl
  | false => exact Or.inr rfl

theorem RefIntegrity_CreateReport {w : World} (ri : RefIntegrity w) (f : Faults)
    (userID : Nat) (req : CreateExpenseReportRequest) :
    RefIntegrity (CreateReport f w userID req).2 := by
  rcases CreateReport_db f w userID req with h | h
  · rw [h]
    exact ri
  · refine RefIntegrity_of_tables ri ?_ ?_ ?_ ?_
    · unfold expensesKeyed
      rw [h]
      exact ri.keyed
    · intro x hx
      rw [h]
      simp only [List.map_append, List.mem_append]
      exact Or.inl hx
    · intro x hx
      rw [h]
      exact hx
    · intro p hp
      rw [h] at hp
      exact Or.inl hp

/-- The state `CreateExpense` leaves: as before, or one more expense row under a fresh key. -/
theorem CreateExpense_db (f : Faults) (w : World) (userID : Nat) (req : CreateExpenseRequest) :
    (CreateExpense f w userID req).2 = w ∨
    ∃ e, e.ID = nextID (w.db.expenses.map (fun e => e.ID)) ∧
      (CreateExpense f w userID req).2.db = { w.db with expenses := w.db.expenses ++ [e] } := by
  unfold CreateExpense
  cases f RepoCall.expenseCreate with
  | true => exact Or.inl rfl
  | false => exact Or.inr ⟨_, rfl, rfl⟩

theorem RefIntegrity_CreateExpense {w : World} (ri : RefIntegrity w) (f : Faults)
    (userID : Nat) (req : CreateExpenseRequest) :
    RefIntegrity (CreateExpense f w userID req).2 := by
  rcases CreateExpense_db f w userID req with h | ⟨e, hid, h⟩
  · rw [h]
    exact ri
  · have hfresh : e.ID ∉ w.db.expenses.map (fun e => e.ID) := by
      rw [hid]
      exact nextID_fresh _
    refine RefIntegrity_of_tables ri ?_ ?_ ?_ ?_
    · unfold expensesKeyed
      rw [h]
      simp only [List.map_append, List.map_cons, List.map_nil]
      rw [List.nodup_append]
      refine ⟨ri.keyed, List.nodup_singleton _, ?_⟩
      intro x hx hx1
      rw [List.mem_singleton] at hx1
      exact hfresh (hx1 ▸ hx)
    · intro x hx
      rw [h]
      exact hx
    · intro x hx
      rw [h]
      simp only [List.map_append, List.mem_append]
      exact Or.inl hx
    · intro p hp
      rw [h] at hp
      exact Or.inl hp

/-- Integrity carries over when the blank expense is inserted and linked to a stored
report. -/
theorem RefIntegrity_of_blank {w w1 : World} (ri : RefIntegrity w) (reportID : Nat)
    (hid : reportID ∈ w.db.expense_reports.map (fun r => r.ID))
    (he : w1.db.expenses = w.db.expenses ++ [blankExpense w.db])
    (hj : w1.db.report_expenses
      = w.db.report_expenses ++ [(reportID, (blankExpense w.db).ID)])
    (hr : w1.db.expense_reports.map (fun r => r.ID)
      = w.db.expense_reports.map (fun r => r.ID)) : RefIntegrity w1 := by
  have hblank : (blankExpense w.db).ID ∈ w1.db.expenses.map (fun e => e.ID) := by
    rw [he]
    simp
  refine RefIntegrity_of_tables ri ?_ ?_ ?_ ?_
  · unfold expensesKeyed
    rw [he, List.map_append, List.nodup_append]
    refine ⟨ri.keyed, List.nodup_singleton _, ?_⟩
    intro x hx hx2
    simp only [List.map_cons, List.map_nil, List.mem_singleton] at hx2
    rw [hx2] at hx
    exact nextID_fresh _ hx
  · intro x hx
    rw [hr]
    exact hx
  · intro x hx
    rw [he, List.map_append]
    exact List.mem_append_left _ hx
  · intro p hp
    rw [hj, List.mem_append, List.mem_singleton] at hp
    rcases hp with h | h
    · exact Or.inl h
    · right
      rw [h, hr]
      exact ⟨hid, hblank⟩

theorem RefIntegrity_AddExpensesToReport {w : World} (ri : RefIntegrity w)
    (cs : CurrencyService) (f : Faults) (reportID userID : Nat)
    (req : AddExpensesToReportRequest) :
    RefIntegrity (AddExpensesToReport cs f w reportID userID req).2 := by
  rcases AddExpensesToReport_db cs f w reportID userID req with
    h | ⟨report, hr, _, _, _, h | ⟨total, h⟩⟩
  · rw [h]
    exact ri
  · obtain ⟨_, _, _, row, hrow, hrid, _⟩ := reportGetByID_ok hr
    refine RefIntegrity_of_blank ri reportID (List.mem_map.mpr ⟨row, hrow, hrid⟩) ?_ ?_ ?_
    · rw [h]
      rfl
    · rw [h]
      rfl
    · rw [h]
      rfl
  · obtain ⟨_, _, _, row, hrow, hrid, _⟩ := reportGetByID_ok hr
    obtain ⟨db2, hupd, he2, hj2, hr2, _, _⟩ :=
      UpdateTotal_ok (withBlankExpense w.db reportID) reportID total
    rw [hupd] at h
    injection h with h
    refine RefIntegrity_of_blank ri reportID (List.mem_map.mpr ⟨row, hrow, hrid⟩) ?_ ?_ ?_
    · rw [← h, he2]
      rfl
    · rw [← h, hj2]
      rfl
    · rw [← h, hr2]
      rfl

/-- The state `SubmitReport` leaves: as before, or the database after saving the loaded
report with status submitted. -/
theorem SubmitReport_db (f : Faults) (w : World) (reportID userID : Nat) :
    (SubmitReport f w reportID userID).2 = w ∨
    ∃ report db1, expenseReportRepository.GetByID w.db reportID = Except.ok report ∧
      expenseReportRepository.Update w.db { report with Status := ReportStatusSubmitted }
        = Except.ok db1 ∧
      (SubmitReport f w reportID userID).2.db = db1 := by
  unfold SubmitReport
  split
  · exact Or.inl rfl
  · next report hlook =>
    obtain ⟨_, hr⟩ := attempt_ok hlook
    split
    · exact Or.inl rfl
    · split
      · exact Or.inl rfl
      · split
        · exact Or.inl rfl
        · split
          · exact Or.inl rfl
          · next db1 hup =>
            obtain ⟨_, hu⟩ := attempt_ok hup
            exact Or.inr ⟨report, db1, hr, hu, rfl⟩

theorem RefIntegrity_SubmitReport {w : World} (ri : RefIntegrity w) (f : Faults)
    (reportID userID : Nat) : RefIntegrity (SubmitReport f w reportID userID).2 := by
  rcases SubmitReport_db f w reportID userID with h | ⟨report, db1, hr, hup, hdb⟩
  · rw [h]
    exact ri
  · obtain ⟨db2, hup2, he, hj, _, hids, _⟩ :=
      reportGetByID_after_Update { report with Status := ReportStatusSubmitted } hr rfl rfl
    rw [hup] at hup2
    injection hup2 with hup2
    subst hup2
    refine RefIntegrity_of_tables ri ?_ ?_ ?_ ?_
    · unfold expensesKeyed
      rw [hdb, he]
      exact ri.keyed
    · intro x hx
      rw [hdb, hids]
      exact hx
    · intro x hx
      rw [hdb, he]
      exact hx
    · intro p hp
      rw [hdb, hj] at hp
      exact Or.inl hp

/-- A write that maps the rows of `expenses` and keeps their keys keeps integrity. -/
theorem RefIntegrity_of_expense_map {w : World} (ri : RefIntegrity w) (g : Expense → Expense)
    (w1 : World) (he : w1.db.expenses = w.db.expenses.map g)
    (hr : w1.db.expense_reports = w.db.expense_reports)
    (hj : w1.db.report_expenses = w.db.report_expenses)
    (hid : ∀ e ∈ w.db.expenses, (g e).ID = e.ID) : RefIntegrity w1 := by
  have hids : w1.db.expenses.map (fun e => e.ID) = w.db.expenses.map (fun e => e.ID) := by
    rw [he, List.map_map]
    apply List.map_congr_left
    intro e hmem
    exact hid e hmem
  refine ⟨?_, ?_, ?_⟩
  · unfold expensesKeyed
    rw [hids]
    exact ri.keyed
  · rw [hj, hr]
    exact ri.reportRows
  · rw [hj, hids]
    exact ri.expenseRows

/-- What a successful expense lookup returns: a live row with that key. -/
theorem expenseGetByID_ok {db : DB} {id : Nat} {expense : Expense}
    (h : expenseRepository.GetByID db id = Except.ok expense) :
    expense ∈ db.expenses ∧ expense.ID = id ∧ expense.Deleted = false := by
  unfold expenseRepository.GetByID at h
  split at h
  · exact absurd h (by simp)
  · next e he =>
    have hp := List.find?_some he
    have hm := List.mem_of_find?_eq_some he
    simp only [Bool.and_eq_true, decide_eq_true_eq, Bool.not_eq_true'] at hp
    injection h with h
    subst h
    exact ⟨hm, hp.1, hp.2⟩

/-- The field updates keep key, owner and deleted flag; amount and currency change only
when the request carries them. -/
theorem applyUpdate_keeps (expense : Expense) (req : UpdateExpenseRequest) :
    (applyUpdate expense req).ID = expense.ID ∧
    (applyUpdate expense req).UserID = expense.UserID ∧
    (applyUpdate expense req).Deleted = expense.Deleted ∧
    (req.Amount = none → req.Currency = "" →
      (applyUpdate expense req).Amount = expense.Amount ∧
      (applyUpdate expense req).Currency = expense.Currency) := by
  refine ⟨?_, ?_, ?_, ?_⟩
  · cases hA : req.Amount <;> simp [applyUpdate, hA, apply_ite Expense.ID]
  · cases hA : req.Amount <;> simp [applyUpdate, hA, apply_ite Expense.UserID]
  · cases hA : req.Amount <;> simp [applyUpdate, hA, apply_ite Expense.Deleted]
  · intro h1 h2
    constructor
    · simp [applyUpdate, h1, h2, apply_ite Expense.Amount]
    · simp [applyUpdate, h1, h2, apply_ite Expense.Currency]

/-- The state `UpdateExpense` leaves: as before, or the rows with the key of the loaded
expense replaced by the updated struct. -/
theorem UpdateExpense_db (f : Faults) (w : World) (id userID : Nat)
    (req : UpdateExpenseRequest) :
    (UpdateExpense f w id userID req).2 = w ∨
    ∃ expense, expenseRepository.GetByID w.db id = Except.ok expense ∧
      (UpdateExpense f w id userID req).2.db = { w.db with
        expenses := w.db.expenses.map (fun e =>
          if e.ID = (applyUpdate expense req).ID then applyUpdate expense req else e) } := by
  unfold UpdateExpense
  split
  · exact Or.inl rfl
  · next expense hlook =>
    obtain ⟨_, hr⟩ := attempt_ok hlook
    split
    · exact Or.inl rfl
    · cases hu : f RepoCall.expenseUpdate with
      | true => exact Or.inl rfl
      | false =>
        right
        refine ⟨expense, hr, ?_⟩
        obtain ⟨hmem, _, _⟩ := expenseGetByID_ok hr
        have hany : w.db.expenses.any
            (fun e => decide (e.ID = (applyUpdate expense req).ID)) = true := by
          rw [List.any_eq_true]
          exact ⟨expense, hmem, by simp [(applyUpdate_keeps expense req).1]⟩
        simp only [attempt_false, expenseRepository.Update, hany, if_true]

theorem RefIntegrity_UpdateExpense {w : World} (ri : RefIntegrity w) (f : Faults)
    (id userID : Nat) (req : UpdateExpenseRequest) :
    RefIntegrity (UpdateExpense f w id userID req).2 := by
  rcases UpdateExpense_db f w id userID req with h | ⟨expense, _, hdb⟩
  · rw [h]
    exact ri
  · refine RefIntegrity_of_expense_map ri _ _ (by rw [hdb]) (by rw [hdb]) (by rw [hdb]) ?_
    intro e _
    by_cases he : e.ID = (applyUpdate expense req).ID
    · rw [if_pos he]
      exact he.symm
    · rw [if_neg he]

/-- The state `DeleteExpense` leaves: as before, or the live row with that key marked. -/
theorem DeleteExpense_db (f : Faults) (w : World) (id userID : Nat) :
    (DeleteExpense f w id userID).2 = w ∨
    (DeleteExpense f w id userID).2.db = { w.db with
      expenses := w.db.expenses.map (fun e =>
        if e.ID = id ∧ e.Deleted = false then { e with Deleted := true } else e) } := by
  unfold DeleteExpense
  split
  · exact Or.inl rfl
  · split
    · exact Or.inl rfl
    · cases hu : f RepoCall.expenseDelete with
      | true => exact Or.inl rfl
      | false => exact Or.inr rfl

theorem RefIntegrity_DeleteExpense {w : World} (ri : RefIntegrity w) (f : Faults)
    (id userID : Nat) : RefIntegrity (DeleteExpense f w id userID).2 := by
  rcases DeleteExpense_db f w id userID with h | hdb
  · rw [h]
    exact ri
  · refine RefIntegrity_of_expense_map ri _ _ (by rw [hdb]) (by rw [hdb]) (by rw [hdb]) ?_
    intro e _
    by_cases he : e.ID = id ∧ e.Deleted = false
    · rw [if_pos he]
    · rw [if_neg he]

/-- Every call of a service operation keeps integrity, whatever its arguments and whatever
fails. -/
theorem RefIntegrity_run {w : World} (ri : RefIntegrity w) (cs : CurrencyService)
    (f : Faults) (op : Op) : RefIntegrity (op.run cs f w) := by
  cases op with
  | createReport userID req => exact RefIntegrity_CreateReport ri f userID req
  | addExpensesToReport reportID userID req =>
    exact RefIntegrity_AddExpensesToReport ri cs f reportID userID req
  | submitReport reportID userID => exact RefIntegrity_SubmitReport ri f reportID userID
  | createExpense userID req => exact RefIntegrity_CreateExpense ri f userID req
  | updateExpense id userID req => exact RefIntegrity_UpdateExpense ri f id userID req
  | deleteExpense id userID => exact RefIntegrity_DeleteExpense ri f id userID

/-- Every reachable state has integrity, whichever calls are admitted. -/
theorem RefIntegrity_reachable {cs : CurrencyService}
    {allowed : Faults → World → Op → Prop} {w : World} (h : Reachable cs allowed w) :
    RefIntegrity w := by
  induction h with
  | init => exact RefIntegrity_empty
  | step f w op _ _ ih => exact RefIntegrity_run ih cs f op

/-! ## Current totals along runs -/

/-- The report `CreateReport` has just stored loads as an empty draft with total 0. -/
theorem reportGetByID_created {w : World} (ri : RefIntegrity w) (userID : Nat)
    (req : CreateExpenseReportRequest) :
    expenseReportRepository.GetByID
        { w.db with
          expense_reports := w.db.expense_reports ++
            [{ ID := nextID (w.db.expense_reports.map (fun r => r.ID)), UserID := userID,
               Title := req.Title, Status := ReportStatusDraft, Total := 0, Deleted := false,
               Expenses := [] }] }
        (nextID (w.db.expense_reports.map (fun r => r.ID)))
      = Except.ok
        { ID := nextID (w.db.expense_reports.map (fun r => r.ID)), UserID := userID,
          Title := req.Title, Status := ReportStatusDraft, Total := 0, Deleted := false,
          Expenses := [] } := by
  have hnone : w.db.expense_reports.find? (fun r =>
      decide (r.ID = nextID (w.db.expense_reports.map (fun r => r.ID))) && !r.Deleted)
      = none := by
    rw [List.find?_eq_none]
    intro r hr
    simp only [Bool.and_eq_true, decide_eq_true_eq, not_and]
    intro hid
    exact absurd (List.mem_map.mpr ⟨r, hr, hid⟩) (nextID_fresh _)
  have hempty : expenseReportRepository.preloadExpenses w.db
      (nextID (w.db.expense_reports.map (fun r => r.ID))) = [] := by
    unfold expenseReportRepository.preloadExpenses
    rw [List.filter_eq_nil_iff]
    intro e _
    simp only [Bool.and_eq_true, decide_eq_true_eq, not_and]
    intro _ hmem
    exact nextID_fresh _ (ri.reportRows _ hmem)
  rw [reportGetByID_eq]
  simp only [List.find?_append, hnone, Option.none_or, List.find?_cons, decide_True,
    Bool.not_false, Bool.and_self]
  have hpre : ∀ rows id, expenseReportRepository.preloadExpenses
      { w.db with expense_reports := rows } id
      = expenseReportRepository.preloadExpenses w.db id := fun _ _ => rfl
  rw [hpre, hempty]

/-- What a successful `CreateReport` returns and stores. -/
theorem CreateReport_ok {f : Faults} {w w1 : World} {userID : Nat}
    {req : CreateExpenseReportRequest} {response : ExpenseReportResponse}
    (h : CreateReport f w userID req = (Except.ok response, w1)) :
    response.ID = nextID (w.db.expense_reports.map (fun r => r.ID)) ∧
    w1.db = { w.db with
      expense_reports := w.db.expense_reports ++
        [{ ID := nextID (w.db.expense_reports.map (fun r => r.ID)), UserID := userID,
           Title := req.Title, Status := ReportStatusDraft, Total := 0, Deleted := false,
           Expenses := [] }] } := by
  unfold CreateReport at h
  cases hf : f RepoCall.reportCreate with
  | true =>
    rw [hf] at h
    simp [attempt, expenseReportRepository.Create] at h
  | false =>
    rw [hf] at h
    simp only [attempt_false, expenseReportRepository.Create, Prod.mk.injEq,
      Except.ok.injEq] at h
    obtain ⟨h1, h2⟩ := h
    rw [← h1, ← h2]
    exact ⟨rfl, rfl⟩

/-- The first three calls of the scenario are admitted whatever calls are: they create
the report and the two expenses. -/
theorem runExpense2_reachable (allowed : Faults → World → Op → Prop)
    (hr : ∀ f w userID req, allowed f w (Op.createReport userID req))
    (he : ∀ f w userID req, allowed f w (Op.createExpense userID req)) :
    Reachable scenarioService allowed runExpense2 :=
  Reachable.step _ _ _
    (Reachable.step _ _ _
      (Reachable.step _ _ _ Reachable.init (hr _ _ _ _))
      (he _ _ _ _))
    (he _ _ _ _)

theorem Get_Del_same (redis : List (String × String)) (key : String) :
    redisClient.Get (Del redis key) key = none := by
  unfold redisClient.Get Del
  have hnone : (redis.filter (fun kv => decide (kv.1 ≠ key))).find?
      (fun kv => decide (kv.1 = key)) = none := by
    rw [List.find?_eq_none]
    intro kv hkv
    rw [List.mem_filter] at hkv
    simpa using hkv.2
  rw [hnone]
  rfl

theorem Get_Del_other (redis : List (String × String)) {key k : String} (h : k ≠ key) :
    redisClient.Get (Del redis key) k = redisClient.Get redis k := by
  unfold redisClient.Get Del
  rw [List.find?_filter]
  congr 2
  funext kv
  by_cases hk : kv.1 = k
  · have hkey : ¬ kv.1 = key := fun h1 => h (hk.symm.trans h1)
    simp [hk, hkey, h]
  · simp [hk]

theorem Get_Set_same (redis : List (String × String)) (key value : String) (seconds : Nat) :
    redisClient.Get (redisClient.Set redis key value seconds) key = some value := by
  have hdel := Get_Del_same redis key
  unfold redisClient.Get at hdel ⊢
  unfold redisClient.Set
  rw [List.find?_append]
  cases hfind : (Del redis key).find? (fun kv => decide (kv.1 = key)) with
  | none => simp
  | some kv =>
    rw [hfind] at hdel
    exact absurd hdel (by simp)

theorem Get_Set_other (redis : List (String × String)) {key k : String} (value : String)
    (seconds : Nat) (h : k ≠ key) :
    redisClient.Get (redisClient.Set redis key value seconds) k = redisClient.Get redis k := by
  rw [← Get_Del_other redis h]
  unfold redisClient.Get redisClient.Set
  rw [List.find?_append]
  have hne : ¬ key = k := fun h1 => h h1.symm
  cases hfind : (Del redis key).find? (fun kv => decide (kv.1 = k)) with
  | none => simp [hne]
  | some kv => simp

/-! ## The rate cache -/

theorem ConvertCurrency_same (b : RateBackend) (s : RateState) (amount : ℚ) (src dst : String)
    (h : b.ToUpper src = b.ToUpper dst) :
    currencyService.ConvertCurrency b s amount src dst = (Except.ok amount, s) := by
  unfold currencyService.ConvertCurrency
  rw [if_pos h]

theorem ConvertCurrency_differ (b : RateBackend) (s : RateState) (amount : ℚ) (src dst : String)
    (h : b.ToUpper src ≠ b.ToUpper dst) :
    currencyService.ConvertCurrency b s amount src dst
      = match currencyService.GetExchangeRate b s src dst with
        | (Except.error err, s1) => (Except.error err, s1)
        | (Except.ok rate, s1) => (Except.ok (amount * rate), s1) := by
  unfold currencyService.ConvertCurrency
  simp only [if_neg h]
  try rfl

theorem GetExchangeRate_same (b : RateBackend) (s : RateState) (src dst : String)
    (h : b.ToUpper src = b.ToUpper dst) :
    currencyService.GetExchangeRate b s src dst = (Except.ok 1, s) := by
  unfold currencyService.GetExchangeRate
  simp only [h, if_true]

/-- A lookup sees the two codes through their upper-casing only. -/
theorem GetExchangeRate_case (b : RateBackend) (s : RateState) (src dst src2 dst2 : String)
    (h1 : b.ToUpper src2 = b.ToUpper src) (h2 : b.ToUpper dst2 = b.ToUpper dst) :
    currencyService.GetExchangeRate b s src2 dst2
      = currencyService.GetExchangeRate b s src dst := by
  unfold currencyService.GetExchangeRate
  simp only [h1, h2]

/-- A hit: the key of the pair holds text that parses. -/
theorem GetExchangeRate_hit (b : RateBackend) (s : RateState) (src dst text : String)
    (rate : ℚ) (hne : b.ToUpper src ≠ b.ToUpper dst)
    (hget : redisClient.Get s.redis (currencyService.cacheKey (b.ToUpper src) (b.ToUpper dst))
      = some text)
    (hparse : b.Sscanf text = Except.ok rate) :
    currencyService.GetExchangeRate b s src dst
      = (Except.ok rate,
          { s with
            calls := s.calls ++
              [ExternalCall.redisGet (currencyService.cacheKey (b.ToUpper src) (b.ToUpper dst))] }) := by
  unfold currencyService.GetExchangeRate
  simp only [hne, if_false, hget, hparse]

/-- What `fetchExchangeRate` does, whatever the answer: one request, nothing else. -/
theorem fetchExchangeRate_state (b : RateBackend) (s : RateState) (src dst : String) :
    (currencyService.fetchExchangeRate b s src dst).2
      = { s with calls := s.calls ++ [ExternalCall.httpGet (b.APIURL ++ "/" ++ src)] } := by
  unfold currencyService.fetchExchangeRate
  simp only
  split
  · rfl
  · split
    · rfl
    · split
      · rfl
      · split
        · rfl
        · split <;> rfl

/-- The answer of `fetchExchangeRate` when the provider serves a rate for the target. -/
theorem fetchExchangeRate_ok (b : RateBackend) (s : RateState) (src dst body : String)
    (resp : HTTPResponse) (data : ExchangeRateResponse) (rate : ℚ)
    (hdo : b.Do (b.APIURL ++ "/" ++ src) = Except.ok resp) (hstatus : resp.StatusCode = 200)
    (hbody : resp.Body = Except.ok body) (hdata : b.Unmarshal body = Except.ok data)
    (hrate : data.Rates.lookup dst = some rate) :
    currencyService.fetchExchangeRate b s src dst
      = (Except.ok rate,
          { s with calls := s.calls ++ [ExternalCall.httpGet (b.APIURL ++ "/" ++ src)] }) := by
  unfold currencyService.fetchExchangeRate
  simp only [hdo, hstatus, hbody, hdata, hrate, ne_eq, not_true_eq_false, if_false]

theorem fetchExchangeRate_fails (b : RateBackend) (s : RateState) (src dst : String)
    (h : providerFails b src dst) :
    ∃ err, currencyService.fetchExchangeRate b s src dst
      = (Except.error err,
          { s with calls := s.calls ++ [ExternalCall.httpGet (b.APIURL ++ "/" ++ src)] }) := by
  unfold currencyService.fetchExchangeRate
  rcases h with ⟨err, hdo⟩ | ⟨resp, hdo, hst | ⟨hst, err, hbody⟩ | ⟨hst, body, hbody, hrest⟩⟩
  · exact ⟨err, by simp only [hdo]⟩
  · simp only [hdo, hst, ne_eq, not_false_eq_true, if_true]
    exact ⟨_, rfl⟩
  · exact ⟨err, by simp only [hdo, hst, hbody, ne_eq, not_true_eq_false, if_false]⟩
  · rcases hrest with ⟨err, hdata⟩ | ⟨data, hdata, hrate⟩
    · exact ⟨err, by simp only [hdo, hst, hbody, hdata, ne_eq, not_true_eq_false, if_false]⟩
    · simp only [hdo, hst, hbody, hdata, hrate, ne_eq, not_true_eq_false, if_false]
      exact ⟨_, rfl⟩

/-- A miss with a provider that serves the rate: one read of the key, one request, one
write of the key for six hours. -/
theorem GetExchangeRate_miss_ok (b : RateBackend) (s : RateState) (src dst body : String)
    (resp : HTTPResponse) (data : ExchangeRateResponse) (rate : ℚ)
    (hne : b.ToUpper src ≠ b.ToUpper dst)
    (hmiss : redisClient.Get s.redis (currencyService.cacheKey (b.ToUpper src) (b.ToUpper dst))
      = none ∨
      ∃ text err, redisClient.Get s.redis
          (currencyService.cacheKey (b.ToUpper src) (b.ToUpper dst)) = some text ∧
        b.Sscanf text = Except.error err)
    (hdo : b.Do (b.APIURL ++ "/" ++ b.ToUpper src) = Except.ok resp)
    (hstatus : resp.StatusCode = 200) (hbody : resp.Body = Except.ok body)
    (hdata : b.Unmarshal body = Except.ok data)
    (hrate : data.Rates.lookup (b.ToUpper dst) = some rate) :
    currencyService.GetExchangeRate b s src dst
      = (Except.ok rate,
          { redis := redisClient.Set s.redis
              (currencyService.cacheKey (b.ToUpper src) (b.ToUpper dst)) (b.Sprintf rate) rateTTL,
            calls := s.calls ++
              [ExternalCall.redisGet (currencyService.cacheKey (b.ToUpper src) (b.ToUpper dst)),
               ExternalCall.httpGet (b.APIURL ++ "/" ++ b.ToUpper src),
               ExternalCall.redisSet (currencyService.cacheKey (b.ToUpper src) (b.ToUpper dst))
                 (b.Sprintf rate) rateTTL] }) := by
  have hfetch := fetchExchangeRate_ok b
    { s with
      calls := s.calls ++
        [ExternalCall.redisGet (currencyService.cacheKey (b.ToUpper src) (b.ToUpper dst))] }
    (b.ToUpper src) (b.ToUpper dst) body resp data rate hdo hstatus hbody hdata hrate
  unfold currencyService.GetExchangeRate
  rcases hmiss with hnone | ⟨text, err, hsome, hparse⟩
  · simp only [hne, if_false, hnone, hfetch, List.append_assoc, List.singleton_append,
      List.cons_append, List.nil_append]
  · simp only [hne, if_false, hsome, hparse, hfetch, List.append_assoc, List.singleton_append,
      List.cons_append, List.nil_append]

/-- A miss with a provider call that fails: one read of the key, one request, an error,
and the key space as it was. -/
theorem GetExchangeRate_miss_fails (b : RateBackend) (s : RateState) (src dst : String)
    (hne : b.ToUpper src ≠ b.ToUpper dst)
    (hmiss : redisClient.Get s.redis (currencyService.cacheKey (b.ToUpper src) (b.ToUpper dst))
      = none ∨
      ∃ text err, redisClient.Get s.redis
          (currencyService.cacheKey (b.ToUpper src) (b.ToUpper dst)) = some text ∧
        b.Sscanf text = Except.error err)
    (hfail : providerFails b (b.ToUpper src) (b.ToUpper dst)) :
    ∃ err, currencyService.GetExchangeRate b s src dst
      = (Except.error err,
          { redis := s.redis,
            calls := s.calls ++
              [ExternalCall.redisGet (currencyService.cacheKey (b.ToUpper src) (b.ToUpper dst)),
               ExternalCall.httpGet (b.APIURL ++ "/" ++ b.ToUpper src)] }) := by
  obtain ⟨err, hfetch⟩ := fetchExchangeRate_fails b
    { s with
      calls := s.calls ++
        [ExternalCall.redisGet (currencyService.cacheKey (b.ToUpper src) (b.ToUpper dst))] }
    (b.ToUpper src) (b.ToUpper dst) hfail
  refine ⟨"failed to fetch exchange rate: " ++ err, ?_⟩
  unfold currencyService.GetExchangeRate
  rcases hmiss with hnone | ⟨text, err1, hsome, hparse⟩
  · simp only [hne, if_false, hnone, hfetch, List.append_assoc, List.singleton_append,
      List.cons_append, List.nil_append]
  · simp only [hne, if_false, hsome, hparse, hfetch, List.append_assoc, List.singleton_append,
      List.cons_append, List.nil_append]

/-- The value of the conversion of the service is the conversion over the lookup whose
answers are the values `GetExchangeRate` returns in that state. -/
theorem ConvertCurrency_value (b : RateBackend) (s : RateState) (amount : ℚ)
    (src dst : String) :
    (currencyService.ConvertCurrency b s amount src dst).1
      = ConvertCurrency b.ToUpper (fun x y => (currencyService.GetExchangeRate b s x y).1)
          amount src dst := by
  unfold currencyService.ConvertCurrency ConvertCurrency
  by_cases h : b.ToUpper src = b.ToUpper dst
  · rw [if_pos h, if_pos h]
  · rw [if_neg h, if_neg h]
    rcases hres : currencyService.GetExchangeRate b s src dst with ⟨r, s1⟩
    cases r <;> simp only [hres]

/-! ## The status of a report across calls -/

theorem statusOf_eq (db : DB) (id : Nat) :
    statusOf db id
      = (db.expense_reports.find? (fun r => decide (r.ID = id) && !r.Deleted)).map
          (fun r => r.Status) := by
  unfold statusOf
  rw [reportGetByID_eq]
  cases db.expense_reports.find? (fun r => decide (r.ID = id) && !r.Deleted) <;> rfl

/-- The status shown depends on the table of reports only. -/
theorem statusOf_congr {db1 db2 : DB} (h : db1.expense_reports = db2.expense_reports)
    (id : Nat) : statusOf db1 id = statusOf db2 id := by
  rw [statusOf_eq, statusOf_eq, h]

theorem statusOf_of_GetByID {db : DB} {id : Nat} {report : ExpenseReport}
    (h : expenseReportRepository.GetByID db id = Except.ok report) :
    statusOf db id = some report.Status := by
  unfold statusOf
  rw [h]
  rfl

theorem statusOf_CreateReport (f : Faults) (w : World) (userID : Nat)
    (req : CreateExpenseReportRequest) (id : Nat) (status : String)
    (h : statusOf w.db id = some status) :
    statusOf (CreateReport f w userID req).2.db id = some status := by
  rcases CreateReport_db f w userID req with hw | hdb
  · rw [hw]
    exact h
  · rw [statusOf_eq] at h ⊢
    rw [hdb]
    simp only [List.find?_append]
    cases hfind : w.db.expense_reports.find? (fun r => decide (r.ID = id) && !r.Deleted) with
    | none =>
      rw [hfind] at h
      exact absurd h (by simp)
    | some r =>
      rw [hfind] at h
      simpa using h

theorem statusOf_CreateExpense (f : Faults) (w : World) (userID : Nat)
    (req : CreateExpenseRequest) (id : Nat) :
    statusOf (CreateExpense f w userID req).2.db id = statusOf w.db id := by
  rcases CreateExpense_db f w userID req with hw | ⟨e, _, hdb⟩
  · rw [hw]
  · exact statusOf_congr (by rw [hdb]) id

theorem statusOf_UpdateExpense (f : Faults) (w : World) (expenseID userID : Nat)
    (req : UpdateExpenseRequest) (id : Nat) :
    statusOf (UpdateExpense f w expenseID userID req).2.db id = statusOf w.db id := by
  rcases UpdateExpense_db f w expenseID userID req with hw | ⟨e, _, hdb⟩
  · rw [hw]
  · exact statusOf_congr (by rw [hdb]) id

theorem statusOf_DeleteExpense (f : Faults) (w : World) (expenseID userID : Nat) (id : Nat) :
    statusOf (DeleteExpense f w expenseID userID).2.db id = statusOf w.db id := by
  rcases DeleteExpense_db f w expenseID userID with hw | hdb
  · rw [hw]
  · exact statusOf_congr (by rw [hdb]) id

/-- `AddExpensesToReport` writes an expense, a join row and a total: the status of every
report is as it was, whatever fails. -/
theorem statusOf_AddExpensesToReport (cs : CurrencyService) (f : Faults) (w : World)
    (reportID userID : Nat) (req : AddExpensesToReportRequest) (id : Nat) :
    statusOf (AddExpensesToReport cs f w reportID userID req).2.db id = statusOf w.db id := by
  rcases AddExpensesToReport_db cs f w reportID userID req with
    h | ⟨report, hr, _, _, _, hdb | ⟨total, hupd⟩⟩
  · rw [h]
  · rw [hdb]
    exact statusOf_congr
      (show (withBlankExpense w.db reportID).expense_reports = w.db.expense_reports from rfl) id
  · have hr1 := reportGetByID_withBlank_same hr
    obtain ⟨db2, hupd2, _, _, _, hsame, hother⟩ :=
      UpdateTotal_ok (withBlankExpense w.db reportID) reportID total
    rw [hupd2] at hupd
    have hdb : (AddExpensesToReport cs f w reportID userID req).2.db = db2 :=
      (Except.ok.inj hupd).symm
    rw [hdb]
    have hblank : statusOf (withBlankExpense w.db reportID) id = statusOf w.db id :=
      statusOf_congr
        (show (withBlankExpense w.db reportID).expense_reports = w.db.expense_reports from rfl) id
    rw [← hblank]
    by_cases hid : id = reportID
    · subst hid
      rw [statusOf_of_GetByID (hsame _ hr1), statusOf_of_GetByID hr1]
    · unfold statusOf
      rw [hother id hid]

/-- A `SubmitReport` that returns an error leaves the state as it was. -/
theorem SubmitReport_unchanged_of_error {f : Faults} {w : World} {reportID userID : Nat}
    (h : (SubmitReport f w reportID userID).1 ≠ none) :
    (SubmitReport f w reportID userID).2 = w := by
  revert h
  unfold SubmitReport
  split
  · exact fun _ => rfl
  · split
    · exact fun _ => rfl
    · split
      · exact fun _ => rfl
      · split
        · exact fun _ => rfl
        · split
          · exact fun _ => rfl
          · exact fun h => absurd rfl h

/-- `SubmitReport` changes the status of one report at most, from draft to submitted. -/
theorem statusOf_SubmitReport (f : Faults) (w : World) (reportID userID : Nat) (id : Nat) :
    statusOf (SubmitReport f w reportID userID).2.db id = statusOf w.db id ∨
    (id = reportID ∧ statusOf w.db id = some ReportStatusDraft ∧
      statusOf (SubmitReport f w reportID userID).2.db id = some ReportStatusSubmitted) := by
  by_cases hsucc : (SubmitReport f w reportID userID).1 = none
  · obtain ⟨report, hr, hf, hu, hown, hst, hne⟩ := SubmitReport_success_inv hsucc
    obtain ⟨_, hget, _, _⟩ := SubmitReport_ok f w reportID userID report hr hf hu hown hst hne
    by_cases hid : id = reportID
    · right
      subst hid
      refine ⟨rfl, ?_, statusOf_of_GetByID hget⟩
      rw [statusOf_of_GetByID hr, hst]
    · left
      rcases SubmitReport_db f w reportID userID with hw | ⟨report2, db1, hr2, hup, hdb⟩
      · rw [hw]
      · obtain ⟨db2, hup2, _, _, _, _, hother⟩ :=
          reportGetByID_after_Update { report2 with Status := ReportStatusSubmitted } hr2 rfl rfl
        rw [hup] at hup2
        injection hup2 with hup2
        subst hup2
        unfold statusOf
        rw [hdb, hother id hid]
  · left
    rw [SubmitReport_unchanged_of_error hsucc]

/-- `GetReportByID` writes to the cache only. -/
theorem GetReportByID_db (codec : ReportCodec) (f : Faults) (w : World) (id : Nat) :
    (GetReportByID codec f w id).2.db = w.db := by
  unfold GetReportByID
  simp only
  split
  · rfl
  · split <;> rfl

/-! ## Success of the two report operations, and the cache -/

/-- An `AddExpensesToReport` that returns no error passed every check, met no repository
failure, and was sent no id: a request that names an id ends at the association. -/
theorem AddExpensesToReport_success_inv {cs : CurrencyService} {f : Faults} {w : World}
    {reportID userID : Nat} {req : AddExpensesToReportRequest}
    (h : (AddExpensesToReport cs f w reportID userID req).1 = none) :
    ∃ report, expenseReportRepository.GetByID w.db reportID = Except.ok report ∧
      f RepoCall.reportGetByID = false ∧ report.UserID = userID ∧
      report.Status = ReportStatusDraft ∧ f RepoCall.expenseGetByUserIDAndIDs = false ∧
      req = { ExpenseIDs := [] } ∧
      f RepoCall.reportAddExpenses = false ∧ f RepoCall.calculateTotalGetByID = false ∧
      f RepoCall.reportUpdateTotal = false := by
  rcases AddExpensesToReport_unchanged_or_empty cs f w reportID userID req with
    ⟨err, herr⟩ | ⟨hnil, report, hr, hf, hown, hst, hg, ha⟩
  · rw [herr] at h
    exact absurd h (by simp)
  · have hreq : req = { ExpenseIDs := [] } := by
      cases req
      simp only [AddExpensesToReportRequest.mk.injEq]
      exact hnil
    rw [hreq, AddExpensesToReport_empty cs f w reportID userID report hr hf hown hst hg ha] at h
    cases hc : f RepoCall.calculateTotalGetByID with
    | true =>
      unfold calculateTotal at h
      rw [hc, attempt_true] at h
      exact absurd h (by simp)
    | false =>
      cases ht : f RepoCall.reportUpdateTotal with
      | true =>
        cases hcalc : calculateTotal cs f (withBlankExpense w.db reportID) reportID with
        | error e =>
          rw [hcalc] at h
          exact absurd h (by simp)
        | ok total =>
          rw [hcalc] at h
          simp only [ht, attempt_true] at h
          exact absurd h (by simp)
      | false => exact ⟨report, hr, hf, hown, hst, hg, hreq, ha, rfl, rfl⟩

/-- The cache after a successful submit: the two keys of the report are deleted. -/
theorem SubmitReport_redis {f : Faults} {w : World} {reportID userID : Nat}
    (h : (SubmitReport f w reportID userID).1 = none) :
    (SubmitReport f w reportID userID).2.redis
      = Del (Del w.redis ("report:" ++ toString reportID))
          ("reports:user:" ++ toString userID) := by
  obtain ⟨report, hr, hf, hu, hown, hst, hne⟩ := SubmitReport_success_inv h
  obtain ⟨db1, hup, _⟩ :=
    reportGetByID_after_Update { report with Status := ReportStatusSubmitted } hr rfl rfl
  have hlen : report.Expenses.length ≠ 0 := by
    simpa using hne
  subst hown
  unfold SubmitReport
  rw [hr, hf, attempt_false]
  simp only [hst, hlen, hu, attempt_false, hup, ne_eq, not_true_eq_false, if_false]

/-- Deleting the two keys of a report leaves neither in the cache. -/
theorem Get_after_invalidation (redis : List (String × String)) (reportID userID : Nat) :
    redisClient.Get (Del (Del redis ("report:" ++ toString reportID))
        ("reports:user:" ++ toString userID)) ("report:" ++ toString reportID) = none ∧
    redisClient.Get (Del (Del redis ("report:" ++ toString reportID))
        ("reports:user:" ++ toString userID)) ("reports:user:" ++ toString userID) = none := by
  refine ⟨?_, Get_Del_same _ _⟩
  by_cases hk : "report:" ++ toString reportID = "reports:user:" ++ toString userID
  · rw [← hk]
    exact Get_Del_same _ _
  · rw [Get_Del_other _ hk]
    exact Get_Del_same _ _

/-- With no entry under its key, `GetReportByID` goes to the repository: NotFound when the
lookup fails, otherwise the stored report, which it then caches. -/
theorem GetReportByID_miss (codec : ReportCodec) (f : Faults) (w : World) (id : Nat)
    (h : redisClient.Get w.redis ("report:" ++ toString id) = none) :
    GetReportByID codec f w id
      = match attempt (f RepoCall.reportGetByID)
          (expenseReportRepository.GetByID w.db id) with
        | Except.error _ => (Except.error (NewNotFoundError "expense report"), w)
        | Except.ok report =>
          (Except.ok (mapToReportResponse report),
            { w with
              redis := redisClient.Set w.redis ("report:" ++ toString id)
                (codec.Marshal report) reportTTL }) := by
  unfold GetReportByID
  simp only [h]
  try rfl

/-! ## CreateReport -/

/-- With the insert not failing, `CreateReport` stores and returns a draft of the acting
user with the requested title and total 0 under a fresh key, and deletes the list key. -/
theorem CreateReport_run (f : Faults) (w : World) (userID : Nat)
    (req : CreateExpenseReportRequest) (hf : f RepoCall.reportCreate = false) :
    CreateReport f w userID req
      = (Except.ok
          { ID := nextID (w.db.expense_reports.map (fun r => r.ID)), UserID := userID,
            Title := req.Title, Status := ReportStatusDraft, Total := 0, Expenses := [] },
          { db := { w.db with
                    expense_reports := w.db.expense_reports ++
                      [{ ID := nextID (w.db.expense_reports.map (fun r => r.ID)),
                         UserID := userID, Title := req.Title, Status := ReportStatusDraft,
                         Total := 0, Deleted := false, Expenses := [] }] },
            redis := Del w.redis ("reports:user:" ++ toString userID) }) := by
  unfold CreateReport
  rw [hf]
  rfl

/-! ## calculateTotal with conversions that fail -/

/-- The cache after a successful association: what the conversions of the recomputation
left, with the two keys of the report deleted. -/
theorem AddExpensesToReport_redis {cs : CurrencyService} {f : Faults} {w : World}
    {reportID userID : Nat} {req : AddExpensesToReportRequest}
    (h : (AddExpensesToReport cs f w reportID userID req).1 = none) :
    (AddExpensesToReport cs f w reportID userID req).2.redis
      = Del (Del (calculateTotalCache cs f (withBlankExpense w.db reportID) reportID w.redis)
          ("report:" ++ toString reportID)) ("reports:user:" ++ toString userID) := by
  obtain ⟨report, hr, hf, hown, hst, hg, hreq, ha, hc, ht⟩ := AddExpensesToReport_success_inv h
  obtain ⟨db2, _, heq, _⟩ :=
    AddExpensesToReport_empty_ok cs f w reportID userID report hr hf hown hst hg ha hc ht
  rw [hreq, heq]

/-- A state whose cache is the one left by deleting the two keys of a report: both keys are
absent and `GetReportByID` reads the repository. -/
theorem readsRepository_of_invalidated (codec : ReportCodec) (redis0 : List (String × String))
    (w1 : World) (reportID userID : Nat)
    (h : w1.redis = Del (Del redis0 ("report:" ++ toString reportID))
      ("reports:user:" ++ toString userID)) :
    invalidated w1 reportID userID ∧ readsRepository codec w1 reportID := by
  have hget := Get_after_invalidation redis0 reportID userID
  rw [← h] at hget
  exact ⟨hget, fun f => GetReportByID_miss codec f w1 reportID hget.1⟩

/-! ## Read-through of a single entity -/

/-- The traced lookup returns what `GetReportByID` returns. -/
theorem GetReportByIDTraced_fst (codec : ReportCodec) (f : Faults) (w : World) (id : Nat) :
    (GetReportByIDTraced codec f w id).1 = GetReportByID codec f w id := by
  unfold GetReportByIDTraced GetReportByID
  cases hget : redisClient.Get w.redis ("report:" ++ toString id) with
  | none =>
    simp only [hget]
    cases hatt : attempt (f RepoCall.reportGetByID)
      (expenseReportRepository.GetByID w.db id) <;> simp only [hatt]
  | some text =>
    simp only [hget]
    cases hdec : codec.Unmarshal text with
    | error err =>
      simp only [hdec]
      cases hatt : attempt (f RepoCall.reportGetByID)
        (expenseReportRepository.GetByID w.db id) <;> simp only [hatt]
    | ok report => simp only [hdec]

/-- A hit: the key holds text that decodes. -/
theorem GetReportByIDTraced_hit (codec : ReportCodec) (f : Faults) (w : World) (id : Nat)
    (text : String) (report : ExpenseReport)
    (hget : redisClient.Get w.redis ("report:" ++ toString id) = some text)
    (hdec : codec.Unmarshal text = Except.ok report) :
    GetReportByIDTraced codec f w id
      = ((Except.ok (mapToReportResponse report), w),
          [ExternalCall.redisGet ("report:" ++ toString id)]) := by
  unfold GetReportByIDTraced
  simp only [hget, hdec]

/-- A miss, or text that does not decode: the repository decides. -/
theorem GetReportByIDTraced_miss (codec : ReportCodec) (f : Faults) (w : World) (id : Nat)
    (hmiss : redisClient.Get w.redis ("report:" ++ toString id) = none ∨
      ∃ text err, redisClient.Get w.redis ("report:" ++ toString id) = some text ∧
        codec.Unmarshal text = Except.error err) :
    GetReportByIDTraced codec f w id
      = match attempt (f RepoCall.reportGetByID)
          (expenseReportRepository.GetByID w.db id) with
        | Except.error _ =>
          ((Except.error (NewNotFoundError "expense report"), w),
            [ExternalCall.redisGet ("report:" ++ toString id)])
        | Except.ok report =>
          ((Except.ok (mapToReportResponse report),
              { w with
                redis := redisClient.Set w.redis ("report:" ++ toString id)
                  (codec.Marshal report) reportTTL }),
            [ExternalCall.redisGet ("report:" ++ toString id),
             ExternalCall.redisSet ("report:" ++ toString id) (codec.Marshal report)
               reportTTL]) := by
  unfold GetReportByIDTraced
  rcases hmiss with h | ⟨text, err, h, herr⟩
  · simp only [h]
    try rfl
  · simp only [h, herr]
    try rfl

/-- A hit of the user cache. -/
theorem GetUserByID_hit (codec : UserCodec) (userRepo : UserRepository) (s : RateState)
    (id : Nat) (text : String) (user : User)
    (hget : redisClient.Get s.redis ("user:" ++ toString id) = some text)
    (hdec : codec.Unmarshal text = Except.ok user) :
    GetUserByID codec userRepo s id
      = (Except.ok (mapToUserResponse user),
          { redis := s.redis,
            calls := s.calls ++ [ExternalCall.redisGet ("user:" ++ toString id)] }) := by
  unfold GetUserByID
  simp only [hget, hdec]

/-- A miss of the user cache, or text that does not decode: the repository decides. -/
theorem GetUserByID_miss (codec : UserCodec) (userRepo : UserRepository) (s : RateState)
    (id : Nat)
    (hmiss : redisClient.Get s.redis ("user:" ++ toString id) = none ∨
      ∃ text err, redisClient.Get s.redis ("user:" ++ toString id) = some text ∧
        codec.Unmarshal text = Except.error err) :
    GetUserByID codec userRepo s id
      = match userRepo.GetByID id with
        | Except.error _ =>
          (Except.error (NewNotFoundError "user"),
            { redis := s.redis,
              calls := s.calls ++ [ExternalCall.redisGet ("user:" ++ toString id)] })
        | Except.ok user =>
          (Except.ok (mapToUserResponse user),
            { redis := redisClient.Set s.redis ("user:" ++ toString id)
                (codec.Marshal user) userTTL,
              calls := s.calls ++ [ExternalCall.redisGet ("user:" ++ toString id)] ++
                [ExternalCall.redisSet ("user:" ++ toString id) (codec.Marshal user)
                  userTTL] }) := by
  unfold GetUserByID
  rcases hmiss with h | ⟨text, err, h, herr⟩
  · simp only [h]
    try rfl
  · simp only [h, herr]
    try rfl

/-! ## The expense service -/

/-- UpdateExpense by a user who is not the owner: an error, and nothing changes. -/
theorem UpdateExpense_not_owner (f : Faults) (w : World) (id userID : Nat)
    (req : UpdateExpenseRequest) (expense : Expense)
    (hr : expenseRepository.GetByID w.db id = Except.ok expense)
    (hne : expense.UserID ≠ userID) :
    ∃ err, UpdateExpense f w id userID req = (Except.error err, w) ∧
      (f RepoCall.expenseGetByID = false →
        err = NewBadRequestError "you can only update your own expenses") := by
  unfold UpdateExpense
  cases hf : f RepoCall.expenseGetByID with
  | true => exact ⟨_, by rw [attempt_true], fun h => absurd h (by simp)⟩
  | false =>
    rw [attempt_false, hr]
    simp only [hne, ne_eq, not_false_eq_true, if_true]
    exact ⟨_, rfl, fun _ => rfl⟩

/-- DeleteExpense by a user who is not the owner: an error, and nothing changes. -/
theorem DeleteExpense_not_owner (f : Faults) (w : World) (id userID : Nat)
    (expense : Expense)
    (hr : expenseRepository.GetByID w.db id = Except.ok expense)
    (hne : expense.UserID ≠ userID) :
    ∃ err, DeleteExpense f w id userID = (some err, w) ∧
      (f RepoCall.expenseGetByID = false →
        err = NewBadRequestError "you can only delete your own expenses") := by
  unfold DeleteExpense
  cases hf : f RepoCall.expenseGetByID with
  | true => exact ⟨_, by rw [attempt_true], fun h => absurd h (by simp)⟩
  | false =>
    rw [attempt_false, hr]
    simp only [hne, ne_eq, not_false_eq_true, if_true]
    exact ⟨_, rfl, fun _ => rfl⟩

/-- The row `CreateExpense` inserts. -/
theorem CreateExpense_run (f : Faults) (w : World) (userID : Nat) (req : CreateExpenseRequest)
    (hf : f RepoCall.expenseCreate = false) :
    CreateExpense f w userID req
      = (Except.ok
          { ID := nextID (w.db.expenses.map (fun e => e.ID)), UserID := userID,
            Amount := req.Amount, Currency := req.Currency, Category := req.Category,
            Description := req.Description, Receipt := req.Receipt,
            Status := ExpenseStatusPending },
          { db := { w.db with
              expenses := w.db.expenses ++
                [{ ID := nextID (w.db.expenses.map (fun e => e.ID)), UserID := userID,
                   Amount := req.Amount, Currency := req.Currency, Category := req.Category,
                   Description := req.Description, Receipt := req.Receipt,
                   Status := ExpenseStatusPending, Deleted := false }] },
            redis := Del w.redis ("expenses:user:" ++ toString userID) }) := by
  unfold CreateExpense
  rw [hf]
  rfl

/-- A failing insert: `CreateExpense` returns the Internal error and changes nothing. -/
theorem CreateExpense_fails (f : Faults) (w : World) (userID : Nat)
    (req : CreateExpenseRequest) (hf : f RepoCall.expenseCreate = true) :
    CreateExpense f w userID req
      = (Except.error (NewInternalError "failed to create expense" DBError.Failure), w) := by
  unfold CreateExpense
  rw [hf]
  rfl

/-- A row appended under a fresh key is the one a lookup of that key finds. -/
theorem expenseGetByID_created (db : DB) (row : Expense)
    (hid : row.ID = nextID (db.expenses.map (fun e => e.ID))) (hlive : row.Deleted = false) :
    expenseRepository.GetByID { db with expenses := db.expenses ++ [row] } row.ID
      = Except.ok row := by
  unfold expenseRepository.GetByID
  have hnone : db.expenses.find? (fun e => decide (e.ID = row.ID) && !e.Deleted) = none := by
    rw [List.find?_eq_none]
    intro e he
    have hfresh := nextID_fresh (db.expenses.map (fun e => e.ID))
    have hmem : e.ID ∈ db.expenses.map (fun e => e.ID) := List.mem_map_of_mem _ he
    have hne : e.ID ≠ row.ID := by
      intro heq
      rw [hid] at heq
      rw [heq] at hmem
      exact hfresh hmem
    simp [hne]
  simp only [List.find?_append, hnone, Option.none_or, List.find?_cons, hlive, decide_True,
    Bool.not_false, Bool.and_self, List.find?_nil]

/-! ## Lists -/

/-- Inside the range of `int` nothing wraps. -/
theorem wrapInt_of_range (x : Int) (h1 : -9223372036854775808 ≤ x)
    (h2 : x < 9223372036854775808) : wrapInt x = x := by
  unfold wrapInt
  norm_num
  omega

/-- The page size is always between 1 and 100. -/
theorem normalPerPage_bounds (perPage : Int) :
    1 ≤ normalPerPage perPage ∧ normalPerPage perPage ≤ 100 := by
  unfold normalPerPage
  split
  · omega
  · split <;> omega

/-- The page is always at least 1. -/
theorem normalPage_pos (page : Int) : 1 ≤ normalPage page := by
  unfold normalPage
  split <;> omega

/-- ListExpenses asks the repository once, with the normalised page size as limit and the
offset computed from the normalised page in `int`, and answers with one mapped item per
row. -/
theorem ListExpenses_eq
    (repo : Nat → Int → Int → String → String → Except DBError (List Expense × Int))
    (userID : Nat) (filter : ExpenseFilter) :
    ListExpenses repo userID filter
      = match repo userID
          (wrapInt (wrapInt (normalPage filter.Page - 1) * normalPerPage filter.PerPage))
          (normalPerPage filter.PerPage) filter.Category filter.Status with
        | Except.error err => Except.error (NewInternalError "failed to list expenses" err)
        | Except.ok (expenses, total) =>
          Except.ok { Expenses := expenses.map mapToExpenseResponse,
                      Page := normalPage filter.Page,
                      PerPage := normalPerPage filter.PerPage, Total := total } := by
  have hp : (if filter.Page < 1 then 1 else filter.Page) = normalPage filter.Page := by
    unfold normalPage
    split <;> split <;> omega
  have hl : (if (if filter.PerPage < 1 then 10 else filter.PerPage) > 100 then 100
      else (if filter.PerPage < 1 then 10 else filter.PerPage))
      = normalPerPage filter.PerPage := by
    unfold normalPerPage
    split <;> split <;> first | rfl | omega
  unfold ListExpenses
  simp only [hp, hl]
  try rfl

/-- ListReports asks the repository once, with the same limit and offset. -/
theorem ListReports_eq
    (repo : Nat → Int → Int → String → Except DBError (List ExpenseReport × Int))
    (userID : Nat) (filter : ReportFilter) :
    ListReports repo userID filter
      = match repo userID
          (wrapInt (wrapInt (normalPage filter.Page - 1) * normalPerPage filter.PerPage))
          (normalPerPage filter.PerPage) filter.Status with
        | Except.error err => Except.error (NewInternalError "failed to list reports" err)
        | Except.ok (reports, total) =>
          Except.ok { Reports := reports.map mapToReportResponse,
                      Page := normalPage filter.Page,
                      PerPage := normalPerPage filter.PerPage, Total := total } := by
  have hp : (if filter.Page < 1 then 1 else filter.Page) = normalPage filter.Page := by
    unfold normalPage
    split <;> split <;> omega
  have hl : (if (if filter.PerPage < 1 then 10 else filter.PerPage) > 100 then 100
      else (if filter.PerPage < 1 then 10 else filter.PerPage))
      = normalPerPage filter.PerPage := by
    unfold normalPerPage
    split <;> split <;> first | rfl | omega
  unfold ListReports
  simp only [hp, hl]
  try rfl

/-- While the product stays inside the range of `int`, the offset is `(P - 1) * L` and is
not negative. -/
theorem offset_in_range (page perPage : Int) (hpage : page < 9223372036854775808)
    (hprod : (normalPage page - 1) * normalPerPage perPage < 9223372036854775808) :
    wrapInt (wrapInt (normalPage page - 1) * normalPerPage perPage)
      = (normalPage page - 1) * normalPerPage perPage ∧
    0 ≤ (normalPage page - 1) * normalPerPage perPage := by
  have hP := normalPage_pos page
  have hL := normalPerPage_bounds perPage
  have hPle : normalPage page < 9223372036854775808 := by
    unfold normalPage
    split <;> omega
  have hnn : 0 ≤ (normalPage page - 1) * normalPerPage perPage :=
    Int.mul_nonneg (by omega) (by omega)
  rw [wrapInt_of_range (normalPage page - 1) (by omega) (by omega),
    wrapInt_of_range _ (by omega) hprod]
  exact ⟨rfl, hnn⟩

/-- The page count of the handler is defined for every result of `ListExpenses`: its page
size is not 0. -/
theorem paginationMeta_isSome
    (repo : Nat → Int → Int → String → String → Except DBError (List Expense × Int))
    (userID : Nat) (filter : ExpenseFilter) (result : ExpenseListResponse)
    (h : ListExpenses repo userID filter = Except.ok result) :
    result.PerPage = normalPerPage filter.PerPage ∧
    (ExpenseHandler.paginationMeta result).isSome = true := by
  rw [ListExpenses_eq] at h
  have hL := normalPerPage_bounds filter.PerPage
  have hper : result.PerPage = normalPerPage filter.PerPage := by
    split at h
    · exact absurd h (by simp)
    · injection h with h
      rw [← h]
  refine ⟨hper, ?_⟩
  unfold ExpenseHandler.paginationMeta goDiv
  have hne : result.PerPage ≠ 0 := by omega
  simp [hne]

/-! ## Cache keys of different reports differ -/

/-- `mapToExpenseResponse` returns the snapshot of the expense, field by field. -/
theorem mapToExpenseResponse_eq (expense : Expense) :
    mapToExpenseResponse expense = snapshotOfExpense expense := rfl

/-- `mapToReportResponse` returns the snapshot of the report, field by field. -/
theorem mapToReportResponse_eq (report : ExpenseReport) :
    mapToReportResponse report = snapshotOfReport report := rfl

/-- `mapToUserResponse` returns the snapshot of the user, field by field. -/
theorem mapToUserResponse_eq (user : User) :
    mapToUserResponse user = snapshotOfUser user := rfl

/-- A request that names an id never gets past the association step: the call returns an
error and the state is as it was, whatever the store holds and whatever fails. -/
theorem AddExpensesToReport_named (cs : CurrencyService) (f : Faults) (w : World)
    (reportID userID : Nat) (req : AddExpensesToReportRequest) (hne : req.ExpenseIDs ≠ []) :
    ∃ err, AddExpensesToReport cs f w reportID userID req = (some err, w) := by
  rcases AddExpensesToReport_unchanged_or_empty cs f w reportID userID req with
    h | ⟨hnil, _⟩
  · exact h
  · exact absurd hnil hne

/-- A request whose ids are pairwise different and all resolve, on a draft of the acting
user, with lookups that do not fail: the call ends at the association step with the
Internal error "failed to add expenses to report", and the state is as it was. -/
theorem AddExpensesToReport_resolving (cs : CurrencyService) (f : Faults) (w : World)
    (reportID userID : Nat) (req : AddExpensesToReportRequest) (report : ExpenseReport)
    (hkey : expensesKeyed w.db)
    (hr : expenseReportRepository.GetByID w.db reportID = Except.ok report)
    (hf : f RepoCall.reportGetByID = false) (hown : report.UserID = userID)
    (hst : report.Status = ReportStatusDraft)
    (hg : f RepoCall.expenseGetByUserIDAndIDs = false)
    (hne : req.ExpenseIDs ≠ []) (hnd : req.ExpenseIDs.Nodup)
    (hres : ∀ id ∈ req.ExpenseIDs, resolves w.db userID id) :
    AddExpensesToReport cs f w reportID userID req
      = (some (NewInternalError "failed to add expenses to report" DBError.Failure), w) :=
  AddExpensesToReport_requested cs f w reportID userID req report hne hr hf hown hst hg
    (resolved_length_eq hkey hnd hres)

/-! ## Membership in reports -/

/-- The join table after a call: as it was, or with one row added that links the blank
expense to a report. -/
theorem report_expenses_run (cs : CurrencyService) (f : Faults) (w : World) (op : Op) :
    (op.run cs f w).db.report_expenses = w.db.report_expenses ∨
    ∃ reportID, (op.run cs f w).db.report_expenses
      = w.db.report_expenses ++ [(reportID, (blankExpense w.db).ID)] := by
  cases op with
  | createReport userID req =>
    left
    simp only [Op.run]
    rcases CreateReport_db f w userID req with h | h
    · rw [h]
    · rw [h]
  | addExpensesToReport reportID userID req =>
    simp only [Op.run]
    rcases AddExpensesToReport_db cs f w reportID userID req with
      h | ⟨report, _, _, _, _, h | ⟨total, h⟩⟩
    · left
      rw [h]
    · right
      exact ⟨reportID, by rw [h]; rfl⟩
    · right
      obtain ⟨db2, hupd, _, hj, _⟩ :=
        UpdateTotal_ok (withBlankExpense w.db reportID) reportID total
      rw [hupd] at h
      rw [← Except.ok.inj h, hj]
      exact ⟨reportID, rfl⟩
  | submitReport reportID userID =>
    left
    simp only [Op.run]
    rcases SubmitReport_db f w reportID userID with h | ⟨report, db1, hr, hup, hdb⟩
    · rw [h]
    · obtain ⟨db2, hup2, _, hj, _⟩ :=
        reportGetByID_after_Update { report with Status := ReportStatusSubmitted } hr rfl rfl
      rw [hup] at hup2
      rw [hdb, Except.ok.inj hup2, hj]
  | createExpense userID req =>
    left
    simp only [Op.run]
    rcases CreateExpense_db f w userID req with h | ⟨e, _, h⟩
    · rw [h]
    · rw [h]
  | updateExpense id userID req =>
    left
    simp only [Op.run]
    rcases UpdateExpense_db f w id userID req with h | ⟨e, _, h⟩
    · rw [h]
    · rw [h]
  | deleteExpense id userID =>
    left
    simp only [Op.run]
    rcases DeleteExpense_db f w id userID with h | h
    · rw [h]
    · rw [h]

/-- A call keeps every expense in at most one report: the only row a call adds links an
expense that was not stored before. -/
theorem heldByOneReport_run {w : World} (hri : RefIntegrity w) (hu : heldByOneReport w.db)
    (cs : CurrencyService) (f : Faults) (op : Op) : heldByOneReport (op.run cs f w).db := by
  rcases report_expenses_run cs f w op with h | ⟨reportID, h⟩
  · unfold heldByOneReport
    rw [h]
    exact hu
  · have hfresh : ∀ r, (r, (blankExpense w.db).ID) ∉ w.db.report_expenses :=
      fun r hmem => nextID_fresh _ (hri.expenseRows _ hmem)
    intro id r1 r2 h1 h2
    rw [h] at h1 h2
    simp only [List.mem_append, List.mem_singleton, Prod.mk.injEq] at h1 h2
    rcases h1 with h1 | ⟨h1a, h1b⟩
    · rcases h2 with h2 | ⟨h2a, h2b⟩
      · exact hu id r1 r2 h1 h2
      · subst h2b
        exact absurd h1 (hfresh r1)
    · rcases h2 with h2 | ⟨h2a, h2b⟩
      · subst h1b
        exact absurd h2 (hfresh r2)
      · rw [h1a, h2a]

/-- In every reachable state each expense is in at most one report. -/
theorem heldByOneReport_reachable {cs : CurrencyService}
    {allowed : Faults → World → Op → Prop} {w : World} (h : Reachable cs allowed w) :
    heldByOneReport w.db := by
  induction h with
  | init =>
    intro id r1 r2 h1
    exact absurd h1 (by simp [World.empty, DB.empty])
  | step f w op hreach _ ih => exact heldByOneReport_run (RefIntegrity_reachable hreach) ih cs f op

/-- An expense loaded with a report is linked to it in the join table. -/
theorem mem_rows_of_loaded {db : DB} {id : Nat} {report : ExpenseReport}
    (h : expenseReportRepository.GetByID db id = Except.ok report) {e : Expense}
    (he : e ∈ report.Expenses) : (id, e.ID) ∈ db.report_expenses := by
  rw [(reportGetByID_ok h).2.2.1] at he
  unfold expenseReportRepository.preloadExpenses at he
  rw [List.mem_filter] at he
  have hp := he.2
  simp only [Bool.and_eq_true, decide_eq_true_eq] at hp
  exact hp.2

/-- At a successful submission in a reachable state, no expense of the submitted report is
linked to another report, before or after the call, so none is loaded with another
report. -/
theorem submitted_expenses_unshared {cs : CurrencyService} {w : World}
    (h : Reachable cs anyCall w) (f : Faults) (reportID userID : Nat) (report : ExpenseReport)
    (hr : expenseReportRepository.GetByID w.db reportID = Except.ok report)
    (hsub : (SubmitReport f w reportID userID).1 = none) :
    report.Expenses ≠ [] ∧
    ∀ e ∈ report.Expenses, ∀ otherID, otherID ≠ reportID →
      (otherID, e.ID) ∉ w.db.report_expenses ∧
      (otherID, e.ID) ∉ (SubmitReport f w reportID userID).2.db.report_expenses ∧
      ∀ other, expenseReportRepository.GetByID (SubmitReport f w reportID userID).2.db otherID
          = Except.ok other → e.ID ∉ other.Expenses.map (fun x => x.ID) := by
  obtain ⟨report2, hr2, hf, hu, hown, hst, hne⟩ := SubmitReport_success_inv hsub
  rw [hr] at hr2
  have hrep : report2 = report := (Except.ok.inj hr2).symm
  subst hrep
  obtain ⟨_, _, _, hrows⟩ := SubmitReport_ok f w reportID userID report2 hr hf hu hown hst hne
  have hone := heldByOneReport_reachable h
  refine ⟨hne, ?_⟩
  intro e he otherID hoid
  have hmem := mem_rows_of_loaded hr he
  have hnot : (otherID, e.ID) ∉ w.db.report_expenses :=
    fun hother => hoid (hone e.ID otherID reportID hother hmem)
  refine ⟨hnot, by rw [hrows]; exact hnot, ?_⟩
  intro other hother hin
  rw [List.mem_map] at hin
  obtain ⟨x, hx, hxid⟩ := hin
  have hrow := mem_rows_of_loaded hother hx
  rw [hxid, hrows] at hrow
  exact hnot hrow
/-! ## The claims -/

/-- C2: the association the claim describes is not what the call does.  On a draft report
of the acting user, with requested ids that are pairwise different and all resolve, and
with lookups that do not fail, `AddExpensesToReport` ends at the association step: it
returns the Internal error "failed to add expenses to report" whether or not the
repository is otherwise healthy, and the whole state is as it was, so the report is loaded
with the expenses and the total it had. -/
theorem add_expenses_fails_at_association (cs : CurrencyService) (f : Faults) (w : World)
    (reportID userID : Nat) (req : AddExpensesToReportRequest) (report : ExpenseReport)
    (hkey : expensesKeyed w.db)
    (hr : expenseReportRepository.GetByID w.db reportID = Except.ok report)
    (hown : report.UserID = userID) (hst : report.Status = ReportStatusDraft)
    (hne : req.ExpenseIDs ≠ []) (hnd : req.ExpenseIDs.Nodup)
    (hres : ∀ id ∈ req.ExpenseIDs, resolves w.db userID id)
    (hf : f RepoCall.reportGetByID = false)
    (hg : f RepoCall.expenseGetByUserIDAndIDs = false) :
    AddExpensesToReport cs f w reportID userID req
      = (some (NewInternalError "failed to add expenses to report" DBError.Failure), w) ∧
    expenseReportRepository.GetByID (AddExpensesToReport cs f w reportID userID req).2.db
      reportID = Except.ok report := by
  have hrun := AddExpensesToReport_resolving cs f w reportID userID req report hkey hr hf hown
    hst hg hne hnd hres
  refine ⟨hrun, ?_⟩
  rw [hrun]
  exact hr

/-- The scenario of the specification, replayed from the empty store: report 1 of user 7
is an empty draft, expenses 1 (100 USD) and 2 (50 EUR) are stored and resolve.  The request
for `[1, 2]` returns the Internal error, the store is as it was, and report 1 is still
loaded with no expense and total 0, not with total 155.  The empty request, for its part,
returns no error and leaves report 1 with one expense that nobody asked for. -/
theorem add_expenses_fails_at_association_witness :
    Reachable scenarioService anyCall runExpense2 ∧
    (AddExpensesToReport scenarioService noFaults runExpense2 1 7 { ExpenseIDs := [1, 2] }
        = (some (NewInternalError "failed to add expenses to report" DBError.Failure),
            runExpense2) ∧
      expenseReportRepository.GetByID
          (AddExpensesToReport scenarioService noFaults runExpense2 1 7
            { ExpenseIDs := [1, 2] }).2.db 1
        = Except.ok (scenarioLoaded "draft" 0 [])) ∧
    runExpense2.db.expenses = scenarioExpenses ∧
    (AddExpensesToReport scenarioService noFaults runExpense2 1 7 { ExpenseIDs := [] }).1
      = none ∧
    (expenseReportRepository.GetByID
        (AddExpensesToReport scenarioService noFaults runExpense2 1 7
          { ExpenseIDs := [] }).2.db 1).toOption.map
      (fun r => r.Expenses.map (fun e => (e.ID, e.UserID, e.Amount)))
      = some [(3, 0, 0)] :=
  ⟨runExpense2_reachable anyCall (fun _ _ _ _ => trivial) (fun _ _ _ _ => trivial),
    add_expenses_fails_at_association scenarioService noFaults runExpense2 1 7
      { ExpenseIDs := [1, 2] } (scenarioLoaded "draft" 0 [])
      (by with_unfolding_all decide) (by with_unfolding_all rfl) rfl rfl (by decide)
      (by decide) (by with_unfolding_all decide) rfl rfl,
    by with_unfolding_all decide, by with_unfolding_all decide,
    by with_unfolding_all decide⟩

/-- C3: when some requested id does not resolve to a live expense of the acting user, the
call returns an error and leaves the whole state as it was, for every report id; on a draft
report of the acting user the error is the one for unresolved ids. -/
theorem add_expenses_all_or_nothing (cs : CurrencyService) (f : Faults) (w : World)
    (reportID userID : Nat) (req : AddExpensesToReportRequest)
    (hkey : expensesKeyed w.db)
    (hbad : ∃ id ∈ req.ExpenseIDs, ¬ resolves w.db userID id) :
    (∃ err, AddExpensesToReport cs f w reportID userID req = (some err, w)) ∧
    (∀ report, expenseReportRepository.GetByID w.db reportID = Except.ok report →
      f RepoCall.reportGetByID = false → f RepoCall.expenseGetByUserIDAndIDs = false →
      report.UserID = userID → report.Status = ReportStatusDraft →
      AddExpensesToReport cs f w reportID userID req
        = (some (NewBadRequestError "some expenses not found or do not belong to you"), w)) :=
  AddExpensesToReport_unresolved cs f w reportID userID req
    (Nat.ne_of_lt (resolved_length_lt hkey hbad))

/-- Asking for expense 1 and the unknown id 99 associates neither. -/
theorem add_expenses_all_or_nothing_witness :
    AddExpensesToReport scenarioService noFaults scenarioDraft 1 7 { ExpenseIDs := [1, 99] }
      = (some (NewBadRequestError "some expenses not found or do not belong to you"),
          scenarioDraft) :=
  (add_expenses_all_or_nothing scenarioService noFaults scenarioDraft 1 7
      { ExpenseIDs := [1, 99] } (by decide)
      ⟨99, by decide, by decide⟩).2
    (scenarioLoaded "draft" 0 []) rfl rfl rfl rfl rfl

/-- C4: both operations check existence, then ownership, then state. A report that cannot
be looked up gives NotFound whoever asks; a report of another user gives the ownership
error whatever its status and expenses. -/
theorem checks_run_existence_ownership_state (cs : CurrencyService) (f : Faults) (w : World)
    (reportID userID : Nat) (req : AddExpensesToReportRequest) :
    (∀ e, expenseReportRepository.GetByID w.db reportID = Except.error e →
      AddExpensesToReport cs f w reportID userID req
          = (some (NewNotFoundError "expense report"), w) ∧
        SubmitReport f w reportID userID = (some (NewNotFoundError "expense report"), w)) ∧
    (∀ report, expenseReportRepository.GetByID w.db reportID = Except.ok report →
      f RepoCall.reportGetByID = false → report.UserID ≠ userID →
      AddExpensesToReport cs f w reportID userID req
          = (some (NewBadRequestError "you can only modify your own reports"), w) ∧
        SubmitReport f w reportID userID
          = (some (NewBadRequestError "you can only submit your own reports"), w)) :=
  ⟨fun e he => ⟨AddExpensesToReport_absent cs f w reportID userID req e he,
      SubmitReport_absent f w reportID userID e he⟩,
    fun report hr hf hne => ⟨AddExpensesToReport_not_owner cs f w reportID userID req report hr hf hne,
      SubmitReport_not_owner f w reportID userID report hr hf hne⟩⟩

/-- User 8 asks for the unknown report 5, then for the submitted report 1 of user 7. -/
theorem checks_run_existence_ownership_state_witness :
    (AddExpensesToReport scenarioService noFaults scenarioSubmitted 5 8 { ExpenseIDs := [1] }
        = (some (NewNotFoundError "expense report"), scenarioSubmitted) ∧
      SubmitReport noFaults scenarioSubmitted 5 8
        = (some (NewNotFoundError "expense report"), scenarioSubmitted)) ∧
    (AddExpensesToReport scenarioService noFaults scenarioSubmitted 1 8 { ExpenseIDs := [1] }
        = (some (NewBadRequestError "you can only modify your own reports"), scenarioSubmitted) ∧
      SubmitReport noFaults scenarioSubmitted 1 8
        = (some (NewBadRequestError "you can only submit your own reports"), scenarioSubmitted)) :=
  ⟨(checks_run_existence_ownership_state scenarioService noFaults scenarioSubmitted 5 8
      { ExpenseIDs := [1] }).1 DBError.RecordNotFound rfl,
    (checks_run_existence_ownership_state scenarioService noFaults scenarioSubmitted 1 8
      { ExpenseIDs := [1] }).2 (scenarioLoaded "submitted" 155 scenarioExpenses) rfl rfl
      (by decide)⟩

/-- C5, as stated, fails: the errors for a non-owner, for a non-draft report and for an
unresolved id all carry the same kind, BAD_REQUEST. -/
theorem ownership_error_kind_not_distinct :
    (AddExpensesToReport scenarioService noFaults scenarioDraft 1 8 { ExpenseIDs := [1] }).1.map
        (fun e => e.Type_) = some ErrorType.BadRequest ∧
    (AddExpensesToReport scenarioService noFaults scenarioSubmitted 1 7 { ExpenseIDs := [1] }).1.map
        (fun e => e.Type_) = some ErrorType.BadRequest ∧
    (AddExpensesToReport scenarioService noFaults scenarioDraft 1 7 { ExpenseIDs := [1, 99] }).1.map
        (fun e => e.Type_) = some ErrorType.BadRequest := by
  decide

/-- C5 (amended): for an existing report and an acting user who is not its owner,
`AddExpensesToReport` fails with the BAD_REQUEST error (status 400) whose message is
"you can only modify your own reports", and leaves the state as it was.  The rejections of
a non-draft report and of unresolvable ids carry the same kind BAD_REQUEST. -/
theorem add_by_non_owner_is_bad_request (cs : CurrencyService) (f : Faults) (w : World)
    (reportID userID : Nat) (req : AddExpensesToReportRequest) (report : ExpenseReport)
    (hr : expenseReportRepository.GetByID w.db reportID = Except.ok report)
    (hf : f RepoCall.reportGetByID = false) :
    (report.UserID ≠ userID →
      AddExpensesToReport cs f w reportID userID req
        = (some { Type_ := ErrorType.BadRequest,
                  Message := "you can only modify your own reports",
                  Field := "", Code := 400, Internal := none }, w)) ∧
    (report.UserID = userID → report.Status ≠ ReportStatusDraft →
      (AddExpensesToReport cs f w reportID userID req).1.map (fun e => e.Type_)
        = some ErrorType.BadRequest) ∧
    (report.UserID = userID → report.Status = ReportStatusDraft →
      f RepoCall.expenseGetByUserIDAndIDs = false → expensesKeyed w.db →
      (∃ id ∈ req.ExpenseIDs, ¬ resolves w.db userID id) →
      (AddExpensesToReport cs f w reportID userID req).1.map (fun e => e.Type_)
        = some ErrorType.BadRequest) := by
  refine ⟨fun hne => AddExpensesToReport_not_owner cs f w reportID userID req report hr hf hne,
    ?_, ?_⟩
  · intro hown hst
    rw [AddExpensesToReport_not_draft cs f w reportID userID req report hr hf hown hst]
    rfl
  · intro hown hst hg hkey hbad
    rw [(AddExpensesToReport_unresolved cs f w reportID userID req
      (Nat.ne_of_lt (resolved_length_lt hkey hbad))).2 report hr hf hg hown hst]
    rfl

/-- User 8 on the draft of user 7; the owner on the submitted report; the owner with id 99. -/
theorem add_by_non_owner_is_bad_request_witness :
    AddExpensesToReport scenarioService noFaults scenarioDraft 1 8 { ExpenseIDs := [1] }
        = (some { Type_ := ErrorType.BadRequest,
                  Message := "you can only modify your own reports",
                  Field := "", Code := 400, Internal := none }, scenarioDraft) ∧
      (AddExpensesToReport scenarioService noFaults scenarioSubmitted 1 7
          { ExpenseIDs := [1] }).1.map (fun e => e.Type_) = some ErrorType.BadRequest ∧
      (AddExpensesToReport scenarioService noFaults scenarioDraft 1 7
          { ExpenseIDs := [1, 99] }).1.map (fun e => e.Type_) = some ErrorType.BadRequest :=
  ⟨(add_by_non_owner_is_bad_request scenarioService noFaults scenarioDraft 1 8
      { ExpenseIDs := [1] } (scenarioLoaded "draft" 0 []) rfl rfl).1 (by decide),
    (add_by_non_owner_is_bad_request scenarioService noFaults scenarioSubmitted 1 7
      { ExpenseIDs := [1] } (scenarioLoaded "submitted" 155 scenarioExpenses) rfl rfl).2.1 rfl
      (by decide),
    (add_by_non_owner_is_bad_request scenarioService noFaults scenarioDraft 1 7
      { ExpenseIDs := [1, 99] } (scenarioLoaded "draft" 0 []) rfl rfl).2.2 rfl rfl rfl
      (by decide) ⟨99, by decide, by decide⟩⟩

/-- C6: on a report of the acting user that is not in draft, `AddExpensesToReport` fails
with the wrong-state error for every id list, and leaves the state as it was. -/
theorem add_requires_draft (cs : CurrencyService) (f : Faults) (w : World)
    (reportID userID : Nat) (req : AddExpensesToReportRequest) (report : ExpenseReport)
    (hr : expenseReportRepository.GetByID w.db reportID = Except.ok report)
    (hf : f RepoCall.reportGetByID = false) (hown : report.UserID = userID)
    (hst : report.Status ≠ ReportStatusDraft) :
    AddExpensesToReport cs f w reportID userID req
        = (some (NewBadRequestError "can only add expenses to draft reports"), w) :=
  AddExpensesToReport_not_draft cs f w reportID userID req report hr hf hown hst

/-- The owner adds to the submitted report of the scenario. -/
theorem add_requires_draft_witness :
    AddExpensesToReport scenarioService noFaults scenarioSubmitted 1 7 { ExpenseIDs := [1, 2] }
        = (some (NewBadRequestError "can only add expenses to draft reports"),
            scenarioSubmitted) :=
  add_requires_draft scenarioService noFaults scenarioSubmitted 1 7 { ExpenseIDs := [1, 2] }
    (scenarioLoaded "submitted" 155 scenarioExpenses) rfl rfl rfl (by decide)

/-- C7: on a draft report of the acting user with at least one expense, and with the lookup
and the save not failing, `SubmitReport` returns no error; the report is then stored with
status submitted and with owner, title, total and expenses as before. -/
theorem submit_draft_succeeds (f : Faults) (w : World) (reportID userID : Nat)
    (report : ExpenseReport)
    (hr : expenseReportRepository.GetByID w.db reportID = Except.ok report)
    (hf : f RepoCall.reportGetByID = false) (hu : f RepoCall.reportUpdate = false)
    (hown : report.UserID = userID) (hst : report.Status = ReportStatusDraft)
    (hne : report.Expenses ≠ []) :
    (SubmitReport f w reportID userID).1 = none ∧
      expenseReportRepository.GetByID (SubmitReport f w reportID userID).2.db reportID
        = Except.ok { report with Status := ReportStatusSubmitted } ∧
      (SubmitReport f w reportID userID).2.db.expenses = w.db.expenses ∧
      (SubmitReport f w reportID userID).2.db.report_expenses = w.db.report_expenses :=
  SubmitReport_ok f w reportID userID report hr hf hu hown hst hne

/-- The owner submits the draft of the scenario with its two expenses. -/
theorem submit_draft_succeeds_witness :
    (SubmitReport noFaults scenarioAdded 1 7).1 = none ∧
      expenseReportRepository.GetByID (SubmitReport noFaults scenarioAdded 1 7).2.db 1
        = Except.ok (scenarioLoaded "submitted" 155 scenarioExpenses) ∧
      (SubmitReport noFaults scenarioAdded 1 7).2.db.expenses = scenarioExpenses ∧
      (SubmitReport noFaults scenarioAdded 1 7).2.db.report_expenses = [(1, 1), (1, 2)] :=
  submit_draft_succeeds noFaults scenarioAdded 1 7
    (scenarioLoaded "draft" 155 scenarioExpenses) rfl rfl rfl rfl rfl (by decide)

/-- C8: a draft report of the acting user with no expenses cannot be submitted: the call
fails with the error for an empty report and the state, the draft status included, is as
it was.  In particular, in every state reachable through the service operations, the report
a successful `CreateReport` has just returned is rejected this way. -/
theorem submit_empty_draft_rejected (f : Faults) (w : World) (reportID userID : Nat) :
    (∀ report, expenseReportRepository.GetByID w.db reportID = Except.ok report →
      f RepoCall.reportGetByID = false → report.UserID = userID →
      report.Status = ReportStatusDraft → report.Expenses = [] →
      SubmitReport f w reportID userID
          = (some (NewBadRequestError "cannot submit report without expenses"), w) ∧
        expenseReportRepository.GetByID (SubmitReport f w reportID userID).2.db reportID
          = Except.ok report) ∧
    (∀ cs, Reachable cs anyCall w → ∀ f1 req response w1,
      CreateReport f1 w userID req = (Except.ok response, w1) →
      f RepoCall.reportGetByID = false →
      SubmitReport f w1 response.ID userID
          = (some (NewBadRequestError "cannot submit report without expenses"), w1) ∧
        (expenseReportRepository.GetByID (SubmitReport f w1 response.ID userID).2.db
          response.ID).toOption.map (fun r => r.Status) = some ReportStatusDraft) := by
  constructor
  · intro report hr hf hown hst hemp
    have h := SubmitReport_empty f w reportID userID report hr hf hown hst hemp
    exact ⟨h, by rw [h]; exact hr⟩
  · intro cs hreach f1 req response w1 hcreate hf
    obtain ⟨hid, hdb⟩ := CreateReport_ok hcreate
    have hget := reportGetByID_created (RefIntegrity_reachable hreach) userID req
    rw [← hdb, ← hid] at hget
    have h := SubmitReport_empty f w1 response.ID userID _ hget hf rfl rfl rfl
    refine ⟨h, ?_⟩
    rw [h]
    show (expenseReportRepository.GetByID w1.db response.ID).toOption.map _ = _
    rw [hget]
    rfl

/-- The draft of the scenario before any association, and the report just created in the empty store. -/
theorem submit_empty_draft_rejected_witness :
    (SubmitReport noFaults scenarioDraft 1 7
        = (some (NewBadRequestError "cannot submit report without expenses"), scenarioDraft) ∧
      expenseReportRepository.GetByID (SubmitReport noFaults scenarioDraft 1 7).2.db 1
        = Except.ok (scenarioLoaded "draft" 0 [])) ∧
    (SubmitReport noFaults runCreated 1 7
        = (some (NewBadRequestError "cannot submit report without expenses"), runCreated) ∧
      (expenseReportRepository.GetByID (SubmitReport noFaults runCreated 1 7).2.db
        1).toOption.map (fun r => r.Status) = some "draft") :=
  ⟨(submit_empty_draft_rejected noFaults scenarioDraft 1 7).1
      (scenarioLoaded "draft" 0 []) rfl rfl rfl rfl rfl,
    (submit_empty_draft_rejected noFaults World.empty 1 7).2 scenarioService Reachable.init
      noFaults { Title := "Q1 Travel" }
      (mapToReportResponse (scenarioLoaded "draft" 0 [])) runCreated rfl rfl⟩

/-- C9: after a `SubmitReport` that returned no error, the next `SubmitReport` on the same
report by the same user fails with the wrong-state error and leaves the state as it is. -/
theorem second_submit_rejected (f f2 : Faults) (w : World) (reportID userID : Nat)
    (h1 : (SubmitReport f w reportID userID).1 = none)
    (h2 : f2 RepoCall.reportGetByID = false) :
    SubmitReport f2 (SubmitReport f w reportID userID).2 reportID userID
      = (some (NewBadRequestError "can only submit draft reports"),
          (SubmitReport f w reportID userID).2) := by
  obtain ⟨report, hr, hf, hu, hown, hst, hne⟩ := SubmitReport_success_inv h1
  obtain ⟨_, hget, _, _⟩ := SubmitReport_ok f w reportID userID report hr hf hu hown hst hne
  exact SubmitReport_not_draft f2 _ reportID userID _ hget h2 hown
    (show ReportStatusSubmitted ≠ ReportStatusDraft by decide)

/-- The owner submits the draft of the scenario twice. -/
theorem second_submit_rejected_witness :
    (SubmitReport noFaults scenarioAdded 1 7).1 = none ∧
      SubmitReport noFaults (SubmitReport noFaults scenarioAdded 1 7).2 1 7
        = (some (NewBadRequestError "can only submit draft reports"), scenarioSubmitted) :=
  ⟨rfl, second_submit_rejected noFaults noFaults scenarioAdded 1 7 rfl rfl⟩

/-- C10, as stated, fails: the errors of `SubmitReport` for a non-owner, for a non-draft
report and for a report without expenses carry the same kind, BAD_REQUEST. -/
theorem submit_error_kinds_coincide :
    (SubmitReport noFaults scenarioDraft 1 8).1.map (fun e => e.Type_)
      = some ErrorType.BadRequest ∧
    (SubmitReport noFaults scenarioSubmitted 1 7).1.map (fun e => e.Type_)
      = some ErrorType.BadRequest ∧
    (SubmitReport noFaults scenarioDraft 1 7).1.map (fun e => e.Type_)
      = some ErrorType.BadRequest := by
  decide

/-- C10 (amended): on failure `SubmitReport` returns, for a report that cannot be looked up,
the NOT_FOUND error, and for the other three causes a BAD_REQUEST error; the four errors
have pairwise different messages, so the cause can be told from kind and message. -/
theorem submit_failure_names_cause (f : Faults) (w : World) (reportID userID : Nat) :
    (∀ e, expenseReportRepository.GetByID w.db reportID = Except.error e →
      SubmitReport f w reportID userID = (some (NewNotFoundError "expense report"), w)) ∧
    (∀ report, expenseReportRepository.GetByID w.db reportID = Except.ok report →
      f RepoCall.reportGetByID = false →
      (report.UserID ≠ userID →
        SubmitReport f w reportID userID
          = (some (NewBadRequestError "you can only submit your own reports"), w)) ∧
      (report.UserID = userID → report.Status ≠ ReportStatusDraft →
        SubmitReport f w reportID userID
          = (some (NewBadRequestError "can only submit draft reports"), w)) ∧
      (report.UserID = userID → report.Status = ReportStatusDraft → report.Expenses = [] →
        SubmitReport f w reportID userID
          = (some (NewBadRequestError "cannot submit report without expenses"), w))) ∧
    (NewNotFoundError "expense report").Type_ = ErrorType.NotFound ∧
    (∀ message, (NewBadRequestError message).Type_ = ErrorType.BadRequest) ∧
    [(NewNotFoundError "expense report").Message,
      (NewBadRequestError "you can only submit your own reports").Message,
      (NewBadRequestError "can only submit draft reports").Message,
      (NewBadRequestError "cannot submit report without expenses").Message].Nodup :=
  ⟨fun e he => SubmitReport_absent f w reportID userID e he,
    fun report hr hf =>
      ⟨fun hne => SubmitReport_not_owner f w reportID userID report hr hf hne,
        fun hown hst => SubmitReport_not_draft f w reportID userID report hr hf hown hst,
        fun hown hst hemp => SubmitReport_empty f w reportID userID report hr hf hown hst hemp⟩,
    rfl, fun _ => rfl, by decide⟩

/-- The four causes on the scenario. -/
theorem submit_failure_names_cause_witness :
    SubmitReport noFaults scenarioDraft 5 7 = (some (NewNotFoundError "expense report"), scenarioDraft) ∧
    SubmitReport noFaults scenarioDraft 1 8
      = (some (NewBadRequestError "you can only submit your own reports"), scenarioDraft) ∧
    SubmitReport noFaults scenarioSubmitted 1 7
      = (some (NewBadRequestError "can only submit draft reports"), scenarioSubmitted) ∧
    SubmitReport noFaults scenarioDraft 1 7
      = (some (NewBadRequestError "cannot submit report without expenses"), scenarioDraft) :=
  ⟨(submit_failure_names_cause noFaults scenarioDraft 5 7).1 DBError.RecordNotFound rfl,
    ((submit_failure_names_cause noFaults scenarioDraft 1 8).2.1
      (scenarioLoaded "draft" 0 []) rfl rfl).1 (by decide),
    ((submit_failure_names_cause noFaults scenarioSubmitted 1 7).2.1
      (scenarioLoaded "submitted" 155 scenarioExpenses) rfl rfl).2.1 rfl (by decide),
    ((submit_failure_names_cause noFaults scenarioDraft 1 7).2.1
      (scenarioLoaded "draft" 0 []) rfl rfl).2.2 rfl rfl rfl⟩

/-- C11: no call moves a report out of submitted or approved.  For a report that can be
loaded, the status after a call of any of the six mutating operations, with any arguments
and whatever fails, is the status before, or the status went from draft to submitted;
`GetReportByID` leaves every status as it is. -/
theorem status_leaves_only_draft (cs : CurrencyService) (f : Faults) (w : World) (op : Op)
    (reportID : Nat) (status : String) (h : statusOf w.db reportID = some status) :
    (statusOf (op.run cs f w).db reportID = some status ∨
      (status = ReportStatusDraft ∧
        statusOf (op.run cs f w).db reportID = some ReportStatusSubmitted)) ∧
    (status = ReportStatusSubmitted ∨ status = ReportStatusApproved →
      statusOf (op.run cs f w).db reportID = some status) ∧
    (∀ codec id, statusOf (GetReportByID codec f w id).2.db reportID = some status) := by
  have hmain : statusOf (op.run cs f w).db reportID = some status ∨
      (status = ReportStatusDraft ∧
        statusOf (op.run cs f w).db reportID = some ReportStatusSubmitted) := by
    cases op with
    | createReport userID req => exact Or.inl (statusOf_CreateReport f w userID req _ _ h)
    | addExpensesToReport id userID req =>
      exact Or.inl ((statusOf_AddExpensesToReport cs f w id userID req reportID).trans h)
    | submitReport id userID =>
      rcases statusOf_SubmitReport f w id userID reportID with h1 | ⟨_, h1, h2⟩
      · exact Or.inl (h1.trans h)
      · right
        rw [h] at h1
        exact ⟨Option.some.inj h1, h2⟩
    | createExpense userID req =>
      exact Or.inl ((statusOf_CreateExpense f w userID req reportID).trans h)
    | updateExpense id userID req =>
      exact Or.inl ((statusOf_UpdateExpense f w id userID req reportID).trans h)
    | deleteExpense id userID =>
      exact Or.inl ((statusOf_DeleteExpense f w id userID reportID).trans h)
  refine ⟨hmain, ?_, ?_⟩
  · intro hst
    rcases hmain with h1 | ⟨h1, _⟩
    · exact h1
    · rcases hst with h2 | h2
      · rw [h1] at h2
        exact absurd h2 (by decide)
      · rw [h1] at h2
        exact absurd h2 (by decide)
  · intro codec id
    rw [statusOf_congr (congrArg DB.expense_reports (GetReportByID_db codec f w id)) reportID]
    exact h

/-- On the submitted report of the scenario: adding expenses, submitting again and reading
leave it submitted. -/
theorem status_leaves_only_draft_witness :
    statusOf (AddExpensesToReport scenarioService noFaults scenarioSubmitted 1 7
      { ExpenseIDs := [1, 2] }).2.db 1 = some "submitted" ∧
    statusOf (SubmitReport noFaults scenarioSubmitted 1 7).2.db 1 = some "submitted" ∧
    statusOf (GetReportByID scenarioCodec noFaults scenarioSubmitted 1).2.db 1
      = some "submitted" :=
  ⟨(status_leaves_only_draft scenarioService noFaults scenarioSubmitted
      (Op.addExpensesToReport 1 7 { ExpenseIDs := [1, 2] }) 1 "submitted" rfl).2.1
      (Or.inl rfl),
    (status_leaves_only_draft scenarioService noFaults scenarioSubmitted
      (Op.submitReport 1 7) 1 "submitted" rfl).2.1 (Or.inl rfl),
    (status_leaves_only_draft scenarioService noFaults scenarioSubmitted
      (Op.submitReport 1 7) 1 "submitted" rfl).2.2 scenarioCodec 1⟩

/-- C12: with an insert that succeeds, `CreateReport` returns and stores a report of the
acting user with the requested title, status draft, total 0 and no expenses, and deletes
the list key `reports:user:<id>` of that user, leaving the other keys alone.  The request
carries a title only, so no total can come from it. -/
theorem create_report_makes_empty_draft (f : Faults) (w : World) (userID : Nat)
    (req : CreateExpenseReportRequest) (hf : f RepoCall.reportCreate = false)
    (hri : RefIntegrity w) :
    ∃ response w1, CreateReport f w userID req = (Except.ok response, w1) ∧
      response.UserID = userID ∧ response.Title = req.Title ∧
      response.Status = ReportStatusDraft ∧ response.Total = 0 ∧ response.Expenses = [] ∧
      expenseReportRepository.GetByID w1.db response.ID = Except.ok
        { ID := response.ID, UserID := userID, Title := req.Title, Status := ReportStatusDraft,
          Total := 0, Deleted := false, Expenses := [] } ∧
      response.ID ∉ w.db.expense_reports.map (fun r => r.ID) ∧
      redisClient.Get w1.redis ("reports:user:" ++ toString userID) = none ∧
      ∀ key, key ≠ "reports:user:" ++ toString userID →
        redisClient.Get w1.redis key = redisClient.Get w.redis key :=
  ⟨_, _, CreateReport_run f w userID req hf, rfl, rfl, rfl, rfl, rfl,
    reportGetByID_created hri userID req, nextID_fresh _, Get_Del_same _ _,
    fun _ hkey => Get_Del_other _ hkey⟩

/-- User 9 creates a second report next to the draft of the scenario: it gets key 2. -/
theorem create_report_makes_empty_draft_witness :
    (∃ response w1,
      CreateReport noFaults scenarioDraft 9 { Title := "Q2 Travel" } = (Except.ok response, w1) ∧
      response.UserID = 9 ∧ response.Title = "Q2 Travel" ∧
      response.Status = "draft" ∧ response.Total = 0 ∧ response.Expenses = [] ∧
      expenseReportRepository.GetByID w1.db response.ID = Except.ok
        { ID := response.ID, UserID := 9, Title := "Q2 Travel", Status := "draft",
          Total := 0, Deleted := false, Expenses := [] } ∧
      response.ID ∉ scenarioDraft.db.expense_reports.map (fun r => r.ID) ∧
      redisClient.Get w1.redis ("reports:user:" ++ toString 9) = none ∧
      ∀ key, key ≠ "reports:user:" ++ toString 9 →
        redisClient.Get w1.redis key = redisClient.Get scenarioDraft.redis key) ∧
    (CreateReport noFaults scenarioDraft 9 { Title := "Q2 Travel" }).1.toOption
      = some { ID := 2, UserID := 9, Title := "Q2 Travel", Status := "draft", Total := 0,
               Expenses := [] } :=
  ⟨create_report_makes_empty_draft noFaults scenarioDraft 9 { Title := "Q2 Travel" } rfl
    ⟨by decide, by decide, by decide⟩, by decide⟩

/-- C13: for codes equal after upper-casing, whatever function `strings.ToUpper` is,
`ConvertCurrency` returns the amount itself and no error, and the state is as it was: no
key is read or written and no request is sent. -/
theorem convert_same_currency_is_identity (b : RateBackend) (s : RateState) (amount : ℚ)
    (src dst : String) (h : b.ToUpper src = b.ToUpper dst) :
    currencyService.ConvertCurrency b s amount src dst = (Except.ok amount, s) :=
  ConvertCurrency_same b s amount src dst h

/-- From usd to USD, with a rate cache that holds an entry: 100 comes back, nothing is
touched.  With an upper-casing that knows the long s, as `strings.ToUpper` does, the same
holds from uſd to USD. -/
theorem convert_same_currency_is_identity_witness :
    currencyService.ConvertCurrency scenarioBackend rateStateCached 100 "usd" "USD"
      = (Except.ok 100, rateStateCached) ∧
    currencyService.ConvertCurrency longSBackend rateStateCached 100 "uſd" "USD"
      = (Except.ok 100, rateStateCached) :=
  ⟨convert_same_currency_is_identity scenarioBackend rateStateCached 100 "usd" "USD"
      (by decide),
    convert_same_currency_is_identity longSBackend rateStateCached 100 "uſd" "USD"
      (by decide)⟩

/-- C14: for codes that differ after upper-casing, `ConvertCurrency` returns the amount
times the rate `GetExchangeRate` returns for the pair, and the error of that lookup when it
fails; the state is the one the lookup leaves. -/
theorem convert_multiplies_by_rate (b : RateBackend) (s : RateState) (amount : ℚ)
    (src dst : String) (h : b.ToUpper src ≠ b.ToUpper dst) :
    (∀ rate s1, currencyService.GetExchangeRate b s src dst = (Except.ok rate, s1) →
      currencyService.ConvertCurrency b s amount src dst = (Except.ok (amount * rate), s1)) ∧
    (∀ err s1, currencyService.GetExchangeRate b s src dst = (Except.error err, s1) →
      currencyService.ConvertCurrency b s amount src dst = (Except.error err, s1)) := by
  rw [ConvertCurrency_differ b s amount src dst h]
  constructor
  · intro rate s1 hrate
    rw [hrate]
  · intro err s1 herr
    rw [herr]

/-- 50 EUR at the cached rate 1.1 are 55 USD; GBP, for which the provider answers 503,
gives the error of the lookup. -/
theorem convert_multiplies_by_rate_witness :
    (currencyService.ConvertCurrency scenarioBackend rateStateCached 50 "eur" "usd").1
      = Except.ok 55 ∧
    (currencyService.ConvertCurrency scenarioBackend rateStateCached 50 "gbp" "usd").1
      = Except.error "failed to fetch exchange rate: API returned status 503: unavailable" :=
  ⟨congrArg Prod.fst
      ((convert_multiplies_by_rate scenarioBackend rateStateCached 50 "eur" "usd"
        (by decide)).1 (11 / 10)
        { rateStateCached with calls := [ExternalCall.redisGet "exchange_rate:EUR:USD"] }
        (by with_unfolding_all rfl)) |>.trans (by with_unfolding_all rfl),
    congrArg Prod.fst
      ((convert_multiplies_by_rate scenarioBackend rateStateCached 50 "gbp" "usd"
        (by decide)).2 "failed to fetch exchange rate: API returned status 503: unavailable"
        { rateStateCached with
          calls := [ExternalCall.redisGet "exchange_rate:GBP:USD",
                    ExternalCall.httpGet "https://api.exchangerate-api.com/v4/latest/GBP"] }
        (by with_unfolding_all rfl))⟩

/-- C15: for codes equal after upper-casing, whatever function `strings.ToUpper` is,
`GetExchangeRate` returns 1 and no error, and the state is as it was: no key is read or
written and no request is sent. -/
theorem rate_of_same_currency_is_one (b : RateBackend) (s : RateState) (src dst : String)
    (h : b.ToUpper src = b.ToUpper dst) :
    currencyService.GetExchangeRate b s src dst = (Except.ok 1, s) :=
  GetExchangeRate_same b s src dst h

/-- The pair eur, EUR on the empty rate cache, and the pair uſd, USD with an upper-casing
that knows the long s. -/
theorem rate_of_same_currency_is_one_witness :
    currencyService.GetExchangeRate scenarioBackend rateStateEmpty "eur" "EUR"
      = (Except.ok 1, rateStateEmpty) ∧
    currencyService.GetExchangeRate longSBackend rateStateEmpty "uſd" "USD"
      = (Except.ok 1, rateStateEmpty) :=
  ⟨rate_of_same_currency_is_one scenarioBackend rateStateEmpty "eur" "EUR" (by decide),
    rate_of_same_currency_is_one longSBackend rateStateEmpty "uſd" "USD" (by decide)⟩

/-- C16: a hit.  For codes that differ after upper-casing and whose key
`exchange_rate:<FROM>:<TO>` holds text that parses, `GetExchangeRate` returns the number
parsed; it sends one read of that key and nothing else, and the key space is as it was.
Every call in a state where the key holds that text returns the same number, and the
spelling of the codes in lower or upper case makes no difference. -/
theorem cached_rate_is_served (b : RateBackend) (s : RateState) (src dst text : String)
    (rate : ℚ) (hne : b.ToUpper src ≠ b.ToUpper dst)
    (hget : redisClient.Get s.redis (currencyService.cacheKey (b.ToUpper src) (b.ToUpper dst))
      = some text)
    (hparse : b.Sscanf text = Except.ok rate) :
    currencyService.GetExchangeRate b s src dst
      = (Except.ok rate,
          { redis := s.redis,
            calls := s.calls ++
              [ExternalCall.redisGet ("exchange_rate:" ++ b.ToUpper src ++ ":" ++ b.ToUpper dst)] }) ∧
    (∀ s2 : RateState,
      redisClient.Get s2.redis (currencyService.cacheKey (b.ToUpper src) (b.ToUpper dst))
        = some text →
      (currencyService.GetExchangeRate b s2 src dst).1 = Except.ok rate) ∧
    (∀ src2 dst2, b.ToUpper src2 = b.ToUpper src → b.ToUpper dst2 = b.ToUpper dst →
      currencyService.GetExchangeRate b s src2 dst2
        = currencyService.GetExchangeRate b s src dst) :=
  ⟨GetExchangeRate_hit b s src dst text rate hne hget hparse,
    fun s2 hget2 => by rw [GetExchangeRate_hit b s2 src dst text rate hne hget2 hparse],
    fun src2 dst2 h1 h2 => GetExchangeRate_case b s src dst src2 dst2 h1 h2⟩

/-- The cached text 1.100000 for EUR, USD is served as 11/10, also to the spelling eur, usd,
and also on the next call. -/
theorem cached_rate_is_served_witness :
    currencyService.GetExchangeRate scenarioBackend rateStateCached "EUR" "USD"
      = (Except.ok (11 / 10),
          { redis := [("exchange_rate:EUR:USD", "1.100000")],
            calls := [ExternalCall.redisGet "exchange_rate:EUR:USD"] }) ∧
    (currencyService.GetExchangeRate scenarioBackend
      (currencyService.GetExchangeRate scenarioBackend rateStateCached "EUR" "USD").2
      "EUR" "USD").1 = Except.ok (11 / 10) ∧
    currencyService.GetExchangeRate scenarioBackend rateStateCached "eur" "usd"
      = currencyService.GetExchangeRate scenarioBackend rateStateCached "EUR" "USD" :=
  have h := cached_rate_is_served scenarioBackend rateStateCached "EUR" "USD" "1.100000"
    (11 / 10) (by decide) (by decide) (by with_unfolding_all rfl)
  ⟨h.1, h.2.1 _ (by with_unfolding_all decide), h.2.2 "eur" "usd" (by decide) (by decide)⟩

/-- C17: a miss with a provider that answers.  For codes that differ after upper-casing
and whose key holds no entry (or text that does not parse), when the provider answers the
request for the base currency FROM with status 200 and rates that hold TO,
`GetExchangeRate` returns that rate; it sends, in this order and nothing else, the read of
the key, one request to the provider for FROM, and one write of the key
`exchange_rate:<FROM>:<TO>` with a time-to-live of 21600 seconds (6 hours).  Afterwards
the key holds the rate as text and every other key holds what it held. -/
theorem miss_fetches_once_and_caches (b : RateBackend) (s : RateState)
    (src dst body : String) (resp : HTTPResponse) (data : ExchangeRateResponse) (rate : ℚ)
    (hne : b.ToUpper src ≠ b.ToUpper dst)
    (hmiss : redisClient.Get s.redis ("exchange_rate:" ++ b.ToUpper src ++ ":" ++ b.ToUpper dst)
      = none ∨
      ∃ text err, redisClient.Get s.redis
          ("exchange_rate:" ++ b.ToUpper src ++ ":" ++ b.ToUpper dst) = some text ∧
        b.Sscanf text = Except.error err)
    (hdo : b.Do (b.APIURL ++ "/" ++ b.ToUpper src) = Except.ok resp)
    (hstatus : resp.StatusCode = 200) (hbody : resp.Body = Except.ok body)
    (hdata : b.Unmarshal body = Except.ok data)
    (hrate : data.Rates.lookup (b.ToUpper dst) = some rate) :
    ∃ s1, currencyService.GetExchangeRate b s src dst = (Except.ok rate, s1) ∧
      s1.calls = s.calls ++
        [ExternalCall.redisGet ("exchange_rate:" ++ b.ToUpper src ++ ":" ++ b.ToUpper dst),
         ExternalCall.httpGet (b.APIURL ++ "/" ++ b.ToUpper src),
         ExternalCall.redisSet ("exchange_rate:" ++ b.ToUpper src ++ ":" ++ b.ToUpper dst)
           (b.Sprintf rate) 21600] ∧
      redisClient.Get s1.redis ("exchange_rate:" ++ b.ToUpper src ++ ":" ++ b.ToUpper dst)
        = some (b.Sprintf rate) ∧
      ∀ key, key ≠ "exchange_rate:" ++ b.ToUpper src ++ ":" ++ b.ToUpper dst →
        redisClient.Get s1.redis key = redisClient.Get s.redis key :=
  ⟨_, GetExchangeRate_miss_ok b s src dst body resp data rate hne hmiss hdo hstatus hbody
      hdata hrate, rfl, Get_Set_same s.redis _ (b.Sprintf rate) rateTTL,
    fun _ hkey => Get_Set_other s.redis (b.Sprintf rate) rateTTL hkey⟩

/-- On the empty cache the pair eur, usd is fetched from the provider once, 11/10 is
returned, and the key of EUR, USD holds the text 1.100000 for 21600 seconds. -/
theorem miss_fetches_once_and_caches_witness :
    ∃ s1, currencyService.GetExchangeRate scenarioBackend rateStateEmpty "eur" "usd"
        = (Except.ok (11 / 10), s1) ∧
      s1.calls =
        [ExternalCall.redisGet "exchange_rate:EUR:USD",
         ExternalCall.httpGet "https://api.exchangerate-api.com/v4/latest/EUR",
         ExternalCall.redisSet "exchange_rate:EUR:USD" "1.100000" 21600] ∧
      redisClient.Get s1.redis "exchange_rate:EUR:USD" = some "1.100000" ∧
      ∀ key, key ≠ "exchange_rate:EUR:USD" → redisClient.Get s1.redis key = none := by
  with_unfolding_all exact
    (miss_fetches_once_and_caches scenarioBackend rateStateEmpty "eur" "usd" "rates of EUR"
      { StatusCode := 200, Body := Except.ok "rates of EUR" }
      { Rates := [("GBP", 43 / 50), ("USD", 11 / 10)], Base := "EUR", Date := "2024-01-01" }
      (11 / 10) (by decide) (Or.inl (by decide)) (by with_unfolding_all rfl) rfl rfl
      (by with_unfolding_all rfl) (by with_unfolding_all rfl))

/-- C18: a miss with a provider that fails.  For codes that differ after upper-casing and
whose key holds no entry (or text that does not parse), when the call to the provider
fails, by a transport error, a status other than 200, a body that cannot be read or
decoded, or rates that lack the target currency, `GetExchangeRate` returns an error and
no rate; the key space is as it was and no write is sent. -/
theorem miss_with_failing_provider_errors (b : RateBackend) (s : RateState)
    (src dst : String) (hne : b.ToUpper src ≠ b.ToUpper dst)
    (hmiss : redisClient.Get s.redis ("exchange_rate:" ++ b.ToUpper src ++ ":" ++ b.ToUpper dst)
      = none ∨
      ∃ text err, redisClient.Get s.redis
          ("exchange_rate:" ++ b.ToUpper src ++ ":" ++ b.ToUpper dst) = some text ∧
        b.Sscanf text = Except.error err)
    (hfail : providerFails b (b.ToUpper src) (b.ToUpper dst)) :
    ∃ err s1, currencyService.GetExchangeRate b s src dst = (Except.error err, s1) ∧
      s1.redis = s.redis ∧
      s1.calls = s.calls ++
        [ExternalCall.redisGet ("exchange_rate:" ++ b.ToUpper src ++ ":" ++ b.ToUpper dst),
         ExternalCall.httpGet (b.APIURL ++ "/" ++ b.ToUpper src)] := by
  obtain ⟨err, h⟩ := GetExchangeRate_miss_fails b s src dst hne hmiss hfail
  exact ⟨err, _, h, rfl, rfl⟩

/-- On the empty cache, each kind of failure of the provider: no response for CAD, status
503 for GBP, a body that does not decode for CHF, rates without USD for JPY. -/
theorem miss_with_failing_provider_errors_witness :
    (∃ err s1, currencyService.GetExchangeRate scenarioBackend rateStateEmpty "cad" "usd"
        = (Except.error err, s1) ∧ s1.redis = rateStateEmpty.redis ∧
      s1.calls = rateStateEmpty.calls ++
        [ExternalCall.redisGet ("exchange_rate:" ++ asciiUpper "cad" ++ ":" ++ asciiUpper "usd"),
         ExternalCall.httpGet (scenarioBackend.APIURL ++ "/" ++ asciiUpper "cad")]) ∧
    (∃ err s1, currencyService.GetExchangeRate scenarioBackend rateStateEmpty "gbp" "usd"
        = (Except.error err, s1) ∧ s1.redis = rateStateEmpty.redis ∧
      s1.calls = rateStateEmpty.calls ++
        [ExternalCall.redisGet ("exchange_rate:" ++ asciiUpper "gbp" ++ ":" ++ asciiUpper "usd"),
         ExternalCall.httpGet (scenarioBackend.APIURL ++ "/" ++ asciiUpper "gbp")]) ∧
    (∃ err s1, currencyService.GetExchangeRate scenarioBackend rateStateEmpty "chf" "usd"
        = (Except.error err, s1) ∧ s1.redis = rateStateEmpty.redis ∧
      s1.calls = rateStateEmpty.calls ++
        [ExternalCall.redisGet ("exchange_rate:" ++ asciiUpper "chf" ++ ":" ++ asciiUpper "usd"),
         ExternalCall.httpGet (scenarioBackend.APIURL ++ "/" ++ asciiUpper "chf")]) ∧
    (∃ err s1, currencyService.GetExchangeRate scenarioBackend rateStateEmpty "jpy" "usd"
        = (Except.error err, s1) ∧ s1.redis = rateStateEmpty.redis ∧
      s1.calls = rateStateEmpty.calls ++
        [ExternalCall.redisGet ("exchange_rate:" ++ asciiUpper "jpy" ++ ":" ++ asciiUpper "usd"),
         ExternalCall.httpGet (scenarioBackend.APIURL ++ "/" ++ asciiUpper "jpy")]) ∧
    (currencyService.GetExchangeRate scenarioBackend rateStateEmpty "jpy" "usd").1
      = Except.error
          "failed to fetch exchange rate: currency code USD not found in response" :=
  ⟨miss_with_failing_provider_errors scenarioBackend rateStateEmpty "cad" "usd" (by decide)
      (Or.inl (by decide)) (Or.inl ⟨"connection refused", by with_unfolding_all rfl⟩),
    miss_with_failing_provider_errors scenarioBackend rateStateEmpty "gbp" "usd" (by decide)
      (Or.inl (by decide))
      (Or.inr ⟨{ StatusCode := 503, Body := Except.ok "unavailable" },
        by with_unfolding_all rfl, Or.inl (by decide)⟩),
    miss_with_failing_provider_errors scenarioBackend rateStateEmpty "chf" "usd" (by decide)
      (Or.inl (by decide))
      (Or.inr ⟨{ StatusCode := 200, Body := Except.ok "<html>" },
        by with_unfolding_all rfl,
        Or.inr (Or.inr ⟨rfl, "<html>", rfl,
          Or.inl ⟨"invalid character", by with_unfolding_all rfl⟩⟩)⟩),
    miss_with_failing_provider_errors scenarioBackend rateStateEmpty "jpy" "usd" (by decide)
      (Or.inl (by decide))
      (Or.inr ⟨{ StatusCode := 200, Body := Except.ok "rates of JPY" },
        by with_unfolding_all rfl,
        Or.inr (Or.inr ⟨rfl, "rates of JPY", rfl,
          Or.inr ⟨{ Rates := [("EUR", 3 / 500)], Base := "JPY", Date := "2024-01-01" },
            by with_unfolding_all rfl, by with_unfolding_all rfl⟩⟩)⟩),
    by with_unfolding_all rfl⟩

/-- C20: after a successful `AddExpensesToReport` or a successful `SubmitReport` on a
report, whatever the cache held before, the cache holds no entry under `report:<id>` and
none under `reports:user:<ownerId>`, the caller being the owner of the report; the next
`GetReportByID` of that report therefore reads the repository: its result is what the
repository lookup answers. -/
theorem success_invalidates_report_cache (cs : CurrencyService) (codec : ReportCodec)
    (f : Faults) (w w1 : World) (reportID userID : Nat) (req : AddExpensesToReportRequest)
    (h : (AddExpensesToReport cs f w reportID userID req = (none, w1)) ∨
      (SubmitReport f w reportID userID = (none, w1))) :
    (expenseReportRepository.GetByID w.db reportID).toOption.map (fun r => r.UserID)
      = some userID ∧
    redisClient.Get w1.redis ("report:" ++ toString reportID) = none ∧
    redisClient.Get w1.redis ("reports:user:" ++ toString userID) = none ∧
    readsRepository codec w1 reportID := by
  rcases h with h | h
  · have hnone : (AddExpensesToReport cs f w reportID userID req).1 = none := by rw [h]
    obtain ⟨report, hr, _, hown, _⟩ := AddExpensesToReport_success_inv hnone
    have hredis := AddExpensesToReport_redis hnone
    rw [h] at hredis
    obtain ⟨hinv, hreads⟩ := readsRepository_of_invalidated codec _ w1 reportID userID hredis
    refine ⟨?_, hinv.1, hinv.2, hreads⟩
    rw [hr, ← hown]
    rfl
  · have hnone : (SubmitReport f w reportID userID).1 = none := by rw [h]
    obtain ⟨report, hr, _, _, hown, _⟩ := SubmitReport_success_inv hnone
    have hredis := SubmitReport_redis hnone
    rw [h] at hredis
    obtain ⟨hinv, hreads⟩ := readsRepository_of_invalidated codec _ w1 reportID userID hredis
    refine ⟨?_, hinv.1, hinv.2, hreads⟩
    rw [hr, ← hown]
    rfl

/-- Report 1 of user 7 with a snapshot of the empty draft cached: after an
`AddExpensesToReport` that succeeds (the empty request), and after the submit, the snapshot
is gone.  While the snapshot is cached the lookup serves it, empty and with total 0; after
the submit the lookup returns the stored report with its two expenses and total 155. -/
theorem success_invalidates_report_cache_witness :
    ((expenseReportRepository.GetByID scenarioDraftCached.db 1).toOption.map
        (fun r => r.UserID) = some 7 ∧
      redisClient.Get
        (AddExpensesToReport scenarioService noFaults scenarioDraftCached 1 7
          { ExpenseIDs := [] }).2.redis ("report:" ++ toString 1) = none ∧
      redisClient.Get
        (AddExpensesToReport scenarioService noFaults scenarioDraftCached 1 7
          { ExpenseIDs := [] }).2.redis ("reports:user:" ++ toString 7) = none ∧
      readsRepository scenarioCodec
        (AddExpensesToReport scenarioService noFaults scenarioDraftCached 1 7
          { ExpenseIDs := [] }).2 1) ∧
    ((expenseReportRepository.GetByID scenarioAddedCached.db 1).toOption.map
        (fun r => r.UserID) = some 7 ∧
      redisClient.Get scenarioSubmitted.redis ("report:" ++ toString 1) = none ∧
      redisClient.Get scenarioSubmitted.redis ("reports:user:" ++ toString 7) = none ∧
      readsRepository scenarioCodec scenarioSubmitted 1) ∧
    (GetReportByID scenarioCodec noFaults scenarioAddedCached 1).1.toOption
      = some (mapToReportResponse (scenarioLoaded "draft" 0 [])) ∧
    (GetReportByID scenarioCodec noFaults scenarioSubmitted 1).1.toOption
      = some (mapToReportResponse (scenarioLoaded "submitted" 155 scenarioExpenses)) :=
  ⟨success_invalidates_report_cache scenarioService scenarioCodec noFaults
      scenarioDraftCached
      (AddExpensesToReport scenarioService noFaults scenarioDraftCached 1 7
        { ExpenseIDs := [] }).2 1 7 { ExpenseIDs := [] }
      (Or.inl (by with_unfolding_all rfl)),
    success_invalidates_report_cache scenarioService scenarioCodec noFaults
      scenarioAddedCached scenarioSubmitted 1 7 { ExpenseIDs := [] }
      (Or.inr (by with_unfolding_all rfl)),
    by with_unfolding_all rfl, by with_unfolding_all rfl⟩
/-- C21: read-through of a single entity.  `GetReportByID` sends one read of the key
`report:<id>`.  When the key holds text that decodes, it returns the snapshot of the
decoded report (key, owner, title, status, total and expenses, field by field) and sends
nothing else, whatever the repository holds or would answer.  On a miss, or on text that
does not decode, the repository read decides: when it fails the result is NotFound and
nothing is written; otherwise the report is returned and its snapshot is written under the
same key with a time-to-live of 1800 seconds (30 minutes).  `GetUserByID` does the same on
the key `user:<id>` with 3600 seconds (1 hour). -/
theorem single_entity_read_through (codec : ReportCodec) (f : Faults) (w : World) (id : Nat)
    (ucodec : UserCodec) (userRepo : UserRepository) (s : RateState) (uid : Nat) :
    (GetReportByIDTraced codec f w id).1 = GetReportByID codec f w id ∧
    (∀ text report,
      redisClient.Get w.redis ("report:" ++ toString id) = some text →
      codec.Unmarshal text = Except.ok report →
      GetReportByIDTraced codec f w id
        = ((Except.ok (snapshotOfReport report), w),
            [ExternalCall.redisGet ("report:" ++ toString id)])) ∧
    ((redisClient.Get w.redis ("report:" ++ toString id) = none ∨
        ∃ text err, redisClient.Get w.redis ("report:" ++ toString id) = some text ∧
          codec.Unmarshal text = Except.error err) →
      (∀ e, attempt (f RepoCall.reportGetByID) (expenseReportRepository.GetByID w.db id)
          = Except.error e →
        GetReportByIDTraced codec f w id
          = ((Except.error (NewNotFoundError "expense report"), w),
              [ExternalCall.redisGet ("report:" ++ toString id)])) ∧
      (∀ report, attempt (f RepoCall.reportGetByID) (expenseReportRepository.GetByID w.db id)
          = Except.ok report →
        GetReportByIDTraced codec f w id
          = ((Except.ok (snapshotOfReport report),
                { w with
                  redis := redisClient.Set w.redis ("report:" ++ toString id)
                    (codec.Marshal report) 1800 }),
              [ExternalCall.redisGet ("report:" ++ toString id),
               ExternalCall.redisSet ("report:" ++ toString id) (codec.Marshal report)
                 1800]) ∧
        redisClient.Get (GetReportByIDTraced codec f w id).1.2.redis
            ("report:" ++ toString id) = some (codec.Marshal report))) ∧
    (∀ text user,
      redisClient.Get s.redis ("user:" ++ toString uid) = some text →
      ucodec.Unmarshal text = Except.ok user →
      GetUserByID ucodec userRepo s uid
        = (Except.ok (snapshotOfUser user),
            { redis := s.redis,
              calls := s.calls ++ [ExternalCall.redisGet ("user:" ++ toString uid)] })) ∧
    ((redisClient.Get s.redis ("user:" ++ toString uid) = none ∨
        ∃ text err, redisClient.Get s.redis ("user:" ++ toString uid) = some text ∧
          ucodec.Unmarshal text = Except.error err) →
      (∀ e, userRepo.GetByID uid = Except.error e →
        GetUserByID ucodec userRepo s uid
          = (Except.error (NewNotFoundError "user"),
              { redis := s.redis,
                calls := s.calls ++ [ExternalCall.redisGet ("user:" ++ toString uid)] })) ∧
      (∀ user, userRepo.GetByID uid = Except.ok user →
        GetUserByID ucodec userRepo s uid
          = (Except.ok (snapshotOfUser user),
              { redis := redisClient.Set s.redis ("user:" ++ toString uid)
                  (ucodec.Marshal user) 3600,
                calls := s.calls ++ [ExternalCall.redisGet ("user:" ++ toString uid)] ++
                  [ExternalCall.redisSet ("user:" ++ toString uid) (ucodec.Marshal user)
                    3600] }) ∧
        redisClient.Get (GetUserByID ucodec userRepo s uid).2.redis
            ("user:" ++ toString uid) = some (ucodec.Marshal user))) := by
  refine ⟨GetReportByIDTraced_fst codec f w id,
    fun text report hget hdec => GetReportByIDTraced_hit codec f w id text report hget hdec,
    fun hmiss => ⟨?_, ?_⟩,
    fun text user hget hdec => GetUserByID_hit ucodec userRepo s uid text user hget hdec,
    fun hmiss => ⟨?_, ?_⟩⟩
  · intro e he
    rw [GetReportByIDTraced_miss codec f w id hmiss, he]
  · intro report hrep
    have hrun := GetReportByIDTraced_miss codec f w id hmiss
    rw [hrep] at hrun
    refine ⟨hrun, ?_⟩
    rw [hrun]
    exact Get_Set_same w.redis _ (codec.Marshal report) reportTTL
  · intro e he
    rw [GetUserByID_miss ucodec userRepo s uid hmiss, he]
  · intro user huser
    have hrun := GetUserByID_miss ucodec userRepo s uid hmiss
    rw [huser] at hrun
    refine ⟨hrun, ?_⟩
    rw [hrun]
    exact Get_Set_same s.redis _ (ucodec.Marshal user) userTTL

/-- Report 1 of the scenario and user 7.  With the snapshot of the empty draft cached, the
lookup serves it (draft, total 0, no expense) although the stored report has two expenses;
with an empty cache the stored report is returned, with total 155 and its two expenses,
and cached for 1800 seconds; the unknown report 5 gives NotFound and no write.  User 7 is
served from the cache when cached, and otherwise read and cached for 3600 seconds. -/
theorem single_entity_read_through_witness :
    GetReportByIDTraced scenarioCodec noFaults scenarioAddedCached 1
      = ((Except.ok { ID := 1, UserID := 7, Title := "Q1 Travel", Status := "draft",
                      Total := 0, Expenses := [] }, scenarioAddedCached),
          [ExternalCall.redisGet "report:1"]) ∧
    GetReportByIDTraced scenarioCodec noFaults scenarioAdded 1
      = ((Except.ok
            { ID := 1, UserID := 7, Title := "Q1 Travel", Status := "draft", Total := 155,
              Expenses :=
                [{ ID := 1, UserID := 7, Amount := 100, Currency := "USD",
                   Category := "travel", Description := "flight", Receipt := "",
                   Status := "pending" },
                 { ID := 2, UserID := 7, Amount := 50, Currency := "EUR",
                   Category := "meals", Description := "dinner", Receipt := "",
                   Status := "pending" }] },
            { scenarioAdded with redis := [("report:1", "snapshot#1")] }),
          [ExternalCall.redisGet "report:1",
           ExternalCall.redisSet "report:1" "snapshot#1" 1800]) ∧
    GetReportByIDTraced scenarioCodec noFaults scenarioAdded 5
      = ((Except.error (NewNotFoundError "expense report"), scenarioAdded),
          [ExternalCall.redisGet "report:5"]) ∧
    GetUserByID scenarioUserCodec scenarioUserRepository userStateCached 7
      = (Except.ok { ID := 7, Email := "ada@example.com", Name := "Ada" },
          { redis := [("user:7", "user#7:ada@example.com:Ada")],
            calls := [ExternalCall.redisGet "user:7"] }) ∧
    GetUserByID scenarioUserCodec scenarioUserRepository rateStateEmpty 7
      = (Except.ok { ID := 7, Email := "ada@example.com", Name := "Ada" },
          { redis := [("user:7", "user#7:ada@example.com:Ada")],
            calls := [ExternalCall.redisGet "user:7",
                      ExternalCall.redisSet "user:7" "user#7:ada@example.com:Ada" 3600] }) :=
  have h1 := single_entity_read_through scenarioCodec noFaults scenarioAddedCached 1
    scenarioUserCodec scenarioUserRepository userStateCached 7
  have h2 := single_entity_read_through scenarioCodec noFaults scenarioAdded 1
    scenarioUserCodec scenarioUserRepository rateStateEmpty 7
  have h3 := single_entity_read_through scenarioCodec noFaults scenarioAdded 5
    scenarioUserCodec scenarioUserRepository rateStateEmpty 7
  ⟨(h1.2.1 "snapshot#0" (scenarioLoaded "draft" 0 []) (by decide)
      (by with_unfolding_all rfl)).trans (by with_unfolding_all rfl),
    ((h2.2.2.1 (Or.inl (by decide))).2 (scenarioLoaded "draft" 155 scenarioExpenses)
      (by with_unfolding_all rfl)).1.trans (by with_unfolding_all rfl),
    (h3.2.2.1 (Or.inl (by decide))).1 DBError.RecordNotFound (by with_unfolding_all rfl),
    (h1.2.2.2.1 "user#7:ada@example.com:Ada" scenarioUser (by decide) (by rfl)).trans
      (by rfl),
    ((h2.2.2.2.2 (Or.inl (by decide))).2 scenarioUser (by rfl)).1.trans (by rfl)⟩

/-- C23: for an expense that exists and an acting user who is not its owner,
`UpdateExpense` and `DeleteExpense` return an error, the BadRequest of the ownership check
when the lookup itself does not fail, and leave the whole state as it was: the stored
expense is unchanged and not deleted. -/
theorem expense_mutation_requires_owner (f : Faults) (w : World) (id userID : Nat)
    (req : UpdateExpenseRequest) (expense : Expense)
    (hr : expenseRepository.GetByID w.db id = Except.ok expense)
    (hne : expense.UserID ≠ userID) :
    (∃ err, UpdateExpense f w id userID req = (Except.error err, w) ∧
      (f RepoCall.expenseGetByID = false →
        err = NewBadRequestError "you can only update your own expenses")) ∧
    (∃ err, DeleteExpense f w id userID = (some err, w) ∧
      (f RepoCall.expenseGetByID = false →
        err = NewBadRequestError "you can only delete your own expenses")) ∧
    expenseRepository.GetByID (UpdateExpense f w id userID req).2.db id = Except.ok expense ∧
    expenseRepository.GetByID (DeleteExpense f w id userID).2.db id = Except.ok expense := by
  obtain ⟨e1, h1, h1b⟩ := UpdateExpense_not_owner f w id userID req expense hr hne
  obtain ⟨e2, h2, h2b⟩ := DeleteExpense_not_owner f w id userID expense hr hne
  refine ⟨⟨e1, h1, h1b⟩, ⟨e2, h2, h2b⟩, ?_, ?_⟩
  · rw [h1]
    exact hr
  · rw [h2]
    exact hr

/-- User 8 tries to change and to delete expense 1 of user 7. -/
theorem expense_mutation_requires_owner_witness :
    UpdateExpense noFaults scenarioAdded 1 8
        { Amount := some 1, Currency := "", Category := "", Description := "", Receipt := "",
          Status := "approved" }
      = (Except.error (NewBadRequestError "you can only update your own expenses"),
          scenarioAdded) ∧
    DeleteExpense noFaults scenarioAdded 1 8
      = (some (NewBadRequestError "you can only delete your own expenses"), scenarioAdded) :=
  have h := expense_mutation_requires_owner noFaults scenarioAdded 1 8
    { Amount := some 1, Currency := "", Category := "", Description := "", Receipt := "",
      Status := "approved" }
    { ID := 1, UserID := 7, Amount := 100, Currency := "USD", Category := "travel",
      Description := "flight", Receipt := "", Status := "pending", Deleted := false }
    (by with_unfolding_all rfl) (by decide)
  ⟨by
      obtain ⟨err, hrun, herr⟩ := h.1
      rw [hrun, herr rfl],
    by
      obtain ⟨err, hrun, herr⟩ := h.2.1
      rw [hrun, herr rfl]⟩

/-- C24: in every state reached from the empty store through the service operations, each
expense is linked to at most one report.  So whenever `SubmitReport` succeeds on a report,
the report holds at least one expense and none of its expenses is linked to another
report, draft or not, before or after the call, and none is loaded with another report.
And `AddExpensesToReport` attaches no stored expense to a second report: a request that
names an id returns an error and leaves the state as it was. -/
theorem expense_in_one_report_at_submission (cs : CurrencyService) (w : World)
    (h : Reachable cs anyCall w) :
    (∀ id r1 r2, (r1, id) ∈ w.db.report_expenses → (r2, id) ∈ w.db.report_expenses →
      r1 = r2) ∧
    (∀ (f : Faults) (reportID userID : Nat) (report : ExpenseReport),
      expenseReportRepository.GetByID w.db reportID = Except.ok report →
      (SubmitReport f w reportID userID).1 = none →
      report.Expenses ≠ [] ∧
      ∀ e ∈ report.Expenses, ∀ otherID, otherID ≠ reportID →
        (otherID, e.ID) ∉ w.db.report_expenses ∧
        (otherID, e.ID) ∉ (SubmitReport f w reportID userID).2.db.report_expenses ∧
        ∀ other,
          expenseReportRepository.GetByID (SubmitReport f w reportID userID).2.db otherID
            = Except.ok other → e.ID ∉ other.Expenses.map (fun x => x.ID)) ∧
    (∀ (f : Faults) (reportID userID : Nat) (req : AddExpensesToReportRequest),
      req.ExpenseIDs ≠ [] →
      ∃ err, AddExpensesToReport cs f w reportID userID req = (some err, w)) :=
  ⟨heldByOneReport_reachable h,
    fun f reportID userID report hr hsub =>
      submitted_expenses_unshared h f reportID userID report hr hsub,
    fun f reportID userID req hne => AddExpensesToReport_named cs f w reportID userID req hne⟩

/-- Two draft reports of user 7, each holding the blank expense its own empty request
linked to it.  Report 1 is submitted: the submit succeeds, its expense 1 is not linked to
report 2, and report 2, still a draft, is loaded with expense 2 only.  A request to attach
expense 1 to report 2 returns an error and changes nothing. -/
theorem expense_in_one_report_at_submission_witness :
    runBothBlank.db.report_expenses = [(1, 1), (2, 2)] ∧
    (SubmitReport noFaults runBothBlank 1 7).1 = none ∧
    (scenarioLoaded "draft" 0 [scenarioBlank]).Expenses ≠ [] ∧
    (∀ e ∈ (scenarioLoaded "draft" 0 [scenarioBlank]).Expenses, ∀ otherID, otherID ≠ 1 →
      (otherID, e.ID) ∉ runBothBlank.db.report_expenses ∧
      (otherID, e.ID) ∉ (SubmitReport noFaults runBothBlank 1 7).2.db.report_expenses ∧
      ∀ other,
        expenseReportRepository.GetByID (SubmitReport noFaults runBothBlank 1 7).2.db otherID
          = Except.ok other → e.ID ∉ other.Expenses.map (fun x => x.ID)) ∧
    statusOf (SubmitReport noFaults runBothBlank 1 7).2.db 2 = some "draft" ∧
    (expenseReportRepository.GetByID (SubmitReport noFaults runBothBlank 1 7).2.db
        2).toOption.map (fun r => r.Expenses.map (fun e => e.ID)) = some [2] ∧
    ∃ err, AddExpensesToReport scenarioService noFaults runBothBlank 2 7
        { ExpenseIDs := [1] } = (some err, runBothBlank) :=
  have hreach : Reachable scenarioService anyCall runBothBlank :=
    Reachable.step noFaults runFirstBlank (Op.addExpensesToReport 2 7 { ExpenseIDs := [] })
      (Reachable.step noFaults runSecondReport
        (Op.addExpensesToReport 1 7 { ExpenseIDs := [] })
        (Reachable.step noFaults runCreated (Op.createReport 7 { Title := "Q2 Travel" })
          (Reachable.step noFaults World.empty (Op.createReport 7 { Title := "Q1 Travel" })
            Reachable.init trivial)
          trivial)
        trivial)
      trivial
  have h := expense_in_one_report_at_submission scenarioService runBothBlank hreach
  have hsub := h.2.1 noFaults 1 7 (scenarioLoaded "draft" 0 [scenarioBlank])
    (by with_unfolding_all rfl) (by with_unfolding_all decide)
  ⟨by with_unfolding_all decide, by with_unfolding_all decide, hsub.1, hsub.2,
    by with_unfolding_all decide, by with_unfolding_all decide,
    h.2.2 noFaults 2 7 { ExpenseIDs := [1] } (by decide)⟩

/-- C25: the service does not check the amount.  On the request of the service test
"invalid amount (zero)", with an insert that succeeds, `CreateExpense` returns the created
expense and no error, and the expense with amount 0 is stored; the same holds for a
negative amount. -/
theorem create_expense_accepts_zero_amount :
    (CreateExpense noFaults World.empty 1 zeroAmountRequest).1
      = Except.ok { ID := 1, UserID := 1, Amount := 0, Currency := "USD",
                    Category := "travel", Description := "", Receipt := "",
                    Status := "pending" } ∧
    (CreateExpense noFaults World.empty 1 zeroAmountRequest).2.db.expenses
      = [{ ID := 1, UserID := 1, Amount := 0, Currency := "USD", Category := "travel",
           Description := "", Receipt := "", Status := "pending", Deleted := false }] ∧
    (CreateExpense noFaults World.empty 1 { zeroAmountRequest with Amount := -5 }).1.toOption.map
      (fun e => e.Amount) = some (-5) := by
  refine ⟨by with_unfolding_all rfl, by with_unfolding_all decide, by with_unfolding_all decide⟩

/-- C26: at the last page an `int` can name, with 100 rows a page, the product
`(Page - 1) * PerPage` wraps around: `ListExpenses` and `ListReports` ask the repository
for offset -200, limit 100. -/
theorem last_page_offset_is_negative
    (expenses : Nat → Int → Int → String → String → Except DBError (List Expense × Int))
    (reports : Nat → Int → Int → String → Except DBError (List ExpenseReport × Int)) :
    ListExpenses expenses 1 lastPageFilter
      = (match expenses 1 (-200) 100 "" "" with
        | Except.error err => Except.error (NewInternalError "failed to list expenses" err)
        | Except.ok (rows, total) =>
          Except.ok { Expenses := rows.map mapToExpenseResponse,
                      Page := 9223372036854775807, PerPage := 100, Total := total }) ∧
    ListReports reports 1 { Status := "", Page := 9223372036854775807, PerPage := 100 }
      = (match reports 1 (-200) 100 "" with
        | Except.error err => Except.error (NewInternalError "failed to list reports" err)
        | Except.ok (rows, total) =>
          Except.ok { Reports := rows.map mapToReportResponse,
                      Page := 9223372036854775807, PerPage := 100, Total := total }) := by
  have hpage : normalPage 9223372036854775807 = 9223372036854775807 := by decide
  have hper : normalPerPage 100 = 100 := by decide
  have hoff : wrapInt (wrapInt (9223372036854775807 - 1) * 100) = -200 := by decide
  constructor
  · rw [ListExpenses_eq]
    simp only [lastPageFilter, hpage, hper, hoff]
    try rfl
  · rw [ListReports_eq]
    simp only [hpage, hper, hoff]
    try rfl

/-- C27: with an insert that succeeds, `CreateExpense` returns and stores, under a fresh
key, an expense of the acting user with the amount, currency, category, description and
receipt of the request and status pending; with an insert that fails it returns the
Internal error "failed to create expense", no expense, and stores nothing. -/
theorem create_expense_stores_pending_expense (f : Faults) (w : World) (userID : Nat)
    (req : CreateExpenseRequest) :
    (f RepoCall.expenseCreate = false →
      ∃ response w1, CreateExpense f w userID req = (Except.ok response, w1) ∧
        response.UserID = userID ∧ response.Amount = req.Amount ∧
        response.Currency = req.Currency ∧ response.Category = req.Category ∧
        response.Description = req.Description ∧ response.Receipt = req.Receipt ∧
        response.Status = "pending" ∧
        response.ID ∉ w.db.expenses.map (fun e => e.ID) ∧
        expenseRepository.GetByID w1.db response.ID = Except.ok
          { ID := response.ID, UserID := userID, Amount := req.Amount,
            Currency := req.Currency, Category := req.Category,
            Description := req.Description, Receipt := req.Receipt, Status := "pending",
            Deleted := false }) ∧
    (f RepoCall.expenseCreate = true →
      CreateExpense f w userID req
        = (Except.error (NewInternalError "failed to create expense" DBError.Failure), w)) :=
  ⟨fun hf => ⟨_, _, CreateExpense_run f w userID req hf, rfl, rfl, rfl, rfl, rfl, rfl, rfl,
      nextID_fresh _, expenseGetByID_created w.db _ rfl rfl⟩,
    fun hf => CreateExpense_fails f w userID req hf⟩

/-- The request of the service test "valid expense creation" on the empty store: the
expense gets key 1; with a failing insert the error is Internal and the store stays
empty. -/
theorem create_expense_stores_pending_expense_witness :
    (∃ response w1, CreateExpense noFaults World.empty 1 validExpenseRequest
        = (Except.ok response, w1) ∧
      response.UserID = 1 ∧ response.Amount = validExpenseRequest.Amount ∧
      response.Currency = validExpenseRequest.Currency ∧
      response.Category = validExpenseRequest.Category ∧
      response.Description = validExpenseRequest.Description ∧
      response.Receipt = validExpenseRequest.Receipt ∧
      response.Status = "pending" ∧
      response.ID ∉ World.empty.db.expenses.map (fun e => e.ID) ∧
      expenseRepository.GetByID w1.db response.ID = Except.ok
        { ID := response.ID, UserID := 1, Amount := validExpenseRequest.Amount,
          Currency := validExpenseRequest.Currency,
          Category := validExpenseRequest.Category,
          Description := validExpenseRequest.Description,
          Receipt := validExpenseRequest.Receipt, Status := "pending", Deleted := false }) ∧
    CreateExpense (fun _ => true) World.empty 1 validExpenseRequest
      = (Except.error (NewInternalError "failed to create expense" DBError.Failure),
          World.empty) ∧
    (CreateExpense noFaults World.empty 1 validExpenseRequest).1.toOption.map (fun e => e.ID)
      = some 1 :=
  ⟨(create_expense_stores_pending_expense noFaults World.empty 1 validExpenseRequest).1 rfl,
    (create_expense_stores_pending_expense (fun _ => true) World.empty 1
      validExpenseRequest).2 rfl,
    by with_unfolding_all decide⟩

/-- C29: the six decimals of `%f` do not give the rate back.  On an empty cache the
provider answers 1.23456789 for EUR to USD: the call that fills the cache returns
1.23456789, the text stored is 1.234568, and the next call, a hit, returns 1.234568.
For the rate 0.0000004 the text stored is 0.000000 and the next call returns 0. -/
theorem cached_rate_text_loses_digits :
    (currencyService.GetExchangeRate preciseBackend rateStateEmpty "EUR" "USD").1
      = Except.ok (123456789 / 100000000) ∧
    (currencyService.GetExchangeRate preciseBackend rateStateEmpty "EUR" "USD").2.redis
      = [("exchange_rate:EUR:USD", "1.234568")] ∧
    (currencyService.GetExchangeRate preciseBackend
      (currencyService.GetExchangeRate preciseBackend rateStateEmpty "EUR" "USD").2
      "EUR" "USD").1 = Except.ok (1234568 / 1000000) ∧
    (currencyService.GetExchangeRate preciseBackend rateStateEmpty "EUR" "BTC").1
      = Except.ok (4 / 10000000) ∧
    (currencyService.GetExchangeRate preciseBackend rateStateEmpty "EUR" "BTC").2.redis
      = [("exchange_rate:EUR:BTC", "0.000000")] ∧
    (currencyService.GetExchangeRate preciseBackend
      (currencyService.GetExchangeRate preciseBackend rateStateEmpty "EUR" "BTC").2
      "EUR" "BTC").1 = Except.ok 0 := by
  refine ⟨by with_unfolding_all rfl, by with_unfolding_all decide, by with_unfolding_all rfl,
    by with_unfolding_all rfl, by with_unfolding_all decide, by with_unfolding_all rfl⟩

/-- C30: a request whose ids all resolve is rejected all the same.  On a draft report of
the acting user, with a non-empty list of ids that each resolve to a live expense of that
user and with repository calls that succeed wherever the data allows, `AddExpensesToReport`
returns an error and leaves the state as it was; when the ids are pairwise different the
error is the Internal error of the association step, "failed to add expenses to report". -/
theorem resolving_request_is_rejected (cs : CurrencyService) (f : Faults) (w : World)
    (reportID userID : Nat) (req : AddExpensesToReportRequest) (report : ExpenseReport)
    (hfaults : ∀ c, f c = false) (hkey : expensesKeyed w.db)
    (hr : expenseReportRepository.GetByID w.db reportID = Except.ok report)
    (hown : report.UserID = userID) (hst : report.Status = ReportStatusDraft)
    (hne : req.ExpenseIDs ≠ [])
    (hres : ∀ id ∈ req.ExpenseIDs, resolves w.db userID id) :
    (∃ err, AddExpensesToReport cs f w reportID userID req = (some err, w)) ∧
    (req.ExpenseIDs.Nodup →
      AddExpensesToReport cs f w reportID userID req
        = (some (NewInternalError "failed to add expenses to report" DBError.Failure), w)) :=
  ⟨AddExpensesToReport_named cs f w reportID userID req hne,
    fun hnd => AddExpensesToReport_resolving cs f w reportID userID req report hkey hr
      (hfaults _) hown hst (hfaults _) hne hnd hres⟩

/-- The scenario replayed from the empty store: report 1 is a draft of user 7, expense 1
resolves for user 7, no repository call fails, and the request `[1]` returns the Internal
error with nothing stored. -/
theorem resolving_request_is_rejected_witness :
    Reachable scenarioService anyCall runExpense2 ∧
    (∀ id ∈ [1], resolves runExpense2.db 7 id) ∧
    statusOf runExpense2.db 1 = some "draft" ∧
    AddExpensesToReport scenarioService noFaults runExpense2 1 7 { ExpenseIDs := [1] }
      = (some (NewInternalError "failed to add expenses to report" DBError.Failure),
          runExpense2) ∧
    runExpense2.db.report_expenses = [] :=
  ⟨runExpense2_reachable anyCall (fun _ _ _ _ => trivial) (fun _ _ _ _ => trivial),
    by with_unfolding_all decide, by with_unfolding_all decide,
    (resolving_request_is_rejected scenarioService noFaults runExpense2 1 7
      { ExpenseIDs := [1] } (scenarioLoaded "draft" 0 []) (fun _ => rfl)
      (by with_unfolding_all decide) (by with_unfolding_all rfl) rfl rfl (by decide)
      (by with_unfolding_all decide)).2 (by decide),
    by with_unfolding_all decide⟩

end FlyPro
